import Mathlib

/-! # dockm: authorization policy, request bouncer, proxy transport and registry

A shallow embedding of `api/http/security/authorization.go`,
`api/http/security/bouncer.go`, of the router, the operations, the decorator and the
manager of `api/http/proxy`, of `api/http/handler/docker.go` and of `api/bolt/migrator.go`,
followed by the properties established about them.
Go slices are lists, Go `int`-based identifiers are integers, and `range` loops are
structural recursions (loops that leave early) or left folds (loops that run to the end).
-/

namespace dockm

/-! ## Data model (package `dockm`) -/

/-- Modelled from the spec: `dockm.UserID`, an integer identifier; the declaration file of
package `dockm` is not part of the sources. -/
abbrev UserID := Int

/-- Modelled from the spec: `dockm.TeamID`, an integer identifier; the declaration file of
package `dockm` is not part of the sources. -/
abbrev TeamID := Int

/-- Modelled from the spec: `dockm.UserRole`, an integer-coded role; the declaration file of
package `dockm` is not part of the sources. -/
abbrev UserRole := Int

/-- Modelled from the spec: `dockm.MembershipRole`, an integer-coded role; the declaration
file of package `dockm` is not part of the sources. -/
abbrev MembershipRole := Int

/-- Modelled from the spec: the constant `dockm.AdministratorRole`, first value of the role
enumeration (`api/http/handler/user.go` reads role `1` as the administrator role). -/
def AdministratorRole : UserRole := 1

/-- Modelled from the spec: the constant `dockm.StandardUserRole`, second value of the role
enumeration. -/
def StandardUserRole : UserRole := 2

/-- Modelled from the spec: the constant `dockm.TeamLeader`, first value of the membership
role enumeration. -/
def TeamLeader : MembershipRole := 1

/-- Modelled from the spec: the constant `dockm.TeamMember`, second value of the membership
role enumeration. -/
def TeamMember : MembershipRole := 2

/-- Go's `dockm.TeamMembership`: the fields read by the security package. -/
structure TeamMembership where
  UserID : UserID
  TeamID : TeamID
  Role : MembershipRole
  deriving DecidableEq, Repr

/-- Go's `dockm.UserResourceAccess`. -/
structure UserResourceAccess where
  UserID : UserID
  deriving DecidableEq, Repr

/-- Go's `dockm.TeamResourceAccess`. -/
structure TeamResourceAccess where
  TeamID : TeamID
  deriving DecidableEq, Repr

/-- Go's `dockm.ResourceControl`: the fields read by the security package, plus the
resource identifier. -/
structure ResourceControl where
  ResourceID : String
  AdministratorsOnly : Bool
  UserAccesses : List UserResourceAccess
  TeamAccesses : List TeamResourceAccess
  deriving DecidableEq, Repr

/-- Go's `dockm.TokenData`. -/
structure TokenData where
  ID : UserID
  Username : String
  Role : UserRole
  deriving DecidableEq, Repr

end dockm

namespace security

open dockm

/-- Go's `security.RestrictedRequestContext`. -/
structure RestrictedRequestContext where
  IsAdmin : Bool
  IsTeamLeader : Bool
  UserID : UserID
  UserMemberships : List TeamMembership
  deriving DecidableEq, Repr

/-! ## `authorization.go` -/

/-- Inner loop of the deletion check: `for _, membership := range context.UserMemberships`,
leaving with `true` at the first membership of the given team. -/
def deletionMembershipLoop (teamID : TeamID) : List TeamMembership → Bool
  | [] => false
  | membership :: rest =>
    if membership.TeamID = teamID then true else deletionMembershipLoop teamID rest

/-- Outer loop of the deletion check: `for _, access := range resourceControl.TeamAccesses`. -/
def deletionTeamLoop (memberships : List TeamMembership) : List TeamResourceAccess → Bool
  | [] => false
  | access :: rest =>
    if deletionMembershipLoop access.TeamID memberships then true
    else deletionTeamLoop memberships rest

/-- Loop `for _, access := range resourceControl.UserAccesses` of the deletion check. -/
def deletionUserLoop (userID : UserID) : List UserResourceAccess → Bool
  | [] => false
  | access :: rest =>
    if access.UserID = userID then true else deletionUserLoop userID rest

/-- Go's `AuthorizedResourceControlDeletion`. -/
def AuthorizedResourceControlDeletion (resourceControl : ResourceControl)
    (context : RestrictedRequestContext) : Bool :=
  if context.IsAdmin then true
  else if resourceControl.AdministratorsOnly then false
  else
    let userAccessesCount := resourceControl.UserAccesses.length
    let teamAccessesCount := resourceControl.TeamAccesses.length
    if teamAccessesCount > 0 ∧
        deletionTeamLoop context.UserMemberships resourceControl.TeamAccesses then true
    else if userAccessesCount > 0 ∧
        deletionUserLoop context.UserID resourceControl.UserAccesses then true
    else false

/-- Inner loop of the creation check: it runs over every membership and raises the
`isMember` flag, without leaving early. -/
def creationIsMember (teamID : TeamID) (memberships : List TeamMembership) : Bool :=
  memberships.foldl
    (fun isMember membership => if membership.TeamID = teamID then true else isMember) false

/-- Outer loop of the creation check: `return false` at the first team access of which the
requester is no member; `true` stands for falling out of the loop. -/
def creationTeamLoop (memberships : List TeamMembership) : List TeamResourceAccess → Bool
  | [] => true
  | access :: rest =>
    if !creationIsMember access.TeamID memberships then false
    else creationTeamLoop memberships rest

/-- Go's `AuthorizedResourceControlCreation`. -/
def AuthorizedResourceControlCreation (resourceControl : ResourceControl)
    (context : RestrictedRequestContext) : Bool :=
  if context.IsAdmin then true
  else if resourceControl.AdministratorsOnly then false
  else
    let userAccessesCount := resourceControl.UserAccesses.length
    let teamAccessesCount := resourceControl.TeamAccesses.length
    if userAccessesCount > 1 ∨ (userAccessesCount = 1 ∧ teamAccessesCount = 1) then false
    else
      match resourceControl.UserAccesses with
      | [access] =>
        if access.UserID = context.UserID then true
        else if teamAccessesCount > 0 then
          creationTeamLoop context.UserMemberships resourceControl.TeamAccesses
        else true
      | _ =>
        if teamAccessesCount > 0 then
          creationTeamLoop context.UserMemberships resourceControl.TeamAccesses
        else true

/-- Go's `AuthorizedResourceControlUpdate`. -/
def AuthorizedResourceControlUpdate (resourceControl : ResourceControl)
    (context : RestrictedRequestContext) : Bool :=
  let userAccessesCount := resourceControl.UserAccesses.length
  if !context.IsAdmin ∧ userAccessesCount > 0 then false
  else AuthorizedResourceControlCreation resourceControl context

/-- Loop of `AuthorizedTeamManagement` over the requester's memberships. -/
def teamManagementLoop (teamID : TeamID) : List TeamMembership → Bool
  | [] => false
  | membership :: rest =>
    if membership.TeamID = teamID ∧ membership.Role = TeamLeader then true
    else teamManagementLoop teamID rest

/-- Go's `AuthorizedTeamManagement`. -/
def AuthorizedTeamManagement (teamID : TeamID) (context : RestrictedRequestContext) : Bool :=
  if context.IsAdmin then true
  else teamManagementLoop teamID context.UserMemberships

/-- Go's `AuthorizedUserManagement`. -/
def AuthorizedUserManagement (userID : UserID) (context : RestrictedRequestContext) : Bool :=
  if context.IsAdmin ∨ context.UserID = userID then true else false

end security

namespace security

open dockm

/-! ## The ownership relation of the data model -/

/-- The ownership relation as the data model words it: the principal is an administrator, or
the record is not administrators-only and the principal is one of its users or a member of
one of its teams. -/
def Ownership (rc : ResourceControl) (principal : RestrictedRequestContext) : Prop :=
  principal.IsAdmin = true ∨
    (rc.AdministratorsOnly = false ∧
      ((∃ access ∈ rc.UserAccesses, access.UserID = principal.UserID) ∨
        (∃ access ∈ rc.TeamAccesses,
          ∃ membership ∈ principal.UserMemberships, membership.TeamID = access.TeamID)))

/-! ## `bouncer.go`

A handler is modelled by the sequence of effects it performs on the response writer and on
the collaborating services while serving a request; a middleware maps a handler to a
handler. -/

/-- Go's `dockm.Error`, an error carrying its message. -/
abbrev Error := String

/-- Go's `dockm.ErrUnauthorized` (`api/errors.go`). -/
def ErrUnauthorized : Error := "Unauthorized"

/-- Go's `dockm.ErrResourceAccessDenied` (`api/errors.go`). -/
def ErrResourceAccessDenied : Error := "Access denied to resource"

/-- Go's `http.StatusUnauthorized`. -/
def StatusUnauthorized : Nat := 401

/-- Go's `http.Request`: method, path, the header map (`map[string][]string`) and the two
values the security package keeps in the request context. -/
structure Request where
  Method : String
  Path : String
  Header : List (String × List String)
  tokenData : Option TokenData
  restrictedContext : Option RestrictedRequestContext
  deriving DecidableEq, Repr

/-- The effects a handler performs while serving a request. -/
inductive Event where
  /-- `w.Header().Add(key, value)` -/
  | headerAdd (key value : String)
  /-- `httperror.WriteErrorResponse(w, err, code, nil)` -/
  | writeErrorResponse (err : Error) (code : Nat)
  /-- `bouncer.jwtService.ParseAndVerifyToken(token)` -/
  | parseAndVerifyToken (token : String)
  /-- `bouncer.teamMembershipService.TeamMembershipsByUserID(userID)` -/
  | teamMembershipsByUserID (userID : UserID)
  /-- the innermost handler of a chain serving the request it was handed -/
  | handled (r : Request)
  deriving DecidableEq, Repr

/-- Go's `http.Handler`, by the effects of `ServeHTTP(w, r)`. -/
abbrev Handler := Request → List Event

/-- An innermost handler that only records the request it is handed. -/
def recordingHandler : Handler := fun r => [Event.handled r]

/-- Go's `dockm.JWTService`, the method used by the bouncer. -/
structure JWTService where
  ParseAndVerifyToken : String → Except Error TokenData

/-- Go's `dockm.TeamMembershipService`, the method used by the bouncer. -/
structure TeamMembershipService where
  TeamMembershipsByUserID : UserID → Except Error (List TeamMembership)

/-- Go's `security.RequestBouncer`. -/
structure RequestBouncer where
  jwtService : JWTService
  teamMembershipService : TeamMembershipService
  authDisabled : Bool

/-- Modelled from the spec: `storeTokenData` followed by `r.WithContext(ctx)`; the file
`api/http/security/context.go` is not part of the sources. The token data becomes the value
kept in the context of the request handed on. -/
def storeTokenData (r : Request) (tokenData : TokenData) : Request :=
  { r with tokenData := some tokenData }

/-- Go's `strings.TrimPrefix`. -/
def TrimPrefix (s pre : String) : String :=
  if pre.data.isPrefixOf s.data then String.mk (s.data.drop pre.data.length) else s

/-- The block "Get token from the Authorization header" of `mwCheckAuthentication`: the
value of the local variable `token` once the block has run. -/
def authorizationToken (r : Request) : String :=
  match r.Header.lookup "Authorization" with
  | some (first :: _) => TrimPrefix first "Bearer "
  | _ => ""

/-- Go's `RequestBouncer.mwCheckAuthentication`. -/
def mwCheckAuthentication (bouncer : RequestBouncer) (next : Handler) : Handler := fun r =>
  if !bouncer.authDisabled then
    let token := authorizationToken r
    if token = "" then
      [Event.writeErrorResponse ErrUnauthorized StatusUnauthorized]
    else
      Event.parseAndVerifyToken token ::
        match bouncer.jwtService.ParseAndVerifyToken token with
        | Except.error err => [Event.writeErrorResponse err StatusUnauthorized]
        | Except.ok tokenData => next (storeTokenData r tokenData)
  else
    next (storeTokenData r { ID := 0, Username := "", Role := AdministratorRole })

/-- Go's `http.StatusForbidden`. -/
def StatusForbidden : Nat := 403

/-- Go's `http.StatusInternalServerError`. -/
def StatusInternalServerError : Nat := 500

/-- Go's `dockm.ErrMissingSecurityContext` (`api/errors.go`). -/
def ErrMissingSecurityContext : Error := "Unable to find security details in request context"

/-- Modelled from the spec: `RetrieveTokenData` of `api/http/security/context.go`, which is
not part of the sources. It hands back the token data kept in the request context, and an
error when the context holds none. -/
def RetrieveTokenData (r : Request) : Except Error TokenData :=
  match r.tokenData with
  | some tokenData => Except.ok tokenData
  | none => Except.error ErrMissingSecurityContext

/-- Modelled from the spec: `storeRestrictedRequestContext` followed by
`r.WithContext(ctx)`; the file `api/http/security/context.go` is not part of the sources.
The requester context becomes the value kept in the context of the request handed on. -/
def storeRestrictedRequestContext (r : Request) (requestContext : RestrictedRequestContext) :
    Request :=
  { r with restrictedContext := some requestContext }

/-- Go's `mwSecureHeaders`. -/
def mwSecureHeaders (next : Handler) : Handler := fun r =>
  Event.headerAdd "X-Content-Type-Options" "nosniff" ::
    Event.headerAdd "X-Frame-Options" "DENY" :: next r

/-- Go's `mwCheckAdministratorRole`. -/
def mwCheckAdministratorRole (next : Handler) : Handler := fun r =>
  match RetrieveTokenData r with
  | Except.error _ => [Event.writeErrorResponse ErrResourceAccessDenied StatusForbidden]
  | Except.ok tokenData =>
    if tokenData.Role ≠ AdministratorRole then
      [Event.writeErrorResponse ErrResourceAccessDenied StatusForbidden]
    else next r

/-- Go's `RequestBouncer.PublicAccess`. -/
def PublicAccess (_bouncer : RequestBouncer) (h : Handler) : Handler :=
  mwSecureHeaders h

/-- Go's `RequestBouncer.AuthenticatedAccess`. -/
def AuthenticatedAccess (bouncer : RequestBouncer) (h : Handler) : Handler :=
  mwSecureHeaders (mwCheckAuthentication bouncer h)

/-- Go's `RequestBouncer.AdministratorAccess`. -/
def AdministratorAccess (bouncer : RequestBouncer) (h : Handler) : Handler :=
  AuthenticatedAccess bouncer (mwCheckAdministratorRole h)

/-- The loop of `newRestrictedContextRequest` over the memberships: it raises the
`isTeamLeader` flag and runs to the end. -/
def isTeamLeaderLoop (memberships : List TeamMembership) : Bool :=
  memberships.foldl
    (fun isTeamLeader membership => if membership.Role = TeamLeader then true else isTeamLeader)
    false

/-- Go's `RequestBouncer.newRestrictedContextRequest`: the calls made on the membership
service, and the pair `(requestContext, err)` as a sum. -/
def newRestrictedContextRequest (bouncer : RequestBouncer) (userID : UserID)
    (userRole : UserRole) : List Event × Except Error RestrictedRequestContext :=
  if userRole ≠ AdministratorRole then
    match bouncer.teamMembershipService.TeamMembershipsByUserID userID with
    | Except.error err => ([Event.teamMembershipsByUserID userID], Except.error err)
    | Except.ok memberships =>
      ([Event.teamMembershipsByUserID userID],
        Except.ok { IsAdmin := false, IsTeamLeader := isTeamLeaderLoop memberships,
                    UserID := userID, UserMemberships := memberships })
  else
    ([], Except.ok { IsAdmin := true, IsTeamLeader := false, UserID := userID,
                     UserMemberships := [] })

/-- Go's `RequestBouncer.mwUpgradeToRestrictedRequest`. -/
def mwUpgradeToRestrictedRequest (bouncer : RequestBouncer) (next : Handler) : Handler :=
  fun r =>
    match RetrieveTokenData r with
    | Except.error _ => [Event.writeErrorResponse ErrResourceAccessDenied StatusForbidden]
    | Except.ok tokenData =>
      match newRestrictedContextRequest bouncer tokenData.ID tokenData.Role with
      | (calls, Except.error err) =>
        calls ++ [Event.writeErrorResponse err StatusInternalServerError]
      | (calls, Except.ok requestContext) =>
        calls ++ next (storeRestrictedRequestContext r requestContext)

/-- Go's `RequestBouncer.RestrictedAccess`. -/
def RestrictedAccess (bouncer : RequestBouncer) (h : Handler) : Handler :=
  AuthenticatedAccess bouncer (mwUpgradeToRestrictedRequest bouncer h)

/-! ## Sample inputs -/

/-- A standard user, plain member of team 10. -/
def sampleMember : RestrictedRequestContext :=
  { IsAdmin := false, IsTeamLeader := false, UserID := 1,
    UserMemberships := [{ UserID := 1, TeamID := 10, Role := TeamMember }] }

/-- A standard user with no membership at all. -/
def sampleLoner : RestrictedRequestContext :=
  { IsAdmin := false, IsTeamLeader := false, UserID := 1, UserMemberships := [] }

/-- A standard user leading team 20 and plain member of team 10. -/
def sampleLeader : RestrictedRequestContext :=
  { IsAdmin := false, IsTeamLeader := true, UserID := 3,
    UserMemberships := [{ UserID := 3, TeamID := 10, Role := TeamMember },
      { UserID := 3, TeamID := 20, Role := TeamLeader }] }

/-- An administrator. -/
def sampleAdmin : RestrictedRequestContext :=
  { IsAdmin := true, IsTeamLeader := false, UserID := 9, UserMemberships := [] }

/-- A record shared with team 10 only. -/
def rcTeam10 : ResourceControl :=
  { ResourceID := "vol", AdministratorsOnly := false, UserAccesses := [],
    TeamAccesses := [{ TeamID := 10 }] }

/-- An administrators-only record that still lists team 10. -/
def rcAdminOnlyTeam10 : ResourceControl :=
  { ResourceID := "vol", AdministratorsOnly := true, UserAccesses := [],
    TeamAccesses := [{ TeamID := 10 }] }

/-- A record granted to user 2 alone, with no team. -/
def rcUser2 : ResourceControl :=
  { ResourceID := "vol", AdministratorsOnly := false, UserAccesses := [{ UserID := 2 }],
    TeamAccesses := [] }

/-- A record granted to user 1 and to the teams 10 and 20. -/
def rcUser1Teams : ResourceControl :=
  { ResourceID := "vol", AdministratorsOnly := false, UserAccesses := [{ UserID := 1 }],
    TeamAccesses := [{ TeamID := 10 }, { TeamID := 20 }] }

/-- A record granted to user 1 and to team 10. -/
def rcUser1Team10 : ResourceControl :=
  { ResourceID := "vol", AdministratorsOnly := false, UserAccesses := [{ UserID := 1 }],
    TeamAccesses := [{ TeamID := 10 }] }

/-- A record granted to the users 1 and 2. -/
def rcTwoUsers : ResourceControl :=
  { ResourceID := "vol", AdministratorsOnly := false,
    UserAccesses := [{ UserID := 1 }, { UserID := 2 }], TeamAccesses := [] }

/-- A record granted to user 1 alone. -/
def rcUser1 : ResourceControl :=
  { ResourceID := "vol", AdministratorsOnly := false, UserAccesses := [{ UserID := 1 }],
    TeamAccesses := [] }

/-- A token verifier that accepts the token `good` alone, as that of the standard user 1. -/
def sampleJWT : JWTService :=
  { ParseAndVerifyToken := fun token =>
      if token = "good" then
        Except.ok { ID := 1, Username := "alice", Role := StandardUserRole }
      else Except.error "Invalid JWT token" }

/-- A membership service that knows no membership. -/
def sampleMemberships : TeamMembershipService :=
  { TeamMembershipsByUserID := fun _ => Except.ok [] }

/-- A bouncer over the sample services. -/
def sampleBouncer (authDisabled : Bool) : RequestBouncer :=
  { jwtService := sampleJWT, teamMembershipService := sampleMemberships,
    authDisabled := authDisabled }

/-- A request with the given header map and an empty context. -/
def sampleRequest (header : List (String × List String)) : Request :=
  { Method := "GET", Path := "/containers/json", Header := header, tokenData := none,
    restrictedContext := none }

/-- A token verifier that accepts `good` as the standard user 1 and `root` as the
administrator 9. -/
def sampleJWTWithAdmin : JWTService :=
  { ParseAndVerifyToken := fun token =>
      if token = "good" then
        Except.ok { ID := 1, Username := "alice", Role := StandardUserRole }
      else if token = "root" then
        Except.ok { ID := 9, Username := "admin", Role := AdministratorRole }
      else Except.error "Invalid JWT token" }

/-- A membership service in which every user leads team 20. -/
def sampleLeaderMemberships : TeamMembershipService :=
  { TeamMembershipsByUserID := fun userID =>
      Except.ok [{ UserID := userID, TeamID := 20, Role := TeamLeader }] }

/-- A membership service whose lookups fail. -/
def sampleFailingMemberships : TeamMembershipService :=
  { TeamMembershipsByUserID := fun _ => Except.error "Team membership not found" }

/-- A bouncer with authentication enabled over the given membership service. -/
def sampleBouncerWith (memberships : TeamMembershipService) : RequestBouncer :=
  { jwtService := sampleJWTWithAdmin, teamMembershipService := memberships,
    authDisabled := false }

end security

namespace dockm

/-- Modelled from the spec: `dockm.Pair`, a label name with its value; the declaration file
of package `dockm` is not part of the sources. -/
structure Pair where
  Name : String
  Value : String
  deriving DecidableEq, Repr

/-- Modelled from the spec: `dockm.Settings`, the field read by the proxy; the declaration
file of package `dockm` is not part of the sources. A `nil` slice is `none`. -/
structure Settings where
  BlackListedLabels : Option (List Pair)
  deriving DecidableEq, Repr

/-- Go's `dockm.ErrUnsupportedDockerAPI` (`api/errors.go`). -/
def ErrUnsupportedDockerAPI : String := "Unsupported Docker API response"

end dockm

namespace proxy

open dockm security

/-! ## Package `proxy`: values, responses and results -/

/-- Go's `interface{}` as `json.Unmarshal` fills it (`nil`, `bool`, number, `string`,
`[]interface{}`, `map[string]interface{}`), together with the `*dockm.ResourceControl` that
`decorateObject` stores. A number is kept by its literal. -/
inductive Value where
  | null
  | bool (b : Bool)
  | number (literal : String)
  | string (s : String)
  | array (elements : List Value)
  | object (fields : List (String × Value))
  | resourceControl (rc : ResourceControl)

/-- Go's `map[string]interface{}`, as an association list read at the first entry of a key. -/
abbrev Object := List (String × Value)

/-- Go's map index `object[key]`: `nil` when the key is absent. -/
def index (object : Object) (key : String) : Value :=
  match object.lookup key with
  | some value => value
  | none => Value.null

/-- Go's comparison `value == nil`. -/
def isNil : Value → Bool
  | Value.null => true
  | _ => false

/-- Go's map assignment `object[key] = value`: the entry of the key is replaced where it
stands, or added when the key is new. -/
def mapSet (key : String) (value : Value) : Object → Object
  | [] => [(key, value)]
  | (k, v) :: rest =>
    if k = key then (key, value) :: rest else (k, v) :: mapSet key value rest

/-- The ways a Go call ends other than by its regular result: a returned `error`, or a
run-time panic (a failed type assertion). -/
inductive Failure where
  | error (err : Error)
  | panic
  deriving DecidableEq, Repr

/-- Go's type assertion `value.(string)`, which panics on any other dynamic type. -/
def assertString : Value → Except Failure String
  | Value.string s => Except.ok s
  | _ => Except.error Failure.panic

/-- Go's `http.Response`: status code and body; the body is kept by the value it parses to,
`none` standing for a body that is absent or is not JSON. -/
structure Response where
  StatusCode : Nat
  Body : Option Value

/-- Go's result pair `(*http.Response, error)` of a round trip, or a panic. -/
inductive Reply where
  /-- `return response, nil` -/
  | response (response : Response)
  /-- `return response, err` with `err != nil` -/
  | failure (response : Option Response) (err : Error)
  /-- a run-time panic -/
  | panic

/-- The calls a round trip makes on the request context, on the collaborating services and
on the upstream transport, in the order they are made. -/
inductive Effect where
  /-- `security.RetrieveTokenData(request)` -/
  | retrieveTokenData
  /-- `p.TeamMembershipService.TeamMembershipsByUserID(userID)` -/
  | teamMembershipsByUserID (userID : UserID)
  /-- `p.ResourceControlService.ResourceControls()` -/
  | resourceControls
  /-- `p.SettingsService.Settings()` -/
  | settings
  /-- `p.dockerTransport.RoundTrip(request)`, the upstream call -/
  | executeDockerRequest (request : Request)
  /-- `operation(request, response, executor)`, the post-processing of the response -/
  | operation
  deriving DecidableEq, Repr

/-- A result together with the calls made to obtain it. -/
abbrev Traced (α : Type) := List Effect × α

/-- The calls `trace` followed by the computation `x`. -/
def after {α : Type} (trace : List Effect) (x : Traced α) : Traced α :=
  (trace ++ x.1, x.2)

/-- Go's `http.StatusOK`. -/
def StatusOK : Nat := 200

/-- Go's `http.MethodGet`. -/
def MethodGet : String := "GET"

/-- Go's `dockm.ResourceControlService`, the method used by the proxy. -/
structure ResourceControlService where
  ResourceControls : Except Error (List ResourceControl)

/-- Go's `dockm.SettingsService`, the method used by the proxy. -/
structure SettingsService where
  Settings : Except Error Settings

/-- Go's `proxyTransport`; the docker transport is given by its round trip. -/
structure proxyTransport where
  dockerTransport : Request → Reply
  ResourceControlService : ResourceControlService
  TeamMembershipService : TeamMembershipService
  SettingsService : SettingsService

/-- Go's `restrictedOperationContext`. -/
structure restrictedOperationContext where
  isAdmin : Bool
  userID : UserID
  userTeamIDs : List TeamID
  resourceControls : List ResourceControl
  deriving DecidableEq, Repr

/-- Go's `operationExecutor`; a `nil` label black list is `none`. -/
structure operationExecutor where
  operationContext : restrictedOperationContext
  labelBlackList : Option (List Pair)
  deriving DecidableEq, Repr

/-- Go's `restrictedOperationRequest`: the response as the operation leaves it, or the
failure it ends with. -/
abbrev restrictedOperationRequest :=
  Request → Response → operationExecutor → Except Failure Response

/-! ## Helpers of package `proxy` that are not part of the sources -/

/-- Modelled from the spec: `getResourceControlByResourceID` (its file is not part of the
sources). The record of the snapshot whose `ResourceID` is the given identifier, if any; the
data model allows at most one record per identifier, and the first one is taken. -/
def getResourceControlByResourceID (resourceID : String) :
    List ResourceControl → Option ResourceControl
  | [] => none
  | resourceControl :: rest =>
    if resourceID = resourceControl.ResourceID then some resourceControl
    else getResourceControlByResourceID resourceID rest

/-- Modelled from the spec: `canUserAccessResource` (its file is not part of the sources).
The ownership relation of the data model for a principal that is not an administrator: the
record is not administrators-only and it lists the user or one of the user's teams. -/
def canUserAccessResource (userID : UserID) (userTeamIDs : List TeamID)
    (resourceControl : ResourceControl) : Bool :=
  !resourceControl.AdministratorsOnly &&
    (resourceControl.UserAccesses.any (fun access => access.UserID = userID) ||
      resourceControl.TeamAccesses.any (fun access =>
        userTeamIDs.any (fun teamID => teamID = access.TeamID)))

/-- Modelled from the spec: `getResponseAsJSONOBject` (its file is not part of the
sources). The body parsed as a single object; a body that is no object is a shape error. -/
def getResponseAsJSONOBject (response : Response) : Except Failure Object :=
  match response.Body with
  | some (Value.object fields) => Except.ok fields
  | _ => Except.error (Failure.error ErrUnsupportedDockerAPI)

/-- Modelled from the spec: `extractJSONField` (its file is not part of the sources). The
object held under the key, or `nil` when the key holds none. -/
def extractJSONField (jsonObject : Object) (key : String) : Option Object :=
  match index jsonObject key with
  | Value.object fields => some fields
  | _ => none

/-- Modelled from the spec: `rewriteResponse` (its file is not part of the sources). The
response takes the given status and the given data as its body, in one step. -/
def rewriteResponse (_response : Response) (newResponseData : Value) (statusCode : Nat) :
    Except Failure Response :=
  Except.ok { StatusCode := statusCode, Body := some newResponseData }

/-- Modelled from the spec: the denial response (its file is not part of the sources), of
fixed shape: an empty payload and the failure status 403. -/
def accessDeniedResponse : Response :=
  { StatusCode := StatusForbidden, Body := none }

/-- Modelled from the spec: `rewriteAccessDeniedResponse` (its file is not part of the
sources). The response becomes the denial response; the upstream body is discarded. -/
def rewriteAccessDeniedResponse (_response : Response) : Except Failure Response :=
  Except.ok accessDeniedResponse

/-- Modelled from the spec: `writeAccessDeniedResponse` (its file is not part of the
sources). A fresh denial response, returned without error. -/
def writeAccessDeniedResponse : Reply :=
  Reply.response accessDeniedResponse

/-! ## `decorator.go`, `volumes.go`, `containers.go` -/

/-- Go's `decorateObject`. -/
def decorateObject (object : Object) (resourceControl : ResourceControl) : Object :=
  let metadata : Object := mapSet "ResourceControl" (Value.resourceControl resourceControl) []
  mapSet "DockM" (Value.object metadata) object

/-- Go's `ErrDockerVolumeIdentifierNotFound`. -/
def ErrDockerVolumeIdentifierNotFound : Error := "Docker volume identifier not found"

/-- Go's `volumeIdentifier`. -/
def volumeIdentifier : String := "Name"

/-- Go's `ErrDockerContainerIdentifierNotFound`. -/
def ErrDockerContainerIdentifierNotFound : Error := "Docker container identifier not found"

/-- Go's `containerIdentifier`. -/
def containerIdentifier : String := "Id"

/-- Go's `containerLabelForServiceIdentifier`. -/
def containerLabelForServiceIdentifier : String := "com.docker.swarm.service.id"

/-- Go's `volumeInspectOperation`. -/
def volumeInspectOperation : restrictedOperationRequest := fun _request response executor =>
  match getResponseAsJSONOBject response with
  | Except.error failure => Except.error failure
  | Except.ok responseObject =>
    if isNil (index responseObject volumeIdentifier) then
      Except.error (Failure.error ErrDockerVolumeIdentifierNotFound)
    else
      match assertString (index responseObject volumeIdentifier) with
      | Except.error failure => Except.error failure
      | Except.ok volumeID =>
        match getResourceControlByResourceID volumeID
            executor.operationContext.resourceControls with
        | some resourceControl =>
          if executor.operationContext.isAdmin ||
              canUserAccessResource executor.operationContext.userID
                executor.operationContext.userTeamIDs resourceControl then
            rewriteResponse response
              (Value.object (decorateObject responseObject resourceControl)) StatusOK
          else rewriteAccessDeniedResponse response
        | none => rewriteResponse response (Value.object responseObject) StatusOK

/-- Go's `extractContainerLabelsFromContainerInspectObject`. -/
def extractContainerLabelsFromContainerInspectObject (responseObject : Object) :
    Option Object :=
  match extractJSONField responseObject "Config" with
  | some containerConfigObject => extractJSONField containerConfigObject "Labels"
  | none => none

/-- The second half of `containerInspectOperation`, from the extraction of the labels to the
final `rewriteResponse`, run on the object as the first half leaves it. -/
def containerInspectServiceStage (response : Response) (executor : operationExecutor)
    (responseObject : Object) : Except Failure Response :=
  match extractContainerLabelsFromContainerInspectObject responseObject with
  | some containerLabels =>
    if !isNil (index containerLabels containerLabelForServiceIdentifier) then
      match assertString (index containerLabels containerLabelForServiceIdentifier) with
      | Except.error failure => Except.error failure
      | Except.ok serviceID =>
        match getResourceControlByResourceID serviceID
            executor.operationContext.resourceControls with
        | some resourceControl =>
          if executor.operationContext.isAdmin ||
              canUserAccessResource executor.operationContext.userID
                executor.operationContext.userTeamIDs resourceControl then
            rewriteResponse response
              (Value.object (decorateObject responseObject resourceControl)) StatusOK
          else rewriteAccessDeniedResponse response
        | none => rewriteResponse response (Value.object responseObject) StatusOK
    else rewriteResponse response (Value.object responseObject) StatusOK
  | none => rewriteResponse response (Value.object responseObject) StatusOK

/-- Go's `containerInspectOperation`. -/
def containerInspectOperation : restrictedOperationRequest :=
  fun _request response executor =>
    match getResponseAsJSONOBject response with
    | Except.error failure => Except.error failure
    | Except.ok responseObject =>
      if isNil (index responseObject containerIdentifier) then
        Except.error (Failure.error ErrDockerContainerIdentifierNotFound)
      else
        match assertString (index responseObject containerIdentifier) with
        | Except.error failure => Except.error failure
        | Except.ok containerID =>
          match getResourceControlByResourceID containerID
              executor.operationContext.resourceControls with
          | some resourceControl =>
            if executor.operationContext.isAdmin ||
                canUserAccessResource executor.operationContext.userID
                  executor.operationContext.userTeamIDs resourceControl then
              containerInspectServiceStage response executor
                (decorateObject responseObject resourceControl)
            else rewriteAccessDeniedResponse response
          | none => containerInspectServiceStage response executor responseObject

/-! ## Go's `strings` and `path` functions used by the router -/

/-- Go's `strings.HasPrefix`. -/
def HasPrefix (s pre : String) : Bool :=
  pre.data.isPrefixOf s.data

/-- The star of a `path.Match` pattern: it takes any run of characters other than `/`, after
which the rest of the pattern, given by `rest`, has to match. -/
def matchStar (rest : List Char → Bool) : List Char → Bool
  | [] => rest []
  | c :: name => rest (c :: name) || (c != '/' && matchStar rest name)

/-- Matching of a pattern made of literal characters and stars against a whole name. -/
def matchChars : List Char → List Char → Bool
  | [], name => name.isEmpty
  | p :: pattern, name =>
    if p = '*' then matchStar (matchChars pattern) name
    else
      match name with
      | [] => false
      | c :: name => p = c && matchChars pattern name

/-- Go's `path.Match`, for the patterns of the router, which are made of literal characters
and of `*` (any run of characters other than `/`); the reported result is `matched`. -/
def Match (pattern name : String) : Bool :=
  matchChars pattern.data name.data

/-- Go's `strings.Split(s, "/")` on the characters of a path. -/
def splitSlash : List Char → List (List Char)
  | [] => [[]]
  | c :: rest =>
    if c = '/' then [] :: splitSlash rest
    else
      match splitSlash rest with
      | [] => [[c]]
      | element :: elements => (c :: element) :: elements

/-- One element of a path met by `path.Clean`; `kept` is the list of the elements kept so
far, the last one first. Empty elements and `.` vanish; `..` removes the element before it,
vanishes at the root, and stays at the start of a path that is not rooted. -/
def cleanElement (rooted : Bool) (kept : List (List Char)) (element : List Char) :
    List (List Char) :=
  if element = [] ∨ element = ['.'] then kept
  else if element = ['.', '.'] then
    match kept with
    | [] => if rooted then [] else [element]
    | last :: before => if last = ['.', '.'] then element :: kept else before
  else element :: kept

/-- The elements joined by `/`. -/
def joinSlash : List (List Char) → List Char
  | [] => []
  | [element] => element
  | element :: elements => element ++ '/' :: joinSlash elements

/-- Go's `path.Clean`. -/
def Clean (path : String) : String :=
  if path = "" then "."
  else
    let rooted := path.data.head? = some '/'
    let kept := ((splitSlash path.data).foldl (cleanElement rooted) []).reverse
    if rooted then String.mk ('/' :: joinSlash kept)
    else if kept = [] then "."
    else String.mk (joinSlash kept)

/-- Go's `path.Dir`: all but the last element of the path, cleaned. -/
def Dir (path : String) : String :=
  Clean (String.mk (path.data.reverse.dropWhile (fun c => c != '/')).reverse)

/-- Go's `path.Base`: the last element of the path, trailing slashes removed first. -/
def Base (path : String) : String :=
  if path = "" then "."
  else
    let stripped := (path.data.reverse.dropWhile (fun c => c == '/')).reverse
    let last := (stripped.reverse.takeWhile (fun c => c != '/')).reverse
    if last = [] then "/" else String.mk last

/-! ## `transport.go` -/

/-- Go's `proxyTransport.executeDockerRequest`. -/
def executeDockerRequest (p : proxyTransport) (request : Request) : Traced Reply :=
  ([Effect.executeDockerRequest request], p.dockerTransport request)

/-- The loop building `userTeamIDs`: the team of each membership is appended in turn. -/
def userTeamIDsOf (teamMemberships : List TeamMembership) : List TeamID :=
  teamMemberships.foldl (fun userTeamIDs membership => userTeamIDs ++ [membership.TeamID]) []

/-- Go's `proxyTransport.restrictedOperation`. -/
def restrictedOperation (p : proxyTransport) (request : Request) (resourceID : String) :
    Traced Reply :=
  match RetrieveTokenData request with
  | Except.error err => ([Effect.retrieveTokenData], Reply.failure none err)
  | Except.ok tokenData =>
    if tokenData.Role ≠ AdministratorRole then
      match p.TeamMembershipService.TeamMembershipsByUserID tokenData.ID with
      | Except.error err =>
        ([Effect.retrieveTokenData, Effect.teamMembershipsByUserID tokenData.ID],
          Reply.failure none err)
      | Except.ok teamMemberships =>
        let userTeamIDs := userTeamIDsOf teamMemberships
        match p.ResourceControlService.ResourceControls with
        | Except.error err =>
          ([Effect.retrieveTokenData, Effect.teamMembershipsByUserID tokenData.ID,
            Effect.resourceControls], Reply.failure none err)
        | Except.ok resourceControls =>
          match getResourceControlByResourceID resourceID resourceControls with
          | some resourceControl =>
            if !canUserAccessResource tokenData.ID userTeamIDs resourceControl then
              ([Effect.retrieveTokenData, Effect.teamMembershipsByUserID tokenData.ID,
                Effect.resourceControls], writeAccessDeniedResponse)
            else
              after [Effect.retrieveTokenData, Effect.teamMembershipsByUserID tokenData.ID,
                Effect.resourceControls] (executeDockerRequest p request)
          | none =>
            after [Effect.retrieveTokenData, Effect.teamMembershipsByUserID tokenData.ID,
              Effect.resourceControls] (executeDockerRequest p request)
    else after [Effect.retrieveTokenData] (executeDockerRequest p request)

/-- Go's `proxyTransport.administratorOperation`. -/
def administratorOperation (p : proxyTransport) (request : Request) : Traced Reply :=
  match RetrieveTokenData request with
  | Except.error err => ([Effect.retrieveTokenData], Reply.failure none err)
  | Except.ok tokenData =>
    if tokenData.Role ≠ AdministratorRole then
      ([Effect.retrieveTokenData], writeAccessDeniedResponse)
    else after [Effect.retrieveTokenData] (executeDockerRequest p request)

/-- Go's `proxyTransport.createOperationContext`. -/
def createOperationContext (p : proxyTransport) (request : Request) :
    Traced (Except Error restrictedOperationContext) :=
  match RetrieveTokenData request with
  | Except.error err => ([Effect.retrieveTokenData], Except.error err)
  | Except.ok tokenData =>
    match p.ResourceControlService.ResourceControls with
    | Except.error err =>
      ([Effect.retrieveTokenData, Effect.resourceControls], Except.error err)
    | Except.ok resourceControls =>
      if tokenData.Role ≠ AdministratorRole then
        match p.TeamMembershipService.TeamMembershipsByUserID tokenData.ID with
        | Except.error err =>
          ([Effect.retrieveTokenData, Effect.resourceControls,
            Effect.teamMembershipsByUserID tokenData.ID], Except.error err)
        | Except.ok teamMemberships =>
          ([Effect.retrieveTokenData, Effect.resourceControls,
            Effect.teamMembershipsByUserID tokenData.ID],
            Except.ok { isAdmin := false, userID := tokenData.ID,
                        userTeamIDs := userTeamIDsOf teamMemberships,
                        resourceControls := resourceControls })
      else
        ([Effect.retrieveTokenData, Effect.resourceControls],
          Except.ok { isAdmin := true, userID := tokenData.ID, userTeamIDs := [],
                      resourceControls := resourceControls })

/-- Go's `proxyTransport.executeRequestAndRewriteResponse`. -/
def executeRequestAndRewriteResponse (p : proxyTransport) (request : Request)
    (operation : restrictedOperationRequest) (executor : operationExecutor) : Traced Reply :=
  match executeDockerRequest p request with
  | (calls, Reply.response response) =>
    match operation request response executor with
    | Except.ok rewritten => (calls ++ [Effect.operation], Reply.response rewritten)
    | Except.error (Failure.error err) =>
      (calls ++ [Effect.operation], Reply.failure (some response) err)
    | Except.error Failure.panic => (calls ++ [Effect.operation], Reply.panic)
  | (calls, reply) => (calls, reply)

/-- Go's `proxyTransport.rewriteOperationWithLabelFiltering`. -/
def rewriteOperationWithLabelFiltering (p : proxyTransport) (request : Request)
    (operation : restrictedOperationRequest) : Traced Reply :=
  match createOperationContext p request with
  | (calls, Except.error err) => (calls, Reply.failure none err)
  | (calls, Except.ok operationContext) =>
    match p.SettingsService.Settings with
    | Except.error err => (calls ++ [Effect.settings], Reply.failure none err)
    | Except.ok settings =>
      after (calls ++ [Effect.settings])
        (executeRequestAndRewriteResponse p request operation
          { operationContext := operationContext,
            labelBlackList := settings.BlackListedLabels })

/-- Go's `proxyTransport.rewriteOperation`. -/
def rewriteOperation (p : proxyTransport) (request : Request)
    (operation : restrictedOperationRequest) : Traced Reply :=
  match createOperationContext p request with
  | (calls, Except.error err) => (calls, Reply.failure none err)
  | (calls, Except.ok operationContext) =>
    after calls
      (executeRequestAndRewriteResponse p request operation
        { operationContext := operationContext, labelBlackList := none })

/-- The operations the router hands to the rewrite discipline without calling them itself:
the two list operations of `containers.go` and `volumes.go`, and the two operations of
`services.go`, a file that is not part of the sources. -/
structure rewriteOperations where
  containerListOperation : restrictedOperationRequest
  volumeListOperation : restrictedOperationRequest
  serviceListOperation : restrictedOperationRequest
  serviceInspectOperation : restrictedOperationRequest

/-- Go's `proxyTransport.proxyContainerRequest`. -/
def proxyContainerRequest (p : proxyTransport) (ops : rewriteOperations)
    (request : Request) : Traced Reply :=
  let requestPath := request.Path
  if requestPath = "/containers/create" then executeDockerRequest p request
  else if requestPath = "/containers/prune" then administratorOperation p request
  else if requestPath = "/containers/json" then
    rewriteOperationWithLabelFiltering p request ops.containerListOperation
  else if Match "/containers/*/*" requestPath then
    let containerID := Base (Dir requestPath)
    let action := Base requestPath
    if action = "json" then rewriteOperation p request containerInspectOperation
    else restrictedOperation p request containerID
  else if Match "/containers/*" requestPath then
    let containerID := Base requestPath
    restrictedOperation p request containerID
  else executeDockerRequest p request

/-- Go's `proxyTransport.proxyServiceRequest`. -/
def proxyServiceRequest (p : proxyTransport) (ops : rewriteOperations)
    (request : Request) : Traced Reply :=
  let requestPath := request.Path
  if requestPath = "/services/create" then executeDockerRequest p request
  else if requestPath = "/services" then
    rewriteOperation p request ops.serviceListOperation
  else if Match "/services/*/*" requestPath then
    let serviceID := Base (Dir requestPath)
    restrictedOperation p request serviceID
  else if Match "/services/*" requestPath then
    let serviceID := Base requestPath
    if request.Method = MethodGet then
      rewriteOperation p request ops.serviceInspectOperation
    else restrictedOperation p request serviceID
  else executeDockerRequest p request

/-- Go's `proxyTransport.proxyVolumeRequest`. -/
def proxyVolumeRequest (p : proxyTransport) (ops : rewriteOperations)
    (request : Request) : Traced Reply :=
  let requestPath := request.Path
  if requestPath = "/volumes/create" then executeDockerRequest p request
  else if requestPath = "/volumes/prune" then administratorOperation p request
  else if requestPath = "/volumes" then rewriteOperation p request ops.volumeListOperation
  else if request.Method = MethodGet then
    rewriteOperation p request volumeInspectOperation
  else
    let volumeID := Base requestPath
    restrictedOperation p request volumeID

/-- Go's `proxyTransport.proxySwarmRequest`. -/
def proxySwarmRequest (p : proxyTransport) (request : Request) : Traced Reply :=
  administratorOperation p request

/-- Go's `proxyTransport.proxyDockerRequest`. -/
def proxyDockerRequest (p : proxyTransport) (ops : rewriteOperations) (request : Request) :
    Traced Reply :=
  let path := request.Path
  if HasPrefix path "/containers" then proxyContainerRequest p ops request
  else if HasPrefix path "/services" then proxyServiceRequest p ops request
  else if HasPrefix path "/volumes" then proxyVolumeRequest p ops request
  else if HasPrefix path "/swarm" then proxySwarmRequest p request
  else executeDockerRequest p request

/-- Go's `proxyTransport.RoundTrip`. -/
def RoundTrip (p : proxyTransport) (ops : rewriteOperations) (request : Request) :
    Traced Reply :=
  proxyDockerRequest p ops request

end proxy

namespace security

open dockm

/-- A ResourceControl service holding one record: the container `abc`, granted to user 2. -/
def sampleResourceControls : proxy.ResourceControlService :=
  { ResourceControls :=
      Except.ok [{ ResourceID := "abc", AdministratorsOnly := false,
                   UserAccesses := [{ UserID := 2 }], TeamAccesses := [] }] }

/-- A ResourceControl service whose lookups fail. -/
def sampleFailingResourceControls : proxy.ResourceControlService :=
  { ResourceControls := Except.error "Resource control not found" }

/-- A settings service without black list. -/
def sampleSettings : proxy.SettingsService :=
  { Settings := Except.ok { BlackListedLabels := none } }

/-- The body of the sample upstream answer: the object of the container `abc`. -/
def sampleContainer : proxy.Object :=
  [("Id", proxy.Value.string "abc"), ("Image", proxy.Value.string "nginx")]

/-- A proxy transport whose upstream answers every request by 200 and the sample object. -/
def sampleTransport (resourceControls : proxy.ResourceControlService)
    (memberships : TeamMembershipService) : proxy.proxyTransport :=
  { dockerTransport := fun _ =>
      proxy.Reply.response
        { StatusCode := 200, Body := some (proxy.Value.object sampleContainer) },
    ResourceControlService := resourceControls,
    TeamMembershipService := memberships,
    SettingsService := sampleSettings }

/-- Operations that leave the response as it is, standing for the operations the router only
passes on. -/
def sampleOperations : proxy.rewriteOperations :=
  { containerListOperation := fun _ response _ => Except.ok response,
    volumeListOperation := fun _ response _ => Except.ok response,
    serviceListOperation := fun _ response _ => Except.ok response,
    serviceInspectOperation := fun _ response _ => Except.ok response }

/-- A request of the standard user 1, already authenticated. -/
def sampleUserRequest (method path : String) : Request :=
  { Method := method, Path := path, Header := [],
    tokenData := some { ID := 1, Username := "alice", Role := StandardUserRole },
    restrictedContext := none }

/-- A request of the administrator 9, already authenticated. -/
def sampleAdminRequest (method path : String) : Request :=
  { Method := method, Path := path, Header := [],
    tokenData := some { ID := 9, Username := "admin", Role := AdministratorRole },
    restrictedContext := none }

/-- The inspect object of the container `abc`, a task of the swarm service `svc`. -/
def sampleSwarmContainer : proxy.Object :=
  [("Id", proxy.Value.string "abc"),
    ("Config", proxy.Value.object
      [("Labels", proxy.Value.object
        [("com.docker.swarm.service.id", proxy.Value.string "svc")])])]

/-- The record of the container `abc`, granted to user 1. -/
def rcContainerAbc : ResourceControl :=
  { ResourceID := "abc", AdministratorsOnly := false, UserAccesses := [{ UserID := 1 }],
    TeamAccesses := [] }

/-- The record of the service `svc`, granted to the given user. -/
def rcServiceSvc (userID : UserID) : ResourceControl :=
  { ResourceID := "svc", AdministratorsOnly := false, UserAccesses := [{ UserID := userID }],
    TeamAccesses := [] }

/-- The executor of the standard user 1, without team, over the given snapshot. -/
def sampleExecutor (resourceControls : List ResourceControl) : proxy.operationExecutor :=
  { operationContext :=
      { isAdmin := false, userID := 1, userTeamIDs := [],
        resourceControls := resourceControls },
    labelBlackList := none }

end security

namespace proxy

open dockm security

/-! ## List decoration (`decorator.go`) -/

/-- Go's type assertion `value.(map[string]interface{})`, which panics on any other dynamic
type. -/
def assertObject : Value → Except Failure Object
  | Value.object fields => Except.ok fields
  | _ => Except.error Failure.panic

/-- Go's type assertion `value.([]interface{})`, which panics on any other dynamic type. -/
def assertArray : Value → Except Failure (List Value)
  | Value.array elements => Except.ok elements
  | _ => Except.error Failure.panic

/-- The loop of the three list functions of `decorator.go`: `decorated` starts empty, the
body runs on each element in turn, the function returns at the first element on which the
body returns an error or panics, and the element the body leaves is appended otherwise. -/
def decorateLoop (body : Value → Except Failure Value) :
    List Value → List Value → Except Failure (List Value)
  | [], decorated => Except.ok decorated
  | element :: rest, decorated =>
    match body element with
    | Except.error failure => Except.error failure
    | Except.ok object => decorateLoop body rest (decorated ++ [object])

/-- The body of the loop of `decorateVolumeList`. -/
def decorateVolume (resourceControls : List ResourceControl) (volume : Value) :
    Except Failure Value :=
  match assertObject volume with
  | Except.error failure => Except.error failure
  | Except.ok volumeObject =>
    if isNil (index volumeObject volumeIdentifier) then
      Except.error (Failure.error ErrDockerVolumeIdentifierNotFound)
    else
      match assertString (index volumeObject volumeIdentifier) with
      | Except.error failure => Except.error failure
      | Except.ok volumeID =>
        match getResourceControlByResourceID volumeID resourceControls with
        | some resourceControl =>
          Except.ok (Value.object (decorateObject volumeObject resourceControl))
        | none => Except.ok (Value.object volumeObject)

/-- Go's `decorateVolumeList`. -/
def decorateVolumeList (volumeData : List Value) (resourceControls : List ResourceControl) :
    Except Failure (List Value) :=
  decorateLoop (decorateVolume resourceControls) volumeData []

/-- Go's `extractContainerLabelsFromContainerListObject`. -/
def extractContainerLabelsFromContainerListObject (responseObject : Object) : Option Object :=
  extractJSONField responseObject "Labels"

/-- The second half of the body of the loop of `decorateContainerList`: the decoration by
the record of the swarm service, run on the object as the first half leaves it. -/
def decorateContainerServiceStage (resourceControls : List ResourceControl)
    (containerObject : Object) : Except Failure Value :=
  match extractContainerLabelsFromContainerListObject containerObject with
  | some containerLabels =>
    if !isNil (index containerLabels containerLabelForServiceIdentifier) then
      match assertString (index containerLabels containerLabelForServiceIdentifier) with
      | Except.error failure => Except.error failure
      | Except.ok serviceID =>
        match getResourceControlByResourceID serviceID resourceControls with
        | some resourceControl =>
          Except.ok (Value.object (decorateObject containerObject resourceControl))
        | none => Except.ok (Value.object containerObject)
    else Except.ok (Value.object containerObject)
  | none => Except.ok (Value.object containerObject)

/-- The body of the loop of `decorateContainerList`. -/
def decorateContainer (resourceControls : List ResourceControl) (container : Value) :
    Except Failure Value :=
  match assertObject container with
  | Except.error failure => Except.error failure
  | Except.ok containerObject =>
    if isNil (index containerObject containerIdentifier) then
      Except.error (Failure.error ErrDockerContainerIdentifierNotFound)
    else
      match assertString (index containerObject containerIdentifier) with
      | Except.error failure => Except.error failure
      | Except.ok containerID =>
        match getResourceControlByResourceID containerID resourceControls with
        | some resourceControl =>
          decorateContainerServiceStage resourceControls
            (decorateObject containerObject resourceControl)
        | none => decorateContainerServiceStage resourceControls containerObject

/-- Go's `decorateContainerList`. -/
def decorateContainerList (containerData : List Value)
    (resourceControls : List ResourceControl) : Except Failure (List Value) :=
  decorateLoop (decorateContainer resourceControls) containerData []

/-- The body of the loop of `decorateServiceList`. The constants `serviceIdentifier` and
`ErrDockerServiceIdentifierNotFound` are declared in `services.go`, which is not part of the
sources; they are taken as parameters. -/
def decorateService (serviceIdentifier : String) (ErrDockerServiceIdentifierNotFound : Error)
    (resourceControls : List ResourceControl) (service : Value) : Except Failure Value :=
  match assertObject service with
  | Except.error failure => Except.error failure
  | Except.ok serviceObject =>
    if isNil (index serviceObject serviceIdentifier) then
      Except.error (Failure.error ErrDockerServiceIdentifierNotFound)
    else
      match assertString (index serviceObject serviceIdentifier) with
      | Except.error failure => Except.error failure
      | Except.ok serviceID =>
        match getResourceControlByResourceID serviceID resourceControls with
        | some resourceControl =>
          Except.ok (Value.object (decorateObject serviceObject resourceControl))
        | none => Except.ok (Value.object serviceObject)

/-- Go's `decorateServiceList`, with the two constants of `services.go` as parameters. -/
def decorateServiceList (serviceIdentifier : String)
    (ErrDockerServiceIdentifierNotFound : Error) (serviceData : List Value)
    (resourceControls : List ResourceControl) : Except Failure (List Value) :=
  decorateLoop
    (decorateService serviceIdentifier ErrDockerServiceIdentifierNotFound resourceControls)
    serviceData []

end proxy

namespace proxy

open dockm security

/-! ## List filtering and list operations -/

/-- Modelled from the spec: `getResponseAsJSONArray` (its file is not part of the sources).
The body parsed as an array; a body that is no array is a shape error. -/
def getResponseAsJSONArray (response : Response) : Except Failure (List Value) :=
  match response.Body with
  | some (Value.array elements) => Except.ok elements
  | _ => Except.error (Failure.error ErrUnsupportedDockerAPI)

/-- An element of a list response carries the identifier of its family when it is an object
holding a string under that key. -/
def carriesIdentifier (identifier : String) : Value → Bool
  | Value.object fields =>
    match index fields identifier with
    | Value.string _ => true
    | _ => false
  | _ => false

/-- The record of the snapshot that matches a volume of a list response: the one of its
`Name`. -/
def volumeRecord (resourceControls : List ResourceControl) : Value → Option ResourceControl
  | Value.object fields =>
    match index fields volumeIdentifier with
    | Value.string volumeID => getResourceControlByResourceID volumeID resourceControls
    | _ => none
  | _ => none

/-- The record of the snapshot that matches a container of a list response: the one of its
`Id`, or else the one of the swarm service named in its labels. -/
def containerRecord (resourceControls : List ResourceControl) : Value → Option ResourceControl
  | Value.object fields =>
    match index fields containerIdentifier with
    | Value.string containerID =>
      match getResourceControlByResourceID containerID resourceControls with
      | some resourceControl => some resourceControl
      | none =>
        match extractContainerLabelsFromContainerListObject fields with
        | some containerLabels =>
          match index containerLabels containerLabelForServiceIdentifier with
          | Value.string serviceID => getResourceControlByResourceID serviceID resourceControls
          | _ => none
        | none => none
    | _ => none
  | _ => none

/-- A principal that is not an administrator keeps an element when no record matches it or
when the matching record can be accessed. -/
def keptFor (userID : UserID) (userTeamIDs : List TeamID) :
    Option ResourceControl → Bool
  | some resourceControl => canUserAccessResource userID userTeamIDs resourceControl
  | none => true

/-- Modelled from the spec: `filterVolumeList` (its file is not part of the sources). Every
element has to carry the volume identifier, or the whole list is refused; the elements whose
record the principal does not own are dropped, the others are kept in order, as they are. -/
def filterVolumeList (volumeData : List Value) (resourceControls : List ResourceControl)
    (userID : UserID) (userTeamIDs : List TeamID) : Except Failure (List Value) :=
  if volumeData.all (carriesIdentifier volumeIdentifier) then
    Except.ok (volumeData.filter
      (fun volume => keptFor userID userTeamIDs (volumeRecord resourceControls volume)))
  else Except.error (Failure.error ErrDockerVolumeIdentifierNotFound)

/-- Modelled from the spec: `filterContainerList` (its file is not part of the sources).
Every element has to carry the container identifier, or the whole list is refused; the
elements whose record the principal does not own are dropped, the others are kept in order,
as they are. -/
def filterContainerList (containerData : List Value)
    (resourceControls : List ResourceControl) (userID : UserID)
    (userTeamIDs : List TeamID) : Except Failure (List Value) :=
  if containerData.all (carriesIdentifier containerIdentifier) then
    Except.ok (containerData.filter
      (fun container =>
        keptFor userID userTeamIDs (containerRecord resourceControls container)))
  else Except.error (Failure.error ErrDockerContainerIdentifierNotFound)

/-- The label set of a container of a list response meets the black list: one of its labels
has the name and the value of a black-listed pair. -/
def hasBlackListedLabel (labelBlackList : List Pair) : Value → Bool
  | Value.object fields =>
    match extractContainerLabelsFromContainerListObject fields with
    | some containerLabels =>
      labelBlackList.any (fun pair =>
        match index containerLabels pair.Name with
        | Value.string value => value = pair.Value
        | _ => false)
    | none => false
  | _ => false

/-- Modelled from the spec: `filterContainersWithBlackListedLabels` (its file is not part of
the sources). The elements whose label set meets the black list are dropped, the others are
kept in order, as they are. -/
def filterContainersWithBlackListedLabels (containerData : List Value)
    (labelBlackList : List Pair) : Except Failure (List Value) :=
  Except.ok (containerData.filter
    (fun container => !hasBlackListedLabel labelBlackList container))

/-- The step of `containerListOperation` that depends on the principal: decoration for an
administrator, filtering otherwise. -/
def containerOwnershipStep (responseArray : List Value) (executor : operationExecutor) :
    Except Failure (List Value) :=
  if executor.operationContext.isAdmin then
    decorateContainerList responseArray executor.operationContext.resourceControls
  else
    filterContainerList responseArray executor.operationContext.resourceControls
      executor.operationContext.userID executor.operationContext.userTeamIDs

/-- Go's `containerListOperation`. -/
def containerListOperation : restrictedOperationRequest := fun _request response executor =>
  match getResponseAsJSONArray response with
  | Except.error failure => Except.error failure
  | Except.ok responseArray =>
    match containerOwnershipStep responseArray executor with
    | Except.error failure => Except.error failure
    | Except.ok responseArray =>
      match executor.labelBlackList with
      | some labelBlackList =>
        match filterContainersWithBlackListedLabels responseArray labelBlackList with
        | Except.error failure => Except.error failure
        | Except.ok responseArray =>
          rewriteResponse response (Value.array responseArray) StatusOK
      | none => rewriteResponse response (Value.array responseArray) StatusOK

/-- The step of `volumeListOperation` that depends on the principal: decoration for an
administrator, filtering otherwise. -/
def volumeOwnershipStep (volumeData : List Value) (executor : operationExecutor) :
    Except Failure (List Value) :=
  if executor.operationContext.isAdmin then
    decorateVolumeList volumeData executor.operationContext.resourceControls
  else
    filterVolumeList volumeData executor.operationContext.resourceControls
      executor.operationContext.userID executor.operationContext.userTeamIDs

/-- Go's `volumeListOperation`. -/
def volumeListOperation : restrictedOperationRequest := fun _request response executor =>
  match getResponseAsJSONOBject response with
  | Except.error failure => Except.error failure
  | Except.ok responseObject =>
    if !isNil (index responseObject "Volumes") then
      match assertArray (index responseObject "Volumes") with
      | Except.error failure => Except.error failure
      | Except.ok volumeData =>
        match volumeOwnershipStep volumeData executor with
        | Except.error failure => Except.error failure
        | Except.ok volumeData =>
          rewriteResponse response
            (Value.object (mapSet "Volumes" (Value.array volumeData) responseObject))
            StatusOK
    else rewriteResponse response (Value.object responseObject) StatusOK

/-- The operations of the router, with the two list operations of the sources; the
operations of `services.go`, which is not part of the sources, remain parameters. -/
def dockerOperations (serviceListOperation serviceInspectOperation :
    restrictedOperationRequest) : rewriteOperations :=
  { containerListOperation := containerListOperation,
    volumeListOperation := volumeListOperation,
    serviceListOperation := serviceListOperation,
    serviceInspectOperation := serviceInspectOperation }

end proxy

namespace proxy

open dockm security

/-! ## Shapes of the elements of a list response -/

/-- The object with the metadata of the record attached, when there is a record. -/
def decoratedWith (record : Option ResourceControl) (object : Object) : Object :=
  match record with
  | some resourceControl => decorateObject object resourceControl
  | none => object

/-- The identifier of the swarm service named in the labels of a container of a list
response, when it is there as a string. -/
def listServiceID (containerObject : Object) : Option String :=
  match extractContainerLabelsFromContainerListObject containerObject with
  | some containerLabels =>
    match index containerLabels containerLabelForServiceIdentifier with
    | Value.string serviceID => some serviceID
    | _ => none
  | none => none

/-- The element is an object that lacks the identifier: the key is absent or holds `null`. -/
def lacksIdentifier (identifier : String) : Value → Bool
  | Value.object fields => isNil (index fields identifier)
  | _ => false

/-- The element is an object whose identifier is absent or is a string. -/
def identifierTyped (identifier : String) : Value → Bool
  | Value.object fields =>
    match index fields identifier with
    | Value.null => true
    | Value.string _ => true
    | _ => false
  | _ => false

/-- The service label of a container object is absent or is a string. -/
def serviceLabelTyped (containerObject : Object) : Bool :=
  match extractContainerLabelsFromContainerListObject containerObject with
  | some containerLabels =>
    match index containerLabels containerLabelForServiceIdentifier with
    | Value.null => true
    | Value.string _ => true
    | _ => false
  | none => true

/-- The element is an object whose `Id` is absent, or is a string with a service label that
is absent or a string. -/
def containerTyped : Value → Bool
  | Value.object fields =>
    match index fields containerIdentifier with
    | Value.null => true
    | Value.string _ => serviceLabelTyped fields
    | _ => false
  | _ => false

end proxy

namespace security

open dockm

/-- A snapshot holding the records of `abc` (granted to user 1) and of the service `svc`
(granted to user 2). -/
def sampleSnapshot : List ResourceControl :=
  [rcContainerAbc, rcServiceSvc 2]

/-- A volume list: `abc`, which has a record, and `free`, which has none. -/
def sampleVolumes : List proxy.Value :=
  [proxy.Value.object [("Name", proxy.Value.string "abc")],
    proxy.Value.object [("Name", proxy.Value.string "free")]]

/-- A container list: `abc`, which has a record, `task`, a task of the service `svc`, and
`free`, which has no record. -/
def sampleContainers : List proxy.Value :=
  [proxy.Value.object [("Id", proxy.Value.string "abc")],
    proxy.Value.object
      [("Id", proxy.Value.string "task"),
        ("Labels", proxy.Value.object
          [("com.docker.swarm.service.id", proxy.Value.string "svc")])],
    proxy.Value.object [("Id", proxy.Value.string "free")]]

end security

namespace security

open dockm

/-- The answer of the upstream to the inspection of an unknown container: status 404 and a
message. -/
def sampleNotFoundResponse : proxy.Response :=
  { StatusCode := 404,
    Body := some (proxy.Value.object
      [("message", proxy.Value.string "No such container: xyz")]) }

/-- A proxy transport whose upstream answers every request by the 404 response. -/
def sampleNotFoundTransport : proxy.proxyTransport :=
  { dockerTransport := fun _ => proxy.Reply.response sampleNotFoundResponse,
    ResourceControlService := sampleResourceControls,
    TeamMembershipService := sampleMemberships,
    SettingsService := sampleSettings }

end security

namespace dockm

/-- Modelled from the spec: `dockm.EndpointID`, an integer identifier; the declaration file
of package `dockm` is not part of the sources. -/
abbrev EndpointID := Int

/-- Modelled from the spec: `dockm.Endpoint`, the fields read by the proxy manager and by the
docker handler; the declaration file of package `dockm` is not part of the sources. -/
structure Endpoint where
  ID : EndpointID
  URL : String
  TLS : Bool
  TLSCACertPath : String
  TLSCertPath : String
  TLSKeyPath : String
  AuthorizedUsers : List UserID
  AuthorizedTeams : List TeamID
  deriving DecidableEq, Repr

/-- Go's `dockm.ErrEndpointAccessDenied` (`api/errors.go`). -/
def ErrEndpointAccessDenied : String := "Access denied to endpoint"

/-- Go's conversion `string(n)` of an integer: the string holding the one character whose
code point is `n`, and the replacement character U+FFFD when `n` is no valid code point
(negative, a surrogate, or above U+10FFFF). -/
def stringOfInt (n : Int) : String :=
  if (0 ≤ n ∧ n < 55296) ∨ (57344 ≤ n ∧ n ≤ 1114111) then
    String.singleton (Char.ofNat n.toNat)
  else String.singleton (Char.ofNat 65533)

end dockm

namespace proxy

open dockm security

/-! ## `manager.go` and `factory.go` -/

/-- Go's `url.URL`, the fields read and written by the proxy factory. -/
structure URL where
  Scheme : String
  Host : String
  Path : String
  deriving DecidableEq, Repr

/-- The TLS configuration built by `crypto.CreateTLSConfiguration`, kept by the three files
it was built from. -/
structure TLSConfig where
  CACert : String
  Cert : String
  Key : String
  deriving DecidableEq, Repr

/-- The two functions the manager and the factory call outside this package: Go's
`url.Parse`, and `crypto.CreateTLSConfiguration`, whose package is not part of the
sources. -/
structure Environment where
  Parse : String → Except Error URL
  CreateTLSConfiguration : String → String → String → Except Error TLSConfig

/-- The `http.Handler` values the factory builds: a reverse proxy to a host, with the TLS
client configuration of its docker transport, or a proxy to a local socket. -/
inductive ProxyHandler where
  | reverseProxy (target : URL) (TLSClientConfig : Option TLSConfig)
  | socketProxy (path : String)
  deriving DecidableEq, Repr

/-- Go's `proxyFactory.createReverseProxy`. -/
def createReverseProxy (u : URL) : ProxyHandler :=
  ProxyHandler.reverseProxy u none

/-- Go's `proxyFactory.newHTTPProxy`. -/
def newHTTPProxy (u : URL) : ProxyHandler :=
  createReverseProxy { u with Scheme := "http" }

/-- Go's `proxyFactory.newHTTPSProxy`. -/
def newHTTPSProxy (env : Environment) (u : URL) (endpoint : Endpoint) :
    Except Error ProxyHandler :=
  match env.CreateTLSConfiguration endpoint.TLSCACertPath endpoint.TLSCertPath
      endpoint.TLSKeyPath with
  | Except.error err => Except.error err
  | Except.ok config =>
    Except.ok (ProxyHandler.reverseProxy { u with Scheme := "https" } (some config))

/-- Go's `proxyFactory.newSocketProxy`. -/
def newSocketProxy (path : String) : ProxyHandler :=
  ProxyHandler.socketProxy path

/-- The concurrent map of the manager (`cmap.ConcurrentMap`), taken between two calls: the
entries by key. -/
abbrev ProxyMap := List (String × ProxyHandler)

/-- The map's `Set(key, value)`: the entry of the key is replaced, or added when the key is
new. -/
def ProxyMap.Set (key : String) (value : ProxyHandler) : ProxyMap → ProxyMap
  | [] => [(key, value)]
  | (k, v) :: rest =>
    if k = key then (key, value) :: rest else (k, v) :: ProxyMap.Set key value rest

/-- The map's `Get(key)`: the value of the key, when there is one. -/
def ProxyMap.Get (key : String) : ProxyMap → Option ProxyHandler
  | [] => none
  | (k, v) :: rest => if k = key then some v else ProxyMap.Get key rest

/-- The map's `Remove(key)`. -/
def ProxyMap.Remove (key : String) : ProxyMap → ProxyMap
  | [] => []
  | (k, v) :: rest =>
    if k = key then ProxyMap.Remove key rest else (k, v) :: ProxyMap.Remove key rest

/-- Go's `Manager`: the registered proxies; the services of the factory play no part in
the registry. -/
structure Manager where
  proxies : ProxyMap
  deriving DecidableEq, Repr

/-- Go's `NewManager`. -/
def NewManager : Manager :=
  { proxies := [] }

/-- Go's `Manager.CreateAndRegisterProxy`: the manager after the call and the pair
`(proxy, err)` as a sum. -/
def CreateAndRegisterProxy (env : Environment) (manager : Manager) (endpoint : Endpoint) :
    Manager × Except Error ProxyHandler :=
  match env.Parse endpoint.URL with
  | Except.error err => (manager, Except.error err)
  | Except.ok endpointURL =>
    if endpointURL.Scheme = "tcp" then
      if endpoint.TLS then
        match newHTTPSProxy env endpointURL endpoint with
        | Except.error err => (manager, Except.error err)
        | Except.ok proxy =>
          ({ proxies := manager.proxies.Set (stringOfInt endpoint.ID) proxy },
            Except.ok proxy)
      else
        ({ proxies := manager.proxies.Set (stringOfInt endpoint.ID)
            (newHTTPProxy endpointURL) },
          Except.ok (newHTTPProxy endpointURL))
    else
      ({ proxies := manager.proxies.Set (stringOfInt endpoint.ID)
          (newSocketProxy endpointURL.Path) },
        Except.ok (newSocketProxy endpointURL.Path))

/-- Go's `Manager.GetProxy`; `nil` is `none`. -/
def GetProxy (manager : Manager) (key : String) : Option ProxyHandler :=
  manager.proxies.Get key

/-- Go's `Manager.DeleteProxy`. -/
def DeleteProxy (manager : Manager) (key : String) : Manager :=
  { proxies := manager.proxies.Remove key }

end proxy

namespace security

open dockm

/-- An environment that parses the URL `unix://` followed by a path and `tcp://` followed by
a host, and builds every TLS configuration asked for. -/
def sampleEnvironment : proxy.Environment :=
  { Parse := fun raw =>
      if "unix://".data.isPrefixOf raw.data then
        Except.ok { Scheme := "unix", Host := "", Path := String.mk (raw.data.drop 7) }
      else if "tcp://".data.isPrefixOf raw.data then
        Except.ok { Scheme := "tcp", Host := String.mk (raw.data.drop 6), Path := "" }
      else Except.error "missing protocol scheme",
    CreateTLSConfiguration := fun ca cert key =>
      Except.ok { CACert := ca, Cert := cert, Key := key } }

/-- An endpoint with the given identifier and URL, with or without TLS, open to user 2 and
to team 10. -/
def sampleEndpoint (id : EndpointID) (url : String) (tls : Bool) : Endpoint :=
  { ID := id, URL := url, TLS := tls, TLSCACertPath := "ca.pem", TLSCertPath := "cert.pem",
    TLSKeyPath := "key.pem", AuthorizedUsers := [2], AuthorizedTeams := [10] }

end security

namespace handler

open dockm security proxy

/-! ## `handler/docker.go` -/

/-- Go's `http.StatusBadRequest`. -/
def StatusBadRequest : Nat := 400

/-- The message of the error of `strconv.Atoi` on a string that is no number. -/
def ErrSyntax : Error := "invalid syntax"

/-- The message of the error of `strconv.Atoi` on a number outside the range of `int`. -/
def ErrRange : Error := "value out of range"

/-- Go's `strconv.Atoi` on a 64-bit platform: an optional sign, then decimal digits. -/
def Atoi (s : String) : Except Error Int :=
  let signed : Bool × List Char :=
    match s.data with
    | '-' :: digits => (true, digits)
    | '+' :: digits => (false, digits)
    | digits => (false, digits)
  if signed.2 = [] ∨ ¬ signed.2.all (fun c => c.isDigit) then Except.error ErrSyntax
  else
    let magnitude : Nat := signed.2.foldl (fun n c => 10 * n + (c.toNat - 48)) 0
    let value : Int := if signed.1 then -(magnitude : Int) else (magnitude : Int)
    if value < -9223372036854775808 ∨ 9223372036854775807 < value then Except.error ErrRange
    else Except.ok value

/-- Go's `dockm.EndpointService`, the method used by the docker handler. -/
structure EndpointService where
  Endpoint : EndpointID → Except Error Endpoint

/-- Go's `DockerHandler`: the services it calls; the proxy manager is passed along with the
calls that read and change it. -/
structure DockerHandler where
  EndpointService : EndpointService
  TeamMembershipService : TeamMembershipService

/-- First loop of `checkEndpointAccessControl`, over `endpoint.AuthorizedUsers`. -/
def authorizedUserLoop (userID : UserID) : List UserID → Bool
  | [] => false
  | authorizedUserID :: rest =>
    if authorizedUserID = userID then true else authorizedUserLoop userID rest

/-- Inner loop of `checkEndpointAccessControl`, over the memberships. -/
def authorizedMembershipLoop (authorizedTeamID : TeamID) : List TeamMembership → Bool
  | [] => false
  | membership :: rest =>
    if membership.TeamID = authorizedTeamID then true
    else authorizedMembershipLoop authorizedTeamID rest

/-- Outer loop of `checkEndpointAccessControl`, over `endpoint.AuthorizedTeams`. -/
def authorizedTeamLoop (memberships : List TeamMembership) : List TeamID → Bool
  | [] => false
  | authorizedTeamID :: rest =>
    if authorizedMembershipLoop authorizedTeamID memberships then true
    else authorizedTeamLoop memberships rest

/-- The value of `memberships` after `memberships, _ := ...TeamMembershipsByUserID(userID)`:
the error is dropped, and a failed lookup leaves no membership. -/
def membershipsIgnoringError (service : TeamMembershipService) (userID : UserID) :
    List TeamMembership :=
  match service.TeamMembershipsByUserID userID with
  | Except.ok memberships => memberships
  | Except.error _ => []

/-- Go's `DockerHandler.checkEndpointAccessControl`. -/
def checkEndpointAccessControl (handler : DockerHandler) (endpoint : Endpoint)
    (userID : UserID) : Bool :=
  if authorizedUserLoop userID endpoint.AuthorizedUsers then true
  else
    let memberships := membershipsIgnoringError handler.TeamMembershipService userID
    if authorizedTeamLoop memberships endpoint.AuthorizedTeams then true else false

/-- What `proxyRequestsToDockerAPI` does with a request: it writes an error response, or it
hands the request to a proxy behind `http.StripPrefix`. -/
inductive Served where
  /-- `httperror.WriteErrorResponse(w, err, code, handler.Logger)` -/
  | errorResponse (err : Error) (code : Nat)
  /-- `http.StripPrefix(stripped, proxy).ServeHTTP(w, r)` -/
  | proxied (stripped : String) (proxy : ProxyHandler) (r : Request)
  deriving DecidableEq, Repr

/-- Go's `DockerHandler.proxyRequestsToDockerAPI`; `id` is the route variable
`mux.Vars(r)["id"]`, and the result is the proxy manager after the call with what was
served. -/
def proxyRequestsToDockerAPI (env : Environment) (handler : DockerHandler)
    (manager : Manager) (id : String) (r : Request) : Manager × Served :=
  match Atoi id with
  | Except.error err => (manager, Served.errorResponse err StatusBadRequest)
  | Except.ok parsedID =>
    let endpointID : EndpointID := parsedID
    match handler.EndpointService.Endpoint endpointID with
    | Except.error err => (manager, Served.errorResponse err StatusInternalServerError)
    | Except.ok endpoint =>
      match RetrieveTokenData r with
      | Except.error err => (manager, Served.errorResponse err StatusInternalServerError)
      | Except.ok tokenData =>
        if tokenData.Role ≠ AdministratorRole ∧
            ¬ checkEndpointAccessControl handler endpoint tokenData.ID then
          (manager, Served.errorResponse ErrEndpointAccessDenied StatusForbidden)
        else
          match GetProxy manager (stringOfInt endpointID) with
          | some proxy => (manager, Served.proxied ("/" ++ id ++ "/docker") proxy r)
          | none =>
            match CreateAndRegisterProxy env manager endpoint with
            | (registered, Except.error err) =>
              (registered, Served.errorResponse err StatusBadRequest)
            | (registered, Except.ok proxy) =>
              (registered, Served.proxied ("/" ++ id ++ "/docker") proxy r)

end handler

namespace bolt

open dockm security

/-! ## `bolt/migrator.go` -/

/-- The calls `Migrate` makes: the three migration steps, whose functions are not part of
the sources, and `VersionService.StoreDBVersion(dockm.DBVersion)`. -/
inductive Step where
  | updateAdminUserToDBVersion1
  | updateResourceControlsToDBVersion2
  | updateEndpointsToDBVersion2
  | StoreDBVersion
  deriving DecidableEq, Repr

/-- Go's `Migrator`: the version found in the database, and the error each call returns
(`nil` is `none`). -/
structure Migrator where
  CurrentDBVersion : Int
  run : Step → Option Error

/-- The end of `Migrate`: the storing of the DB version. -/
def storeVersion (m : Migrator) (calls : List Step) : List Step × Option Error :=
  match m.run Step.StoreDBVersion with
  | some err => (calls ++ [Step.StoreDBVersion], some err)
  | none => (calls ++ [Step.StoreDBVersion], none)

/-- The block `if m.CurrentDBVersion == 1` of `Migrate` and what follows it. -/
def migrateVersion1 (m : Migrator) (calls : List Step) : List Step × Option Error :=
  if m.CurrentDBVersion = 1 then
    match m.run Step.updateResourceControlsToDBVersion2 with
    | some err => (calls ++ [Step.updateResourceControlsToDBVersion2], some err)
    | none =>
      match m.run Step.updateEndpointsToDBVersion2 with
      | some err =>
        (calls ++ [Step.updateResourceControlsToDBVersion2,
          Step.updateEndpointsToDBVersion2], some err)
      | none =>
        storeVersion m
          (calls ++ [Step.updateResourceControlsToDBVersion2,
            Step.updateEndpointsToDBVersion2])
  else storeVersion m calls

/-- Go's `Migrator.Migrate`: the calls made, in order, and the error returned. -/
def Migrate (m : Migrator) : List Step × Option Error :=
  if m.CurrentDBVersion = 0 then
    match m.run Step.updateAdminUserToDBVersion1 with
    | some err => ([Step.updateAdminUserToDBVersion1], some err)
    | none => migrateVersion1 m [Step.updateAdminUserToDBVersion1]
  else migrateVersion1 m []

end bolt

namespace security

open dockm

/-- An endpoint service that knows the endpoint 1 alone. -/
def sampleEndpoints : handler.EndpointService :=
  { Endpoint := fun endpointID =>
      if endpointID = 1 then Except.ok (sampleEndpoint 1 "unix:///var/run/docker.sock" false)
      else Except.error "Endpoint not found" }

/-- A docker handler over the sample services. -/
def sampleDockerHandler (memberships : TeamMembershipService) : handler.DockerHandler :=
  { EndpointService := sampleEndpoints, TeamMembershipService := memberships }

/-- A migrator at the given version whose calls all succeed. -/
def sampleMigrator (version : Int) : bolt.Migrator :=
  { CurrentDBVersion := version, run := fun _ => none }

end security

namespace security

open dockm

/-! ## Loop lemmas -/

theorem deletionMembershipLoop_eq_true (teamID : TeamID) (memberships : List TeamMembership) :
    deletionMembershipLoop teamID memberships = true ↔
      ∃ membership ∈ memberships, membership.TeamID = teamID := by
  induction memberships with
  | nil => simp [deletionMembershipLoop]
  | cons m rest ih =>
    by_cases h : m.TeamID = teamID
    · simp [deletionMembershipLoop, h]
    · simp [deletionMembershipLoop, h, ih]

theorem deletionTeamLoop_eq_true (memberships : List TeamMembership)
    (accesses : List TeamResourceAccess) :
    deletionTeamLoop memberships accesses = true ↔
      ∃ access ∈ accesses, ∃ membership ∈ memberships, membership.TeamID = access.TeamID := by
  induction accesses with
  | nil => simp [deletionTeamLoop]
  | cons a rest ih =>
    have hm := deletionMembershipLoop_eq_true a.TeamID memberships
    cases hd : deletionMembershipLoop a.TeamID memberships with
    | true =>
      have h2 := hm.1 hd
      have hgoal : deletionTeamLoop memberships (a :: rest) = true := by
        simp [deletionTeamLoop, hd]
      exact ⟨fun _ => ⟨a, List.mem_cons_self _ _, h2⟩, fun _ => hgoal⟩
    | false =>
      have h2 : ¬ ∃ membership ∈ memberships, membership.TeamID = a.TeamID := by
        intro hex
        have := hm.2 hex
        rw [hd] at this
        exact Bool.noConfusion this
      have hstep : deletionTeamLoop memberships (a :: rest) =
          deletionTeamLoop memberships rest := by
        simp [deletionTeamLoop, hd]
      rw [hstep, ih]
      constructor
      · rintro ⟨b, hb, hmb⟩
        exact ⟨b, List.mem_cons_of_mem _ hb, hmb⟩
      · rintro ⟨b, hb, hmb⟩
        rcases List.mem_cons.1 hb with hb | hb
        · subst hb
          exact absurd hmb h2
        · exact ⟨b, hb, hmb⟩

theorem deletionUserLoop_eq_true (userID : UserID) (accesses : List UserResourceAccess) :
    deletionUserLoop userID accesses = true ↔
      ∃ access ∈ accesses, access.UserID = userID := by
  induction accesses with
  | nil => simp [deletionUserLoop]
  | cons a rest ih =>
    by_cases h : a.UserID = userID
    · simp [deletionUserLoop, h]
    · simp [deletionUserLoop, h, ih]

theorem creationIsMember_fold (teamID : TeamID) (memberships : List TeamMembership)
    (flag : Bool) :
    memberships.foldl
        (fun isMember membership => if membership.TeamID = teamID then true else isMember)
        flag = true ↔
      flag = true ∨ ∃ membership ∈ memberships, membership.TeamID = teamID := by
  induction memberships generalizing flag with
  | nil => simp
  | cons m rest ih =>
    rw [List.foldl_cons, ih]
    by_cases h : m.TeamID = teamID
    · simp [h]
    · simp [h]

theorem creationIsMember_eq_true (teamID : TeamID) (memberships : List TeamMembership) :
    creationIsMember teamID memberships = true ↔
      ∃ membership ∈ memberships, membership.TeamID = teamID := by
  unfold creationIsMember
  rw [creationIsMember_fold]
  simp

theorem creationTeamLoop_eq_true (memberships : List TeamMembership)
    (accesses : List TeamResourceAccess) :
    creationTeamLoop memberships accesses = true ↔
      ∀ access ∈ accesses, ∃ membership ∈ memberships, membership.TeamID = access.TeamID := by
  induction accesses with
  | nil => simp [creationTeamLoop]
  | cons a rest ih =>
    by_cases h : creationIsMember a.TeamID memberships = true
    · have h2 := (creationIsMember_eq_true a.TeamID memberships).1 h
      simp only [creationTeamLoop, h, Bool.not_true, Bool.false_eq_true, if_false, ih,
        List.mem_cons]
      constructor
      · rintro hall b (hb | hb)
        · subst hb
          exact h2
        · exact hall b hb
      · intro hall b hb
        exact hall b (Or.inr hb)
    · have h2 : ¬ ∃ membership ∈ memberships, membership.TeamID = a.TeamID :=
        fun hex => h ((creationIsMember_eq_true a.TeamID memberships).2 hex)
      have h3 : creationIsMember a.TeamID memberships = false := by
        simpa using h
      simp only [creationTeamLoop, h3, Bool.not_false, if_true, Bool.false_eq_true, false_iff]
      intro hall
      exact h2 (hall a (List.mem_cons_self _ _))

theorem teamManagementLoop_eq_true (teamID : TeamID) (memberships : List TeamMembership) :
    teamManagementLoop teamID memberships = true ↔
      ∃ membership ∈ memberships,
        membership.TeamID = teamID ∧ membership.Role = TeamLeader := by
  induction memberships with
  | nil => simp [teamManagementLoop]
  | cons m rest ih =>
    by_cases h : m.TeamID = teamID ∧ m.Role = TeamLeader
    · simp only [teamManagementLoop, h, and_self, if_true, List.mem_cons, true_iff]
      exact ⟨m, Or.inl rfl, h⟩
    · simp only [teamManagementLoop, h, if_false, ih, List.mem_cons]
      constructor
      · rintro ⟨b, hb, hm⟩
        exact ⟨b, Or.inr hb, hm⟩
      · rintro ⟨b, hb | hb, hm⟩
        · subst hb
          exact absurd hm h
        · exact ⟨b, hb, hm⟩

end security

namespace security

open dockm

/-! ## Resource-control policies -/

/-- C1: deletion is allowed exactly when the requester is an administrator, or the record is
not administrators-only and one of its user accesses names the requester or one of its team
accesses names a team of the requester; this is the ownership relation of the data model. -/
theorem deletion_iff_ownership (rc : ResourceControl) (ctx : RestrictedRequestContext) :
    (AuthorizedResourceControlDeletion rc ctx = true ↔
      (ctx.IsAdmin = true ∨
        (rc.AdministratorsOnly = false ∧
          ((∃ access ∈ rc.UserAccesses, access.UserID = ctx.UserID) ∨
            (∃ access ∈ rc.TeamAccesses,
              ∃ membership ∈ ctx.UserMemberships, membership.TeamID = access.TeamID))))) ∧
    (AuthorizedResourceControlDeletion rc ctx = true ↔ Ownership rc ctx) := by
  have key : AuthorizedResourceControlDeletion rc ctx = true ↔ Ownership rc ctx := by
    unfold AuthorizedResourceControlDeletion Ownership
    have hT := deletionTeamLoop_eq_true ctx.UserMemberships rc.TeamAccesses
    have hU := deletionUserLoop_eq_true ctx.UserID rc.UserAccesses
    cases hA : ctx.IsAdmin with
    | true => simp
    | false =>
      cases hO : rc.AdministratorsOnly with
      | true => simp
      | false =>
        cases hTL : deletionTeamLoop ctx.UserMemberships rc.TeamAccesses with
        | true =>
          have hex := hT.1 hTL
          have hpos : rc.TeamAccesses.length > 0 := by
            obtain ⟨a, ha, _⟩ := hex
            exact List.length_pos_of_mem ha
          simp only [hpos, and_self, if_true, Bool.false_eq_true, if_false, true_iff,
            false_or, true_and]
          exact Or.inr hex
        | false =>
          have hnex : ¬ ∃ access ∈ rc.TeamAccesses,
              ∃ membership ∈ ctx.UserMemberships, membership.TeamID = access.TeamID := by
            intro hex
            have := hT.2 hex
            rw [hTL] at this
            exact Bool.noConfusion this
          cases hUL : deletionUserLoop ctx.UserID rc.UserAccesses with
          | true =>
            have hex := hU.1 hUL
            have hpos : rc.UserAccesses.length > 0 := by
              obtain ⟨a, ha, _⟩ := hex
              exact List.length_pos_of_mem ha
            simp only [hpos, and_self, and_false, if_true, Bool.false_eq_true, if_false,
              true_iff, false_or, true_and]
            exact Or.inl hex
          | false =>
            have hnex2 : ¬ ∃ access ∈ rc.UserAccesses, access.UserID = ctx.UserID := by
              intro hex
              have := hU.2 hex
              rw [hUL] at this
              exact Bool.noConfusion this
            simp only [and_false, Bool.false_eq_true, if_false, false_iff, false_or,
              true_and]
            rintro (h | h)
            · exact hnex2 h
            · exact hnex h
  exact ⟨key, key⟩

/-- C2: an administrators-only record is refused to every non-administrator, by the creation
policy and by the deletion policy, whatever accesses and memberships are present. -/
theorem administratorsOnly_denies_non_admin (rc : ResourceControl)
    (ctx : RestrictedRequestContext) (hOnly : rc.AdministratorsOnly = true)
    (hAdmin : ctx.IsAdmin = false) :
    AuthorizedResourceControlCreation rc ctx = false ∧
      AuthorizedResourceControlDeletion rc ctx = false := by
  simp [AuthorizedResourceControlCreation, AuthorizedResourceControlDeletion, hOnly, hAdmin]

theorem administratorsOnly_denies_non_admin_witness :
    AuthorizedResourceControlCreation rcAdminOnlyTeam10 sampleMember = false ∧
      AuthorizedResourceControlDeletion rcAdminOnlyTeam10 sampleMember = false :=
  administratorsOnly_denies_non_admin rcAdminOnlyTeam10 sampleMember rfl rfl

/-- C3, as stated, fails: a record with the single team access 10 and no user access, asked
for by a non-administrator member of team 10, is refused when it is administrators-only. -/
theorem creation_single_team_member_refused :
    rcAdminOnlyTeam10.TeamAccesses = [{ TeamID := 10 }] ∧
      rcAdminOnlyTeam10.UserAccesses = [] ∧
      sampleMember.IsAdmin = false ∧
      (∃ membership ∈ sampleMember.UserMemberships, membership.TeamID = 10) ∧
      AuthorizedResourceControlCreation rcAdminOnlyTeam10 sampleMember = false := by
  refine ⟨rfl, rfl, rfl, ⟨_, List.mem_cons_self _ _, rfl⟩, ?_⟩
  decide

/-- C3, amended: for a record with exactly one team access and no user access, and a
non-administrator requester, creation is allowed when the requester is a member of that team
and the record is not administrators-only, and refused when the requester is no member. -/
theorem creation_single_team (rc : ResourceControl) (ctx : RestrictedRequestContext)
    (T : TeamResourceAccess) (hTeam : rc.TeamAccesses = [T]) (hUser : rc.UserAccesses = [])
    (hAdmin : ctx.IsAdmin = false) :
    (rc.AdministratorsOnly = false →
        (∃ membership ∈ ctx.UserMemberships, membership.TeamID = T.TeamID) →
        AuthorizedResourceControlCreation rc ctx = true) ∧
      ((¬ ∃ membership ∈ ctx.UserMemberships, membership.TeamID = T.TeamID) →
        AuthorizedResourceControlCreation rc ctx = false) := by
  have hloop := creationTeamLoop_eq_true ctx.UserMemberships [T]
  constructor
  · intro hOnly hmem
    have h1 : creationTeamLoop ctx.UserMemberships [T] = true := by
      rw [hloop]
      intro a ha
      rw [List.mem_singleton.1 ha]
      exact hmem
    simp [AuthorizedResourceControlCreation, hAdmin, hOnly, hTeam, hUser, h1]
  · intro hnot
    have h1 : creationTeamLoop ctx.UserMemberships [T] = false := by
      cases h : creationTeamLoop ctx.UserMemberships [T] with
      | false => rfl
      | true => exact absurd (hloop.1 h T (List.mem_singleton.2 rfl)) hnot
    cases hOnly : rc.AdministratorsOnly with
    | true => simp [AuthorizedResourceControlCreation, hAdmin, hOnly]
    | false => simp [AuthorizedResourceControlCreation, hAdmin, hOnly, hTeam, hUser, h1]

theorem creation_single_team_witness :
    AuthorizedResourceControlCreation rcTeam10 sampleMember = true ∧
      AuthorizedResourceControlCreation rcTeam10 sampleLoner = false :=
  ⟨(creation_single_team rcTeam10 sampleMember { TeamID := 10 } rfl rfl rfl).1 rfl
      ⟨_, List.mem_cons_self _ _, rfl⟩,
    (creation_single_team rcTeam10 sampleLoner { TeamID := 10 } rfl rfl rfl).2
      (by rintro ⟨m, hm, _⟩; cases hm)⟩

/-- C4, the code at the failing input: a non-administrator (user 1, no membership) asks for a
record whose single user access names user 2 and which lists no team; creation is allowed. -/
theorem creation_allows_foreign_single_user :
    sampleLoner.IsAdmin = false ∧ sampleLoner.UserID = 1 ∧
      rcUser2.UserAccesses = [{ UserID := 2 }] ∧
      AuthorizedResourceControlCreation rcUser2 sampleLoner = true := by
  refine ⟨rfl, rfl, rfl, ?_⟩
  decide

/-- C5, the code at the failing input: a non-administrator (user 1) with no membership asks
for a record naming the teams 10 and 20 and the user 1; creation is allowed although the
requester belongs to neither team. -/
theorem creation_allows_foreign_teams :
    sampleLoner.IsAdmin = false ∧ sampleLoner.UserMemberships = [] ∧
      rcUser1Teams.TeamAccesses = [{ TeamID := 10 }, { TeamID := 20 }] ∧
      AuthorizedResourceControlCreation rcUser1Teams sampleLoner = true := by
  refine ⟨rfl, rfl, rfl, ?_⟩
  decide

/-- C6: a non-administrator is refused creation whenever the record has more than one user
access, or exactly one user access together with exactly one team access; an administrator
is allowed creation of every record. -/
theorem creation_user_access_limits (rc : ResourceControl) (ctx : RestrictedRequestContext) :
    (ctx.IsAdmin = false →
        (rc.UserAccesses.length > 1 ∨
          (rc.UserAccesses.length = 1 ∧ rc.TeamAccesses.length = 1)) →
        AuthorizedResourceControlCreation rc ctx = false) ∧
      (ctx.IsAdmin = true → AuthorizedResourceControlCreation rc ctx = true) := by
  constructor
  · intro hAdmin hcount
    cases hOnly : rc.AdministratorsOnly with
    | true => simp [AuthorizedResourceControlCreation, hAdmin, hOnly]
    | false => simp [AuthorizedResourceControlCreation, hAdmin, hOnly, hcount]
  · intro hAdmin
    simp [AuthorizedResourceControlCreation, hAdmin]

theorem creation_user_access_limits_witness :
    AuthorizedResourceControlCreation rcTwoUsers sampleMember = false ∧
      AuthorizedResourceControlCreation rcUser1Team10 sampleMember = false ∧
      AuthorizedResourceControlCreation rcTwoUsers sampleAdmin = true :=
  ⟨(creation_user_access_limits rcTwoUsers sampleMember).1 rfl (Or.inl (by decide)),
    (creation_user_access_limits rcUser1Team10 sampleMember).1 rfl (Or.inr ⟨rfl, rfl⟩),
    (creation_user_access_limits rcTwoUsers sampleAdmin).2 rfl⟩

/-- C7: the update policy is the creation policy together with the requirement that the
requester is an administrator or the record carries no user access; hence update never
allows what creation refuses. -/
theorem update_eq_creation_and_no_user_access (rc : ResourceControl)
    (ctx : RestrictedRequestContext) :
    AuthorizedResourceControlUpdate rc ctx =
        (AuthorizedResourceControlCreation rc ctx &&
          (ctx.IsAdmin || rc.UserAccesses.isEmpty)) ∧
      (AuthorizedResourceControlUpdate rc ctx = true →
        AuthorizedResourceControlCreation rc ctx = true) := by
  have key : AuthorizedResourceControlUpdate rc ctx =
      (AuthorizedResourceControlCreation rc ctx &&
        (ctx.IsAdmin || rc.UserAccesses.isEmpty)) := by
    unfold AuthorizedResourceControlUpdate
    cases hAdmin : ctx.IsAdmin with
    | true => simp
    | false =>
      cases hU : rc.UserAccesses with
      | nil => simp
      | cons a rest => simp
  refine ⟨key, ?_⟩
  intro h
  rw [key] at h
  exact (Bool.and_eq_true_iff.1 h).1

theorem update_eq_creation_and_no_user_access_witness :
    AuthorizedResourceControlCreation rcUser1 sampleLoner = true ∧
      AuthorizedResourceControlUpdate rcUser1 sampleLoner = false ∧
      AuthorizedResourceControlCreation rcTeam10 sampleMember = true :=
  ⟨by decide,
    by rw [(update_eq_creation_and_no_user_access rcUser1 sampleLoner).1]; decide,
    (update_eq_creation_and_no_user_access rcTeam10 sampleMember).2 (by decide)⟩

/-- C8: team management is granted exactly to an administrator or to a requester holding a
membership of that very team with the team-leader role; a non-administrator none of whose
memberships of that team has the team-leader role is refused, whatever other teams they
lead. -/
theorem teamManagement_iff (teamID : TeamID) (ctx : RestrictedRequestContext) :
    (AuthorizedTeamManagement teamID ctx = true ↔
      (ctx.IsAdmin = true ∨
        ∃ membership ∈ ctx.UserMemberships,
          membership.TeamID = teamID ∧ membership.Role = TeamLeader)) ∧
    (ctx.IsAdmin = false →
      (∀ membership ∈ ctx.UserMemberships,
        membership.TeamID = teamID → membership.Role ≠ TeamLeader) →
      AuthorizedTeamManagement teamID ctx = false) := by
  have key : AuthorizedTeamManagement teamID ctx = true ↔
      (ctx.IsAdmin = true ∨
        ∃ membership ∈ ctx.UserMemberships,
          membership.TeamID = teamID ∧ membership.Role = TeamLeader) := by
    unfold AuthorizedTeamManagement
    cases hAdmin : ctx.IsAdmin with
    | true => simp
    | false => simp [teamManagementLoop_eq_true]
  refine ⟨key, ?_⟩
  intro hAdmin hall
  cases h : AuthorizedTeamManagement teamID ctx with
  | false => rfl
  | true =>
    rcases key.1 h with hA | ⟨m, hm, hT, hR⟩
    · rw [hAdmin] at hA
      exact Bool.noConfusion hA
    · exact absurd hR (hall m hm hT)

theorem teamManagement_iff_witness :
    AuthorizedTeamManagement 10 sampleLeader = false ∧
      AuthorizedTeamManagement 20 sampleLeader = true :=
  ⟨(teamManagement_iff 10 sampleLeader).2 rfl (by decide),
    (teamManagement_iff 20 sampleLeader).1.2
      (Or.inr ⟨{ UserID := 3, TeamID := 20, Role := TeamLeader }, by decide, rfl, rfl⟩)⟩

/-! ## Authentication middleware -/

/-- C9: with authentication enabled, a request without Authorization header, with an empty
token, or with a token the verifier rejects is answered by a 401 error response and the
wrapped handler is not run, whatever that handler is; the wrapped handler runs only for a
non-empty token the verifier accepts, and is then handed the request carrying the verified
token data. -/
theorem mwCheckAuthentication_fails_closed (bouncer : RequestBouncer)
    (hEnabled : bouncer.authDisabled = false) (next : Handler) (r : Request) :
    (r.Header.lookup "Authorization" = none →
        mwCheckAuthentication bouncer next r =
          [Event.writeErrorResponse ErrUnauthorized 401]) ∧
    (authorizationToken r = "" →
        mwCheckAuthentication bouncer next r =
          [Event.writeErrorResponse ErrUnauthorized 401]) ∧
    (∀ err, authorizationToken r ≠ "" →
        bouncer.jwtService.ParseAndVerifyToken (authorizationToken r) = Except.error err →
        mwCheckAuthentication bouncer next r =
          [Event.parseAndVerifyToken (authorizationToken r),
            Event.writeErrorResponse err 401]) ∧
    (∀ tokenData, authorizationToken r ≠ "" →
        bouncer.jwtService.ParseAndVerifyToken (authorizationToken r) =
          Except.ok tokenData →
        mwCheckAuthentication bouncer next r =
          Event.parseAndVerifyToken (authorizationToken r) ::
            next (storeTokenData r tokenData)) ∧
    (∀ handed, Event.handled handed ∈ mwCheckAuthentication bouncer recordingHandler r →
        authorizationToken r ≠ "" ∧
          ∃ tokenData,
            bouncer.jwtService.ParseAndVerifyToken (authorizationToken r) =
              Except.ok tokenData ∧
            handed = storeTokenData r tokenData) := by
  have hEmpty : ∀ nxt : Handler, authorizationToken r = "" →
      mwCheckAuthentication bouncer nxt r =
        [Event.writeErrorResponse ErrUnauthorized 401] := by
    intro nxt h
    simp [mwCheckAuthentication, hEnabled, h, StatusUnauthorized]
  have hErr : ∀ (nxt : Handler) (err : Error), authorizationToken r ≠ "" →
      bouncer.jwtService.ParseAndVerifyToken (authorizationToken r) = Except.error err →
      mwCheckAuthentication bouncer nxt r =
        [Event.parseAndVerifyToken (authorizationToken r),
          Event.writeErrorResponse err 401] := by
    intro nxt err h hv
    simp [mwCheckAuthentication, hEnabled, h, hv, StatusUnauthorized]
  have hOk : ∀ (nxt : Handler) (tokenData : TokenData), authorizationToken r ≠ "" →
      bouncer.jwtService.ParseAndVerifyToken (authorizationToken r) = Except.ok tokenData →
      mwCheckAuthentication bouncer nxt r =
        Event.parseAndVerifyToken (authorizationToken r) ::
          nxt (storeTokenData r tokenData) := by
    intro nxt tokenData h hv
    simp [mwCheckAuthentication, hEnabled, h, hv]
  refine ⟨?_, hEmpty next, hErr next, hOk next, ?_⟩
  · intro hnone
    apply hEmpty next
    simp [authorizationToken, hnone]
  · intro handed hmem
    by_cases h : authorizationToken r = ""
    · rw [hEmpty recordingHandler h] at hmem
      simp at hmem
    · refine ⟨h, ?_⟩
      cases hv : bouncer.jwtService.ParseAndVerifyToken (authorizationToken r) with
      | error err =>
        rw [hErr recordingHandler err h hv] at hmem
        simp at hmem
      | ok tokenData =>
        rw [hOk recordingHandler tokenData h hv] at hmem
        simp [recordingHandler] at hmem
        exact ⟨tokenData, rfl, hmem⟩

theorem mwCheckAuthentication_fails_closed_witness :
    mwCheckAuthentication (sampleBouncer false) recordingHandler (sampleRequest []) =
        [Event.writeErrorResponse ErrUnauthorized 401] ∧
      mwCheckAuthentication (sampleBouncer false) recordingHandler
          (sampleRequest [("Authorization", ["Bearer "])]) =
        [Event.writeErrorResponse ErrUnauthorized 401] ∧
      mwCheckAuthentication (sampleBouncer false) recordingHandler
          (sampleRequest [("Authorization", ["Bearer bad"])]) =
        [Event.parseAndVerifyToken "bad",
          Event.writeErrorResponse "Invalid JWT token" 401] :=
  ⟨(mwCheckAuthentication_fails_closed (sampleBouncer false) rfl recordingHandler
      (sampleRequest [])).1 rfl,
    (mwCheckAuthentication_fails_closed (sampleBouncer false) rfl recordingHandler
      (sampleRequest [("Authorization", ["Bearer "])])).2.1 (by decide),
    (mwCheckAuthentication_fails_closed (sampleBouncer false) rfl recordingHandler
      (sampleRequest [("Authorization", ["Bearer bad"])])).2.2.1 "Invalid JWT token"
      (by decide) rfl⟩

/-- C10: with authentication disabled, for every request the middleware runs the wrapped
handler on the request carrying token data whose role is Administrator, performs no effect
of its own (no call of the token verifier, no error response), and its behaviour does not
depend on the token verifier. -/
theorem mwCheckAuthentication_auth_disabled (bouncer : RequestBouncer)
    (hDisabled : bouncer.authDisabled = true) (next : Handler) (r : Request) :
    mwCheckAuthentication bouncer next r =
        next (storeTokenData r { ID := 0, Username := "", Role := AdministratorRole }) ∧
    (storeTokenData r { ID := 0, Username := "", Role := AdministratorRole }).tokenData =
        some { ID := 0, Username := "", Role := AdministratorRole } ∧
    mwCheckAuthentication bouncer recordingHandler r =
        [Event.handled
          (storeTokenData r { ID := 0, Username := "", Role := AdministratorRole })] ∧
    (∀ token, Event.parseAndVerifyToken token ∉
        mwCheckAuthentication bouncer recordingHandler r) ∧
    (∀ jwtService : JWTService,
        mwCheckAuthentication { bouncer with jwtService := jwtService } next r =
          mwCheckAuthentication bouncer next r) := by
  refine ⟨?_, rfl, ?_, ?_, ?_⟩
  · simp [mwCheckAuthentication, hDisabled]
  · simp [mwCheckAuthentication, hDisabled, recordingHandler]
  · intro token
    simp [mwCheckAuthentication, hDisabled, recordingHandler]
  · intro jwtService
    simp [mwCheckAuthentication, hDisabled]

theorem mwCheckAuthentication_auth_disabled_witness :
    mwCheckAuthentication (sampleBouncer true) recordingHandler
        (sampleRequest [("Authorization", ["Bearer bad"])]) =
      [Event.handled (storeTokenData (sampleRequest [("Authorization", ["Bearer bad"])])
        { ID := 0, Username := "", Role := AdministratorRole })] :=
  (mwCheckAuthentication_auth_disabled (sampleBouncer true) rfl recordingHandler
    (sampleRequest [("Authorization", ["Bearer bad"])])).2.2.1

end security

namespace security

open dockm

/-! ## Administrator and restricted access -/

theorem isTeamLeaderLoop_fold (memberships : List TeamMembership) (flag : Bool) :
    memberships.foldl
        (fun isTeamLeader membership =>
          if membership.Role = TeamLeader then true else isTeamLeader)
        flag = true ↔
      flag = true ∨ ∃ membership ∈ memberships, membership.Role = TeamLeader := by
  induction memberships generalizing flag with
  | nil => simp
  | cons m rest ih =>
    rw [List.foldl_cons, ih]
    by_cases h : m.Role = TeamLeader
    · simp [h]
    · simp [h]

theorem isTeamLeaderLoop_eq_true (memberships : List TeamMembership) :
    isTeamLeaderLoop memberships = true ↔
      ∃ membership ∈ memberships, membership.Role = TeamLeader := by
  unfold isTeamLeaderLoop
  rw [isTeamLeaderLoop_fold]
  simp

/-- C11: under `AdministratorAccess` the role check answers 403 with the access-denied error,
without running the wrapped handler, when the token data is missing or its role is not
Administrator; an authenticated request whose role is not Administrator gets exactly that
answer from the whole chain; and the wrapped handler runs only on a request that passed the
authentication middleware (a non-empty token accepted by the verifier when authentication is
enabled) and whose stored token data has the Administrator role. -/
theorem AdministratorAccess_requires_administrator (bouncer : RequestBouncer)
    (next : Handler) (r : Request) :
    (r.tokenData = none →
        mwCheckAdministratorRole next r =
          [Event.writeErrorResponse ErrResourceAccessDenied 403]) ∧
    (∀ tokenData, r.tokenData = some tokenData → tokenData.Role ≠ AdministratorRole →
        mwCheckAdministratorRole next r =
          [Event.writeErrorResponse ErrResourceAccessDenied 403]) ∧
    (∀ tokenData, bouncer.authDisabled = false → authorizationToken r ≠ "" →
        bouncer.jwtService.ParseAndVerifyToken (authorizationToken r) =
          Except.ok tokenData →
        tokenData.Role ≠ AdministratorRole →
        AdministratorAccess bouncer next r =
          [Event.headerAdd "X-Content-Type-Options" "nosniff",
            Event.headerAdd "X-Frame-Options" "DENY",
            Event.parseAndVerifyToken (authorizationToken r),
            Event.writeErrorResponse ErrResourceAccessDenied 403]) ∧
    (∀ tokenData, bouncer.authDisabled = false → authorizationToken r ≠ "" →
        bouncer.jwtService.ParseAndVerifyToken (authorizationToken r) =
          Except.ok tokenData →
        tokenData.Role = AdministratorRole →
        AdministratorAccess bouncer next r =
          Event.headerAdd "X-Content-Type-Options" "nosniff" ::
            Event.headerAdd "X-Frame-Options" "DENY" ::
            Event.parseAndVerifyToken (authorizationToken r) ::
            next (storeTokenData r tokenData)) ∧
    (∀ handed, Event.handled handed ∈ AdministratorAccess bouncer recordingHandler r →
        ∃ tokenData, handed = storeTokenData r tokenData ∧
          tokenData.Role = AdministratorRole ∧
          (bouncer.authDisabled = false →
            authorizationToken r ≠ "" ∧
              bouncer.jwtService.ParseAndVerifyToken (authorizationToken r) =
                Except.ok tokenData)) := by
  have hRole : ∀ (nxt : Handler) (q : Request) (tokenData : TokenData),
      q.tokenData = some tokenData →
      mwCheckAdministratorRole nxt q =
        if tokenData.Role ≠ AdministratorRole then
          [Event.writeErrorResponse ErrResourceAccessDenied 403]
        else nxt q := by
    intro nxt q tokenData hq
    simp [mwCheckAdministratorRole, RetrieveTokenData, hq, StatusForbidden]
  have hChain : ∀ (nxt : Handler) (tokenData : TokenData),
      bouncer.authDisabled = false → authorizationToken r ≠ "" →
      bouncer.jwtService.ParseAndVerifyToken (authorizationToken r) = Except.ok tokenData →
      AdministratorAccess bouncer nxt r =
        Event.headerAdd "X-Content-Type-Options" "nosniff" ::
          Event.headerAdd "X-Frame-Options" "DENY" ::
          Event.parseAndVerifyToken (authorizationToken r) ::
          mwCheckAdministratorRole nxt (storeTokenData r tokenData) := by
    intro nxt tokenData hEnabled hTok hVerify
    simp [AdministratorAccess, AuthenticatedAccess, mwSecureHeaders, mwCheckAuthentication,
      hEnabled, hTok, hVerify]
  refine ⟨?_, ?_, ?_, ?_, ?_⟩
  · intro hnone
    simp [mwCheckAdministratorRole, RetrieveTokenData, hnone, StatusForbidden]
  · intro tokenData hsome hrole
    rw [hRole next r tokenData hsome, if_pos hrole]
  · intro tokenData hEnabled hTok hVerify hrole
    rw [hChain next tokenData hEnabled hTok hVerify,
      hRole next (storeTokenData r tokenData) tokenData rfl, if_pos hrole]
  · intro tokenData hEnabled hTok hVerify hrole
    rw [hChain next tokenData hEnabled hTok hVerify,
      hRole next (storeTokenData r tokenData) tokenData rfl, if_neg (not_not.2 hrole)]
  · intro handed hmem
    cases hDis : bouncer.authDisabled with
    | true =>
      refine ⟨{ ID := 0, Username := "", Role := AdministratorRole }, ?_, rfl, ?_⟩
      · have hrun : AdministratorAccess bouncer recordingHandler r =
            [Event.headerAdd "X-Content-Type-Options" "nosniff",
              Event.headerAdd "X-Frame-Options" "DENY",
              Event.handled
                (storeTokenData r { ID := 0, Username := "", Role := AdministratorRole })] := by
          simp [AdministratorAccess, AuthenticatedAccess, mwSecureHeaders,
            mwCheckAuthentication, hDis, mwCheckAdministratorRole, RetrieveTokenData,
            storeTokenData, recordingHandler]
        rw [hrun] at hmem
        simpa using hmem
      · intro hcontra
        exact Bool.noConfusion hcontra
    | false =>
      by_cases hTok : authorizationToken r = ""
      · have hrun : AdministratorAccess bouncer recordingHandler r =
            [Event.headerAdd "X-Content-Type-Options" "nosniff",
              Event.headerAdd "X-Frame-Options" "DENY",
              Event.writeErrorResponse ErrUnauthorized 401] := by
          simp [AdministratorAccess, AuthenticatedAccess, mwSecureHeaders,
            mwCheckAuthentication, hDis, hTok, StatusUnauthorized]
        rw [hrun] at hmem
        simp at hmem
      · cases hVerify : bouncer.jwtService.ParseAndVerifyToken (authorizationToken r) with
        | error err =>
          have hrun : AdministratorAccess bouncer recordingHandler r =
              [Event.headerAdd "X-Content-Type-Options" "nosniff",
                Event.headerAdd "X-Frame-Options" "DENY",
                Event.parseAndVerifyToken (authorizationToken r),
                Event.writeErrorResponse err 401] := by
            simp [AdministratorAccess, AuthenticatedAccess, mwSecureHeaders,
              mwCheckAuthentication, hDis, hTok, hVerify, StatusUnauthorized]
          rw [hrun] at hmem
          simp at hmem
        | ok tokenData =>
          rw [hChain recordingHandler tokenData hDis hTok hVerify,
            hRole recordingHandler (storeTokenData r tokenData) tokenData rfl] at hmem
          by_cases hrole : tokenData.Role = AdministratorRole
          · rw [if_neg (not_not.2 hrole)] at hmem
            simp [recordingHandler] at hmem
            exact ⟨tokenData, hmem, hrole, fun _ => ⟨hTok, rfl⟩⟩
          · rw [if_pos hrole] at hmem
            simp at hmem

theorem AdministratorAccess_requires_administrator_witness :
    AdministratorAccess (sampleBouncerWith sampleMemberships) recordingHandler
        (sampleRequest [("Authorization", ["Bearer good"])]) =
      [Event.headerAdd "X-Content-Type-Options" "nosniff",
        Event.headerAdd "X-Frame-Options" "DENY",
        Event.parseAndVerifyToken "good",
        Event.writeErrorResponse ErrResourceAccessDenied 403] ∧
    AdministratorAccess (sampleBouncerWith sampleMemberships) recordingHandler
        (sampleRequest [("Authorization", ["Bearer root"])]) =
      [Event.headerAdd "X-Content-Type-Options" "nosniff",
        Event.headerAdd "X-Frame-Options" "DENY",
        Event.parseAndVerifyToken "root",
        Event.handled (storeTokenData (sampleRequest [("Authorization", ["Bearer root"])])
          { ID := 9, Username := "admin", Role := AdministratorRole })] :=
  ⟨(AdministratorAccess_requires_administrator (sampleBouncerWith sampleMemberships)
      recordingHandler (sampleRequest [("Authorization", ["Bearer good"])])).2.2.1
      { ID := 1, Username := "alice", Role := StandardUserRole } rfl (by decide) rfl
      (by decide),
    (AdministratorAccess_requires_administrator (sampleBouncerWith sampleMemberships)
      recordingHandler (sampleRequest [("Authorization", ["Bearer root"])])).2.2.2.1
      { ID := 9, Username := "admin", Role := AdministratorRole } rfl (by decide) rfl rfl⟩

/-- C12, as stated, fails for an administrator: the membership service knows user 9 as the
leader of team 20, yet the context built for the administrator 9 holds no membership and
`IsTeamLeader` is false. -/
theorem newRestrictedContextRequest_administrator_memberships_dropped :
    sampleLeaderMemberships.TeamMembershipsByUserID 9 =
        Except.ok [{ UserID := 9, TeamID := 20, Role := TeamLeader }] ∧
      (newRestrictedContextRequest (sampleBouncerWith sampleLeaderMemberships) 9
          AdministratorRole).2 =
        Except.ok { IsAdmin := true, IsTeamLeader := false, UserID := 9,
                    UserMemberships := [] } :=
  ⟨rfl, rfl⟩

/-- C12, amended: for a role other than Administrator the context has `IsAdmin` false, the
principal's id, the memberships the membership service returns for that user, and
`IsTeamLeader` true exactly when one of them has the team-leader role; if the lookup fails
no context is produced, the error is returned, and the middleware answers with it without
running the wrapped handler. For the Administrator role the membership service is not
consulted and the context has `IsAdmin` true, the principal's id, no membership and
`IsTeamLeader` false. -/
theorem newRestrictedContextRequest_spec (bouncer : RequestBouncer) (userID : UserID)
    (userRole : UserRole) :
    (userRole ≠ AdministratorRole →
      ∀ memberships,
        bouncer.teamMembershipService.TeamMembershipsByUserID userID =
          Except.ok memberships →
        ∃ requestContext,
          (newRestrictedContextRequest bouncer userID userRole).2 =
            Except.ok requestContext ∧
          requestContext.IsAdmin = false ∧
          requestContext.UserID = userID ∧
          requestContext.UserMemberships = memberships ∧
          (requestContext.IsTeamLeader = true ↔
            ∃ membership ∈ memberships, membership.Role = TeamLeader)) ∧
    (userRole ≠ AdministratorRole →
      ∀ err,
        bouncer.teamMembershipService.TeamMembershipsByUserID userID = Except.error err →
        (newRestrictedContextRequest bouncer userID userRole).2 = Except.error err ∧
        ∀ (next : Handler) (r : Request) (tokenData : TokenData),
          r.tokenData = some tokenData → tokenData.ID = userID →
          tokenData.Role = userRole →
          mwUpgradeToRestrictedRequest bouncer next r =
            [Event.teamMembershipsByUserID userID, Event.writeErrorResponse err 500]) ∧
    (userRole = AdministratorRole →
      newRestrictedContextRequest bouncer userID userRole =
        ([], Except.ok { IsAdmin := true, IsTeamLeader := false, UserID := userID,
                         UserMemberships := [] })) := by
  refine ⟨?_, ?_, ?_⟩
  · intro hrole memberships hlookup
    refine ⟨{ IsAdmin := false, IsTeamLeader := isTeamLeaderLoop memberships,
              UserID := userID, UserMemberships := memberships }, ?_, rfl, rfl, rfl, ?_⟩
    · simp [newRestrictedContextRequest, hrole, hlookup]
    · exact isTeamLeaderLoop_eq_true memberships
  · intro hrole err hlookup
    have hres : newRestrictedContextRequest bouncer userID userRole =
        ([Event.teamMembershipsByUserID userID], Except.error err) := by
      simp [newRestrictedContextRequest, hrole, hlookup]
    refine ⟨by rw [hres], ?_⟩
    intro next r tokenData hdata hid hr
    simp [mwUpgradeToRestrictedRequest, RetrieveTokenData, hdata, hid, hr, hres,
      StatusInternalServerError]
  · intro hrole
    simp [newRestrictedContextRequest, hrole]

theorem newRestrictedContextRequest_spec_witness :
    (∃ requestContext,
      (newRestrictedContextRequest (sampleBouncerWith sampleLeaderMemberships) 3
          StandardUserRole).2 = Except.ok requestContext ∧
        requestContext.IsAdmin = false ∧
        requestContext.UserID = 3 ∧
        requestContext.UserMemberships =
          [{ UserID := 3, TeamID := 20, Role := TeamLeader }] ∧
        (requestContext.IsTeamLeader = true ↔
          ∃ membership ∈ [({ UserID := 3, TeamID := 20, Role := TeamLeader } :
              TeamMembership)],
            membership.Role = TeamLeader)) ∧
    (newRestrictedContextRequest (sampleBouncerWith sampleFailingMemberships) 3
        StandardUserRole).2 = Except.error "Team membership not found" ∧
    newRestrictedContextRequest (sampleBouncerWith sampleLeaderMemberships) 9
        AdministratorRole =
      ([], Except.ok { IsAdmin := true, IsTeamLeader := false, UserID := 9,
                       UserMemberships := [] }) :=
  ⟨(newRestrictedContextRequest_spec (sampleBouncerWith sampleLeaderMemberships) 3
      StandardUserRole).1 (by decide) _ rfl,
    ((newRestrictedContextRequest_spec (sampleBouncerWith sampleFailingMemberships) 3
      StandardUserRole).2.1 (by decide) _ rfl).1,
    (newRestrictedContextRequest_spec (sampleBouncerWith sampleLeaderMemberships) 9
      AdministratorRole).2.2 rfl⟩

end security

namespace proxy

open dockm security

/-! ## Map assignment and decoration -/

theorem lookup_mapSet_self (key : String) (value : Value) (object : Object) :
    (mapSet key value object).lookup key = some value := by
  induction object with
  | nil => simp [mapSet, List.lookup]
  | cons entry rest ih =>
    obtain ⟨k, v⟩ := entry
    by_cases h : k = key
    · simp [mapSet, h, List.lookup]
    · have h2 : (key == k) = false := by
        simpa using fun hk : key = k => h hk.symm
      simp [mapSet, h, List.lookup, h2, ih]

theorem lookup_mapSet_ne (key other : String) (value : Value) (object : Object)
    (hne : other ≠ key) :
    (mapSet key value object).lookup other = object.lookup other := by
  induction object with
  | nil =>
    have h2 : (other == key) = false := by simpa using hne
    simp [mapSet, List.lookup, h2]
  | cons entry rest ih =>
    obtain ⟨k, v⟩ := entry
    by_cases h : k = key
    · subst h
      have h2 : (other == k) = false := by simpa using hne
      simp [mapSet, List.lookup, h2]
    · cases h3 : (other == k) with
      | true => simp [mapSet, h, List.lookup, h3]
      | false => simp [mapSet, h, List.lookup, h3, ih]

theorem mapSet_mapSet (key : String) (first second : Value) (object : Object) :
    mapSet key second (mapSet key first object) = mapSet key second object := by
  induction object with
  | nil => simp [mapSet]
  | cons entry rest ih =>
    obtain ⟨k, v⟩ := entry
    by_cases h : k = key
    · simp [mapSet, h]
    · simp [mapSet, h, ih]

theorem index_mapSet_ne (key other : String) (value : Value) (object : Object)
    (hne : other ≠ key) :
    index (mapSet key value object) other = index object other := by
  unfold index
  rw [lookup_mapSet_ne key other value object hne]

theorem decorateObject_decorateObject (object : Object) (first second : ResourceControl) :
    decorateObject (decorateObject object first) second = decorateObject object second := by
  unfold decorateObject
  exact mapSet_mapSet _ _ _ _

/-- C20: `decorateObject` leaves every key other than `DockM` as it was, puts under `DockM`
the metadata holding exactly the given record, is idempotent, and a second decoration with
another record gives what decorating the original object with that record gives. -/
theorem decorateObject_idempotent_lossless (o : Object) (rc rc2 : ResourceControl) :
    (∀ key, key ≠ "DockM" → (decorateObject o rc).lookup key = o.lookup key) ∧
    (decorateObject o rc).lookup "DockM" =
      some (Value.object [("ResourceControl", Value.resourceControl rc)]) ∧
    decorateObject (decorateObject o rc) rc = decorateObject o rc ∧
    decorateObject (decorateObject o rc) rc2 = decorateObject o rc2 := by
  refine ⟨?_, ?_, decorateObject_decorateObject o rc rc, decorateObject_decorateObject o rc rc2⟩
  · intro key hne
    exact lookup_mapSet_ne "DockM" key _ o hne
  · exact lookup_mapSet_self "DockM" _ o

theorem decorateObject_idempotent_lossless_witness :
    (decorateObject [("Name", Value.string "vol"), ("DockM", Value.null)] rcUser2).lookup
        "Name" = some (Value.string "vol") :=
  (decorateObject_idempotent_lossless [("Name", Value.string "vol"), ("DockM", Value.null)]
    rcUser2 rcUser1).1 "Name" (by decide)

end proxy

namespace proxy

open dockm security

/-! ## Routing -/

theorem hasPrefix_data (path pre : String) (h : HasPrefix path pre = true) :
    ∃ rest, path.data = pre.data ++ rest := by
  unfold HasPrefix at h
  rw [List.isPrefixOf_iff_prefix] at h
  obtain ⟨rest, hrest⟩ := h
  exact ⟨rest, hrest.symm⟩

theorem hasPrefix_swarm_excludes (path : String) (h : HasPrefix path "/swarm" = true) :
    HasPrefix path "/containers" = false ∧ HasPrefix path "/services" = false ∧
      HasPrefix path "/volumes" = false := by
  obtain ⟨rest, hrest⟩ := hasPrefix_data path "/swarm" h
  unfold HasPrefix
  rw [hrest]
  refine ⟨?_, ?_, ?_⟩ <;> rfl

theorem administratorOperation_denied (p : proxyTransport) (request : Request)
    (tokenData : TokenData) (hToken : request.tokenData = some tokenData)
    (hRole : tokenData.Role ≠ AdministratorRole) :
    administratorOperation p request = ([Effect.retrieveTokenData], writeAccessDeniedResponse) := by
  simp [administratorOperation, RetrieveTokenData, hToken, hRole]

theorem administratorOperation_forwarded (p : proxyTransport) (request : Request)
    (tokenData : TokenData) (hToken : request.tokenData = some tokenData)
    (hRole : tokenData.Role = AdministratorRole) :
    administratorOperation p request =
      ([Effect.retrieveTokenData, Effect.executeDockerRequest request],
        p.dockerTransport request) := by
  simp [administratorOperation, RetrieveTokenData, hToken, hRole, after, executeDockerRequest]

theorem proxyDockerRequest_administrator_paths (p : proxyTransport) (ops : rewriteOperations)
    (request : Request)
    (hPath : request.Path = "/containers/prune" ∨ request.Path = "/volumes/prune" ∨
      HasPrefix request.Path "/swarm" = true) :
    proxyDockerRequest p ops request = administratorOperation p request := by
  rcases hPath with h | h | h
  · have h1 : HasPrefix "/containers/prune" "/containers" = true := by decide
    simp [proxyDockerRequest, proxyContainerRequest, h, h1]
  · have h1 : HasPrefix "/volumes/prune" "/containers" = false := by decide
    have h2 : HasPrefix "/volumes/prune" "/services" = false := by decide
    have h3 : HasPrefix "/volumes/prune" "/volumes" = true := by decide
    simp [proxyDockerRequest, proxyVolumeRequest, h, h1, h2, h3]
  · obtain ⟨h1, h2, h3⟩ := hasPrefix_swarm_excludes request.Path h
    simp [proxyDockerRequest, proxySwarmRequest, h, h1, h2, h3]

/-- C13: a request whose path is `/containers/prune` or `/volumes/prune`, or starts with
`/swarm`, gets the administrator-only discipline: with a token role other than Administrator
the reply is the denial response and the upstream is not called; with the Administrator role
the request is handed to the upstream and its reply is returned. -/
theorem administrator_only_discipline (p : proxyTransport) (ops : rewriteOperations)
    (request : Request) (tokenData : TokenData)
    (hPath : request.Path = "/containers/prune" ∨ request.Path = "/volumes/prune" ∨
      HasPrefix request.Path "/swarm" = true)
    (hToken : request.tokenData = some tokenData) :
    (tokenData.Role ≠ AdministratorRole →
      proxyDockerRequest p ops request =
          ([Effect.retrieveTokenData], writeAccessDeniedResponse) ∧
        ∀ upstream, Effect.executeDockerRequest upstream ∉
          (proxyDockerRequest p ops request).1) ∧
    (tokenData.Role = AdministratorRole →
      proxyDockerRequest p ops request =
        ([Effect.retrieveTokenData, Effect.executeDockerRequest request],
          p.dockerTransport request)) := by
  rw [proxyDockerRequest_administrator_paths p ops request hPath]
  constructor
  · intro hRole
    rw [administratorOperation_denied p request tokenData hToken hRole]
    exact ⟨rfl, fun upstream => by simp⟩
  · intro hRole
    exact administratorOperation_forwarded p request tokenData hToken hRole

theorem administrator_only_discipline_witness :
    (proxyDockerRequest (sampleTransport sampleResourceControls sampleMemberships)
        sampleOperations (sampleUserRequest "POST" "/containers/prune")).1 =
      [Effect.retrieveTokenData] ∧
    (proxyDockerRequest (sampleTransport sampleResourceControls sampleMemberships)
        sampleOperations (sampleAdminRequest "POST" "/swarm/init")).1 =
      [Effect.retrieveTokenData,
        Effect.executeDockerRequest (sampleAdminRequest "POST" "/swarm/init")] :=
  ⟨congrArg Prod.fst
      ((administrator_only_discipline (sampleTransport sampleResourceControls sampleMemberships)
        sampleOperations (sampleUserRequest "POST" "/containers/prune")
        { ID := 1, Username := "alice", Role := StandardUserRole } (Or.inl rfl) rfl).1
        (by decide)).1,
    congrArg Prod.fst
      ((administrator_only_discipline (sampleTransport sampleResourceControls sampleMemberships)
        sampleOperations (sampleAdminRequest "POST" "/swarm/init")
        { ID := 9, Username := "admin", Role := AdministratorRole }
        (Or.inr (Or.inr (by decide))) rfl).2 rfl)⟩

/-- C19: a request whose path is `/containers/create`, `/services/create` or
`/volumes/create`, or starts with none of `/containers`, `/services`, `/volumes`, `/swarm`,
is handed to the upstream as it is, whatever its method and token data; the upstream call is
the only call made, so neither the token data nor the memberships, the resource controls or
the settings are read, and the upstream reply is returned as it is. -/
theorem passthrough_discipline (p : proxyTransport) (ops : rewriteOperations)
    (request : Request)
    (hPath : request.Path = "/containers/create" ∨ request.Path = "/services/create" ∨
      request.Path = "/volumes/create" ∨
      (HasPrefix request.Path "/containers" = false ∧
        HasPrefix request.Path "/services" = false ∧
        HasPrefix request.Path "/volumes" = false ∧
        HasPrefix request.Path "/swarm" = false)) :
    proxyDockerRequest p ops request =
      ([Effect.executeDockerRequest request], p.dockerTransport request) := by
  rcases hPath with h | h | h | ⟨h1, h2, h3, h4⟩
  · have h1 : HasPrefix "/containers/create" "/containers" = true := by decide
    simp [proxyDockerRequest, proxyContainerRequest, h, h1, executeDockerRequest]
  · have h1 : HasPrefix "/services/create" "/containers" = false := by decide
    have h2 : HasPrefix "/services/create" "/services" = true := by decide
    simp [proxyDockerRequest, proxyServiceRequest, h, h1, h2, executeDockerRequest]
  · have h1 : HasPrefix "/volumes/create" "/containers" = false := by decide
    have h2 : HasPrefix "/volumes/create" "/services" = false := by decide
    have h3 : HasPrefix "/volumes/create" "/volumes" = true := by decide
    simp [proxyDockerRequest, proxyVolumeRequest, h, h1, h2, h3, executeDockerRequest]
  · simp [proxyDockerRequest, h1, h2, h3, h4, executeDockerRequest]

theorem passthrough_discipline_witness :
    (proxyDockerRequest (sampleTransport sampleFailingResourceControls sampleFailingMemberships)
        sampleOperations (sampleUserRequest "POST" "/volumes/create")).1 =
      [Effect.executeDockerRequest (sampleUserRequest "POST" "/volumes/create")] ∧
    (proxyDockerRequest (sampleTransport sampleFailingResourceControls sampleFailingMemberships)
        sampleOperations (sampleUserRequest "GET" "/images/json")).1 =
      [Effect.executeDockerRequest (sampleUserRequest "GET" "/images/json")] :=
  ⟨congrArg Prod.fst
      (passthrough_discipline
        (sampleTransport sampleFailingResourceControls sampleFailingMemberships)
        sampleOperations (sampleUserRequest "POST" "/volumes/create")
        (Or.inr (Or.inr (Or.inl rfl)))),
    congrArg Prod.fst
      (passthrough_discipline
        (sampleTransport sampleFailingResourceControls sampleFailingMemberships)
        sampleOperations (sampleUserRequest "GET" "/images/json")
        (Or.inr (Or.inr (Or.inr ⟨by decide, by decide, by decide, by decide⟩))))⟩

/-! ## The restricted discipline -/

/-- C14, as stated, fails when a lookup fails: the standard user 1 asks for the resource
`xyz`, for which the snapshot holds no record, and the membership lookup returns an error;
the request is not handed to the upstream, and the reply is that error, not the denial
response. -/
theorem restrictedOperation_lookup_failure :
    sampleResourceControls.ResourceControls =
        Except.ok [{ ResourceID := "abc", AdministratorsOnly := false,
                     UserAccesses := [{ UserID := 2 }], TeamAccesses := [] }] ∧
      getResourceControlByResourceID "xyz"
          [{ ResourceID := "abc", AdministratorsOnly := false,
             UserAccesses := [{ UserID := 2 }], TeamAccesses := [] }] = none ∧
      restrictedOperation (sampleTransport sampleResourceControls sampleFailingMemberships)
          (sampleUserRequest "POST" "/containers/xyz/start") "xyz" =
        ([Effect.retrieveTokenData, Effect.teamMembershipsByUserID 1],
          Reply.failure none "Team membership not found") :=
  ⟨rfl, rfl, rfl⟩

/-- C14, amended: an administrator is always handed to the upstream. For a non-administrator
whose membership lookup and resource-control lookup both succeed, the request is handed to
the upstream exactly when the snapshot holds no record for the resource or holds one the
principal may access, and otherwise the reply is the denial response and the upstream is not
called. When one of the two lookups fails its error is returned and the upstream is not
called. -/
theorem restrictedOperation_spec (p : proxyTransport) (request : Request)
    (resourceID : String) (tokenData : TokenData)
    (hToken : request.tokenData = some tokenData) :
    (tokenData.Role = AdministratorRole →
      restrictedOperation p request resourceID =
        ([Effect.retrieveTokenData, Effect.executeDockerRequest request],
          p.dockerTransport request)) ∧
    (tokenData.Role ≠ AdministratorRole →
      ∀ teamMemberships resourceControls,
        p.TeamMembershipService.TeamMembershipsByUserID tokenData.ID =
          Except.ok teamMemberships →
        p.ResourceControlService.ResourceControls = Except.ok resourceControls →
        ((getResourceControlByResourceID resourceID resourceControls = none ∨
            ∃ resourceControl,
              getResourceControlByResourceID resourceID resourceControls =
                some resourceControl ∧
              canUserAccessResource tokenData.ID (userTeamIDsOf teamMemberships)
                resourceControl = true) →
          restrictedOperation p request resourceID =
            ([Effect.retrieveTokenData, Effect.teamMembershipsByUserID tokenData.ID,
              Effect.resourceControls, Effect.executeDockerRequest request],
              p.dockerTransport request)) ∧
        ((∃ resourceControl,
            getResourceControlByResourceID resourceID resourceControls =
              some resourceControl ∧
            canUserAccessResource tokenData.ID (userTeamIDsOf teamMemberships)
              resourceControl = false) →
          restrictedOperation p request resourceID =
            ([Effect.retrieveTokenData, Effect.teamMembershipsByUserID tokenData.ID,
              Effect.resourceControls], writeAccessDeniedResponse)) ∧
        (Effect.executeDockerRequest request ∈ (restrictedOperation p request resourceID).1 ↔
          (getResourceControlByResourceID resourceID resourceControls = none ∨
            ∃ resourceControl,
              getResourceControlByResourceID resourceID resourceControls =
                some resourceControl ∧
              canUserAccessResource tokenData.ID (userTeamIDsOf teamMemberships)
                resourceControl = true))) ∧
    (tokenData.Role ≠ AdministratorRole →
      ∀ err,
        p.TeamMembershipService.TeamMembershipsByUserID tokenData.ID = Except.error err →
        restrictedOperation p request resourceID =
          ([Effect.retrieveTokenData, Effect.teamMembershipsByUserID tokenData.ID],
            Reply.failure none err)) ∧
    (tokenData.Role ≠ AdministratorRole →
      ∀ teamMemberships err,
        p.TeamMembershipService.TeamMembershipsByUserID tokenData.ID =
          Except.ok teamMemberships →
        p.ResourceControlService.ResourceControls = Except.error err →
        restrictedOperation p request resourceID =
          ([Effect.retrieveTokenData, Effect.teamMembershipsByUserID tokenData.ID,
            Effect.resourceControls], Reply.failure none err)) := by
  refine ⟨?_, ?_, ?_, ?_⟩
  · intro hRole
    simp [restrictedOperation, RetrieveTokenData, hToken, hRole, after, executeDockerRequest]
  · intro hRole teamMemberships resourceControls hTeams hControls
    have hForward : (getResourceControlByResourceID resourceID resourceControls = none ∨
        ∃ resourceControl,
          getResourceControlByResourceID resourceID resourceControls =
            some resourceControl ∧
          canUserAccessResource tokenData.ID (userTeamIDsOf teamMemberships)
            resourceControl = true) →
        restrictedOperation p request resourceID =
          ([Effect.retrieveTokenData, Effect.teamMembershipsByUserID tokenData.ID,
            Effect.resourceControls, Effect.executeDockerRequest request],
            p.dockerTransport request) := by
      rintro (hNone | ⟨resourceControl, hSome, hAccess⟩)
      · simp [restrictedOperation, RetrieveTokenData, hToken, hRole, hTeams, hControls,
          hNone, after, executeDockerRequest]
      · simp [restrictedOperation, RetrieveTokenData, hToken, hRole, hTeams, hControls,
          hSome, hAccess, after, executeDockerRequest]
    have hDenied : (∃ resourceControl,
          getResourceControlByResourceID resourceID resourceControls =
            some resourceControl ∧
          canUserAccessResource tokenData.ID (userTeamIDsOf teamMemberships)
            resourceControl = false) →
        restrictedOperation p request resourceID =
          ([Effect.retrieveTokenData, Effect.teamMembershipsByUserID tokenData.ID,
            Effect.resourceControls], writeAccessDeniedResponse) := by
      rintro ⟨resourceControl, hSome, hAccess⟩
      simp [restrictedOperation, RetrieveTokenData, hToken, hRole, hTeams, hControls,
        hSome, hAccess]
    refine ⟨hForward, hDenied, ?_⟩
    constructor
    · intro hmem
      cases hLookup : getResourceControlByResourceID resourceID resourceControls with
      | none => exact Or.inl rfl
      | some resourceControl =>
        cases hAccess : canUserAccessResource tokenData.ID (userTeamIDsOf teamMemberships)
            resourceControl with
        | true => exact Or.inr ⟨resourceControl, rfl, hAccess⟩
        | false =>
          rw [hDenied ⟨resourceControl, hLookup, hAccess⟩] at hmem
          simp at hmem
    · intro hcond
      rw [hForward hcond]
      simp
  · intro hRole err hTeams
    simp [restrictedOperation, RetrieveTokenData, hToken, hRole, hTeams]
  · intro hRole teamMemberships err hTeams hControls
    simp [restrictedOperation, RetrieveTokenData, hToken, hRole, hTeams, hControls]

theorem restrictedOperation_spec_witness :
    restrictedOperation (sampleTransport sampleResourceControls sampleMemberships)
        (sampleAdminRequest "DELETE" "/containers/abc") "abc" =
      ([Effect.retrieveTokenData,
        Effect.executeDockerRequest (sampleAdminRequest "DELETE" "/containers/abc")],
        (sampleTransport sampleResourceControls sampleMemberships).dockerTransport
          (sampleAdminRequest "DELETE" "/containers/abc")) ∧
    restrictedOperation (sampleTransport sampleResourceControls sampleMemberships)
        (sampleUserRequest "DELETE" "/containers/abc") "abc" =
      ([Effect.retrieveTokenData, Effect.teamMembershipsByUserID 1, Effect.resourceControls],
        writeAccessDeniedResponse) :=
  ⟨(restrictedOperation_spec (sampleTransport sampleResourceControls sampleMemberships)
      (sampleAdminRequest "DELETE" "/containers/abc") "abc"
      { ID := 9, Username := "admin", Role := AdministratorRole } rfl).1 rfl,
    ((restrictedOperation_spec (sampleTransport sampleResourceControls sampleMemberships)
      (sampleUserRequest "DELETE" "/containers/abc") "abc"
      { ID := 1, Username := "alice", Role := StandardUserRole } rfl).2.1 (by decide)
      [] _ rfl rfl).2.1 ⟨_, rfl, rfl⟩⟩

/-- C15, the code at the failing input: the snapshot holds a record for the container `abc`
that the standard user 1 may not access, and the start request on `/containers/abc/start` is
answered by the denial response; yet the requests on `/containers/abc/attach/ws` and on
`/services/abc/update/now` match none of the patterns of the router and are handed to the
upstream without any check. -/
theorem deep_paths_reach_upstream :
    getResourceControlByResourceID "abc"
        [{ ResourceID := "abc", AdministratorsOnly := false,
           UserAccesses := [{ UserID := 2 }], TeamAccesses := [] }] =
      some { ResourceID := "abc", AdministratorsOnly := false,
             UserAccesses := [{ UserID := 2 }], TeamAccesses := [] } ∧
    canUserAccessResource 1 []
        { ResourceID := "abc", AdministratorsOnly := false,
          UserAccesses := [{ UserID := 2 }], TeamAccesses := [] } = false ∧
    proxyDockerRequest (sampleTransport sampleResourceControls sampleMemberships)
        sampleOperations (sampleUserRequest "POST" "/containers/abc/start") =
      ([Effect.retrieveTokenData, Effect.teamMembershipsByUserID 1, Effect.resourceControls],
        writeAccessDeniedResponse) ∧
    proxyDockerRequest (sampleTransport sampleResourceControls sampleMemberships)
        sampleOperations (sampleUserRequest "POST" "/containers/abc/attach/ws") =
      ([Effect.executeDockerRequest (sampleUserRequest "POST" "/containers/abc/attach/ws")],
        (sampleTransport sampleResourceControls sampleMemberships).dockerTransport
          (sampleUserRequest "POST" "/containers/abc/attach/ws")) ∧
    proxyDockerRequest (sampleTransport sampleResourceControls sampleMemberships)
        sampleOperations (sampleUserRequest "POST" "/services/abc/update/now") =
      ([Effect.executeDockerRequest (sampleUserRequest "POST" "/services/abc/update/now")],
        (sampleTransport sampleResourceControls sampleMemberships).dockerTransport
          (sampleUserRequest "POST" "/services/abc/update/now")) :=
  ⟨rfl, rfl, rfl, rfl, rfl⟩

/-! ## The rewrite discipline -/

theorem createOperationContext_calls (p : proxyTransport) (request : Request) :
    ∀ effect ∈ (createOperationContext p request).1,
      effect = Effect.retrieveTokenData ∨ effect = Effect.resourceControls ∨
        ∃ userID, effect = Effect.teamMembershipsByUserID userID := by
  intro effect hmem
  unfold createOperationContext at hmem
  cases hToken : RetrieveTokenData request with
  | error err =>
    rw [hToken] at hmem
    simp at hmem
    exact Or.inl hmem
  | ok tokenData =>
    rw [hToken] at hmem
    cases hControls : p.ResourceControlService.ResourceControls with
    | error err =>
      rw [hControls] at hmem
      simp at hmem
      rcases hmem with h | h
      · exact Or.inl h
      · exact Or.inr (Or.inl h)
    | ok resourceControls =>
      rw [hControls] at hmem
      by_cases hRole : tokenData.Role = AdministratorRole
      · simp [hRole] at hmem
        rcases hmem with h | h
        · exact Or.inl h
        · exact Or.inr (Or.inl h)
      · cases hTeams : p.TeamMembershipService.TeamMembershipsByUserID tokenData.ID with
        | error err =>
          simp [hRole, hTeams] at hmem
          rcases hmem with h | h | h
          · exact Or.inl h
          · exact Or.inr (Or.inl h)
          · exact Or.inr (Or.inr ⟨_, h⟩)
        | ok teamMemberships =>
          simp [hRole, hTeams] at hmem
          rcases hmem with h | h | h
          · exact Or.inl h
          · exact Or.inr (Or.inl h)
          · exact Or.inr (Or.inr ⟨_, h⟩)

theorem executeRequestAndRewriteResponse_calls (p : proxyTransport) (request : Request)
    (operation : restrictedOperationRequest) (executor : operationExecutor) :
    ((executeRequestAndRewriteResponse p request operation executor).1 =
        [Effect.executeDockerRequest request] ∧
      ∀ response, p.dockerTransport request ≠ Reply.response response) ∨
    ((executeRequestAndRewriteResponse p request operation executor).1 =
        [Effect.executeDockerRequest request, Effect.operation] ∧
      ∃ response, p.dockerTransport request = Reply.response response) := by
  unfold executeRequestAndRewriteResponse executeDockerRequest
  cases hReply : p.dockerTransport request with
  | response response =>
    right
    refine ⟨?_, response, rfl⟩
    cases hOp : operation request response executor with
    | ok rewritten => simp [hOp]
    | error failure =>
      cases failure with
      | error err => simp [hOp]
      | panic => simp [hOp]
  | failure response err =>
    left
    exact ⟨rfl, fun response h => Reply.noConfusion h⟩
  | panic =>
    left
    exact ⟨rfl, fun response h => Reply.noConfusion h⟩

/-- C16, as stated, fails when the operation context cannot be built: the inspect request on
`/volumes/vol1` is of the rewrite discipline, the resource-control lookup returns an error,
and the reply is that error with no call of the upstream. -/
theorem rewriteOperation_context_failure :
    proxyDockerRequest (sampleTransport sampleFailingResourceControls sampleMemberships)
        sampleOperations (sampleUserRequest "GET" "/volumes/vol1") =
      rewriteOperation (sampleTransport sampleFailingResourceControls sampleMemberships)
        (sampleUserRequest "GET" "/volumes/vol1") volumeInspectOperation ∧
    rewriteOperation (sampleTransport sampleFailingResourceControls sampleMemberships)
        (sampleUserRequest "GET" "/volumes/vol1") volumeInspectOperation =
      ([Effect.retrieveTokenData, Effect.resourceControls],
        Reply.failure none "Resource control not found") :=
  ⟨rfl, rfl⟩

/-- C16, amended: in the rewrite discipline, once the operation context (and, with label
filtering, the settings) has been obtained without error, the upstream request is always
executed, and the operation that decides on ownership and rewrites the response is called
after it, on the response of the upstream, and only when the upstream returned one without
error; building the context calls neither the upstream nor the operation. When the context
or the settings cannot be obtained the error is returned and the upstream is not called. -/
theorem rewrite_discipline_order (p : proxyTransport) (request : Request)
    (operation : restrictedOperationRequest) :
    (∀ calls operationContext,
      createOperationContext p request = (calls, Except.ok operationContext) →
      (∀ upstream, Effect.executeDockerRequest upstream ∉ calls) ∧
      Effect.operation ∉ calls ∧
      (∃ tail, (tail = [] ∨ tail = [Effect.operation]) ∧
        (rewriteOperation p request operation).1 =
          calls ++ Effect.executeDockerRequest request :: tail) ∧
      (∀ settings, p.SettingsService.Settings = Except.ok settings →
        ∃ tail, (tail = [] ∨ tail = [Effect.operation]) ∧
          (rewriteOperationWithLabelFiltering p request operation).1 =
            calls ++ Effect.settings :: Effect.executeDockerRequest request :: tail) ∧
      (∀ err, p.SettingsService.Settings = Except.error err →
        rewriteOperationWithLabelFiltering p request operation =
          (calls ++ [Effect.settings], Reply.failure none err)) ∧
      (∀ response rewritten, p.dockerTransport request = Reply.response response →
        operation request response
            { operationContext := operationContext, labelBlackList := none } =
          Except.ok rewritten →
        (rewriteOperation p request operation).2 = Reply.response rewritten)) ∧
    (∀ calls err,
      createOperationContext p request = (calls, Except.error err) →
      (∀ upstream, Effect.executeDockerRequest upstream ∉ calls) ∧
      rewriteOperation p request operation = (calls, Reply.failure none err) ∧
      rewriteOperationWithLabelFiltering p request operation =
        (calls, Reply.failure none err)) := by
  have hCalls := createOperationContext_calls p request
  have hNoUpstream : ∀ upstream,
      Effect.executeDockerRequest upstream ∉ (createOperationContext p request).1 := by
    intro upstream hmem
    rcases hCalls _ hmem with h | h | ⟨userID, h⟩ <;> exact Effect.noConfusion h
  have hNoOperation : Effect.operation ∉ (createOperationContext p request).1 := by
    intro hmem
    rcases hCalls _ hmem with h | h | ⟨userID, h⟩ <;> exact Effect.noConfusion h
  constructor
  · intro calls operationContext hContext
    rw [hContext] at hNoUpstream hNoOperation
    refine ⟨hNoUpstream, hNoOperation, ?_, ?_, ?_, ?_⟩
    · have hRun : (rewriteOperation p request operation).1 =
          calls ++ (executeRequestAndRewriteResponse p request operation
            { operationContext := operationContext, labelBlackList := none }).1 := by
        simp [rewriteOperation, hContext, after]
      rcases executeRequestAndRewriteResponse_calls p request operation
          { operationContext := operationContext, labelBlackList := none } with
        ⟨h, _⟩ | ⟨h, _⟩
      · exact ⟨[], Or.inl rfl, by rw [hRun, h]⟩
      · exact ⟨[Effect.operation], Or.inr rfl, by rw [hRun, h]⟩
    · intro settings hSettings
      have hRun : (rewriteOperationWithLabelFiltering p request operation).1 =
          calls ++ Effect.settings ::
            (executeRequestAndRewriteResponse p request operation
              { operationContext := operationContext,
                labelBlackList := settings.BlackListedLabels }).1 := by
        simp [rewriteOperationWithLabelFiltering, hContext, hSettings, after]
      rcases executeRequestAndRewriteResponse_calls p request operation
          { operationContext := operationContext,
            labelBlackList := settings.BlackListedLabels } with
        ⟨h, _⟩ | ⟨h, _⟩
      · exact ⟨[], Or.inl rfl, by rw [hRun, h]⟩
      · exact ⟨[Effect.operation], Or.inr rfl, by rw [hRun, h]⟩
    · intro err hSettings
      simp [rewriteOperationWithLabelFiltering, hContext, hSettings]
    · intro response rewritten hReply hOp
      simp [rewriteOperation, hContext, after, executeRequestAndRewriteResponse,
        executeDockerRequest, hReply, hOp]
  · intro calls err hContext
    rw [hContext] at hNoUpstream
    refine ⟨hNoUpstream, ?_, ?_⟩
    · simp [rewriteOperation, hContext]
    · simp [rewriteOperationWithLabelFiltering, hContext]

theorem rewrite_discipline_order_witness :
    (∃ tail, (tail = [] ∨ tail = [Effect.operation]) ∧
      (rewriteOperation (sampleTransport sampleResourceControls sampleMemberships)
          (sampleUserRequest "GET" "/containers/abc/json") containerInspectOperation).1 =
        [Effect.retrieveTokenData, Effect.resourceControls, Effect.teamMembershipsByUserID 1] ++
          Effect.executeDockerRequest (sampleUserRequest "GET" "/containers/abc/json") ::
            tail) ∧
    rewriteOperation (sampleTransport sampleFailingResourceControls sampleMemberships)
        (sampleUserRequest "GET" "/volumes/vol1") volumeInspectOperation =
      ([Effect.retrieveTokenData, Effect.resourceControls],
        Reply.failure none "Resource control not found") :=
  ⟨((rewrite_discipline_order (sampleTransport sampleResourceControls sampleMemberships)
      (sampleUserRequest "GET" "/containers/abc/json") containerInspectOperation).1
      _ _ rfl).2.2.1,
    ((rewrite_discipline_order (sampleTransport sampleFailingResourceControls sampleMemberships)
      (sampleUserRequest "GET" "/volumes/vol1") volumeInspectOperation).2 _ _ rfl).2.1⟩

/-! ## Inspect operations -/

theorem getResponseAsJSONOBject_body (response : Response) (responseObject : Object)
    (h : getResponseAsJSONOBject response = Except.ok responseObject) :
    response.Body = some (Value.object responseObject) := by
  unfold getResponseAsJSONOBject at h
  cases hBody : response.Body with
  | none => rw [hBody] at h; exact Except.noConfusion h
  | some value =>
    rw [hBody] at h
    cases value with
    | object fields =>
      simp only [Except.ok.injEq] at h
      rw [h]
    | null => exact Except.noConfusion h
    | bool b => exact Except.noConfusion h
    | number literal => exact Except.noConfusion h
    | string str => exact Except.noConfusion h
    | array elements => exact Except.noConfusion h
    | resourceControl rc => exact Except.noConfusion h

/-- C17: for an upstream response that is a single object carrying the volume identifier,
`volumeInspectOperation` emits the body as it was when no record matches the identifier,
emits it with the metadata of the matching record attached when the principal is an
administrator or may access the record, and otherwise replaces the response by the denial
response, whose payload is empty. -/
theorem volumeInspectOperation_spec (request : Request) (response : Response)
    (executor : operationExecutor) (responseObject : Object) (volumeID : String)
    (hBody : getResponseAsJSONOBject response = Except.ok responseObject)
    (hId : index responseObject volumeIdentifier = Value.string volumeID) :
    (getResourceControlByResourceID volumeID executor.operationContext.resourceControls =
        none →
      volumeInspectOperation request response executor =
        Except.ok { StatusCode := 200, Body := response.Body }) ∧
    (∀ resourceControl,
      getResourceControlByResourceID volumeID executor.operationContext.resourceControls =
        some resourceControl →
      (executor.operationContext.isAdmin = true ∨
        canUserAccessResource executor.operationContext.userID
          executor.operationContext.userTeamIDs resourceControl = true) →
      volumeInspectOperation request response executor =
        Except.ok { StatusCode := 200,
                    Body := some (Value.object
                      (decorateObject responseObject resourceControl)) }) ∧
    (∀ resourceControl,
      getResourceControlByResourceID volumeID executor.operationContext.resourceControls =
        some resourceControl →
      executor.operationContext.isAdmin = false →
      canUserAccessResource executor.operationContext.userID
        executor.operationContext.userTeamIDs resourceControl = false →
      volumeInspectOperation request response executor = Except.ok accessDeniedResponse ∧
        accessDeniedResponse.Body = none) := by
  have hb := getResponseAsJSONOBject_body response responseObject hBody
  refine ⟨?_, ?_, ?_⟩
  · intro hNone
    simp [volumeInspectOperation, hBody, hId, isNil, assertString, hNone, rewriteResponse,
      StatusOK, hb]
  · intro resourceControl hSome hAllowed
    rcases hAllowed with hAdmin | hAccess
    · simp [volumeInspectOperation, hBody, hId, isNil, assertString, hSome, hAdmin,
        rewriteResponse, StatusOK]
    · simp [volumeInspectOperation, hBody, hId, isNil, assertString, hSome, hAccess,
        rewriteResponse, StatusOK]
  · intro resourceControl hSome hAdmin hAccess
    refine ⟨?_, rfl⟩
    simp [volumeInspectOperation, hBody, hId, isNil, assertString, hSome, hAdmin, hAccess,
      rewriteAccessDeniedResponse]

theorem volumeInspectOperation_spec_witness :
    volumeInspectOperation (sampleUserRequest "GET" "/volumes/abc")
        { StatusCode := 200,
          Body := some (Value.object [("Name", Value.string "abc")]) }
        { operationContext :=
            { isAdmin := false, userID := 1, userTeamIDs := [],
              resourceControls :=
                [{ ResourceID := "abc", AdministratorsOnly := false,
                   UserAccesses := [{ UserID := 2 }], TeamAccesses := [] }] },
          labelBlackList := none } =
      Except.ok accessDeniedResponse ∧
    accessDeniedResponse.Body = none :=
  (volumeInspectOperation_spec (sampleUserRequest "GET" "/volumes/abc")
    { StatusCode := 200, Body := some (Value.object [("Name", Value.string "abc")]) }
    { operationContext :=
        { isAdmin := false, userID := 1, userTeamIDs := [],
          resourceControls :=
            [{ ResourceID := "abc", AdministratorsOnly := false,
               UserAccesses := [{ UserID := 2 }], TeamAccesses := [] }] },
      labelBlackList := none }
    [("Name", Value.string "abc")] "abc" rfl rfl).2.2 _ rfl rfl rfl

theorem extractContainerLabels_decorateObject (object : Object)
    (resourceControl : ResourceControl) :
    extractContainerLabelsFromContainerInspectObject (decorateObject object resourceControl) =
      extractContainerLabelsFromContainerInspectObject object := by
  have h : index (decorateObject object resourceControl) "Config" = index object "Config" :=
    index_mapSet_ne "DockM" "Config" _ object (by decide)
  simp [extractContainerLabelsFromContainerInspectObject, extractJSONField, h]

theorem containerInspectServiceStage_no_service (response : Response)
    (executor : operationExecutor) (object : Object)
    (h : extractContainerLabelsFromContainerInspectObject object = none ∨
      ∃ labels, extractContainerLabelsFromContainerInspectObject object = some labels ∧
        index labels containerLabelForServiceIdentifier = Value.null) :
    containerInspectServiceStage response executor object =
      Except.ok { StatusCode := 200, Body := some (Value.object object) } := by
  rcases h with h | ⟨labels, h, hNull⟩
  · simp [containerInspectServiceStage, h, rewriteResponse, StatusOK]
  · simp [containerInspectServiceStage, h, hNull, isNil, rewriteResponse, StatusOK]

theorem containerInspectServiceStage_service (response : Response)
    (executor : operationExecutor) (object labels : Object) (serviceID : String)
    (h : extractContainerLabelsFromContainerInspectObject object = some labels)
    (hId : index labels containerLabelForServiceIdentifier = Value.string serviceID) :
    containerInspectServiceStage response executor object =
      match getResourceControlByResourceID serviceID
          executor.operationContext.resourceControls with
      | some resourceControl =>
        if executor.operationContext.isAdmin ||
            canUserAccessResource executor.operationContext.userID
              executor.operationContext.userTeamIDs resourceControl then
          Except.ok { StatusCode := 200,
                      Body := some (Value.object (decorateObject object resourceControl)) }
        else Except.ok accessDeniedResponse
      | none => Except.ok { StatusCode := 200, Body := some (Value.object object) } := by
  simp [containerInspectServiceStage, h, hId, isNil, assertString, rewriteResponse,
    rewriteAccessDeniedResponse, StatusOK]

theorem ok_ne_accessDeniedResponse (body : Option Value) :
    (Except.ok { StatusCode := 200, Body := body } : Except Failure Response) ≠
      Except.ok accessDeniedResponse := by
  intro h
  have h2 := congrArg (fun r => match r with
    | Except.ok (resp : Response) => resp.StatusCode
    | Except.error _ => 0) h
  simp [accessDeniedResponse, StatusForbidden] at h2

theorem containerInspectOperation_eval (request : Request) (response : Response)
    (executor : operationExecutor) (responseObject : Object) (containerID : String)
    (serviceID : Option String)
    (hBody : getResponseAsJSONOBject response = Except.ok responseObject)
    (hId : index responseObject containerIdentifier = Value.string containerID)
    (hService : match serviceID with
      | some sid =>
        ∃ labels, extractContainerLabelsFromContainerInspectObject responseObject =
            some labels ∧
          index labels containerLabelForServiceIdentifier = Value.string sid
      | none =>
        extractContainerLabelsFromContainerInspectObject responseObject = none ∨
          ∃ labels, extractContainerLabelsFromContainerInspectObject responseObject =
              some labels ∧
            index labels containerLabelForServiceIdentifier = Value.null) :
    containerInspectOperation request response executor =
      match getResourceControlByResourceID containerID
          executor.operationContext.resourceControls with
      | some c =>
        if executor.operationContext.isAdmin ||
            canUserAccessResource executor.operationContext.userID
              executor.operationContext.userTeamIDs c then
          match serviceID.bind (fun sid => getResourceControlByResourceID sid
              executor.operationContext.resourceControls) with
          | some s =>
            if executor.operationContext.isAdmin ||
                canUserAccessResource executor.operationContext.userID
                  executor.operationContext.userTeamIDs s then
              Except.ok { StatusCode := 200,
                          Body := some (Value.object (decorateObject responseObject s)) }
            else Except.ok accessDeniedResponse
          | none =>
            Except.ok { StatusCode := 200,
                        Body := some (Value.object (decorateObject responseObject c)) }
        else Except.ok accessDeniedResponse
      | none =>
        match serviceID.bind (fun sid => getResourceControlByResourceID sid
            executor.operationContext.resourceControls) with
        | some s =>
          if executor.operationContext.isAdmin ||
              canUserAccessResource executor.operationContext.userID
                executor.operationContext.userTeamIDs s then
            Except.ok { StatusCode := 200,
                        Body := some (Value.object (decorateObject responseObject s)) }
          else Except.ok accessDeniedResponse
        | none => Except.ok { StatusCode := 200, Body := some (Value.object responseObject) } := by
  have hStage : ∀ object : Object,
      extractContainerLabelsFromContainerInspectObject object =
        extractContainerLabelsFromContainerInspectObject responseObject →
      containerInspectServiceStage response executor object =
        match serviceID.bind (fun sid => getResourceControlByResourceID sid
            executor.operationContext.resourceControls) with
        | some s =>
          if executor.operationContext.isAdmin ||
              canUserAccessResource executor.operationContext.userID
                executor.operationContext.userTeamIDs s then
            Except.ok { StatusCode := 200,
                        Body := some (Value.object (decorateObject object s)) }
          else Except.ok accessDeniedResponse
        | none => Except.ok { StatusCode := 200, Body := some (Value.object object) } := by
    intro object hSame
    cases serviceID with
    | none =>
      rw [← hSame] at hService
      exact containerInspectServiceStage_no_service response executor object hService
    | some sid =>
      obtain ⟨labels, hLabels, hSid⟩ := hService
      rw [← hSame] at hLabels
      exact containerInspectServiceStage_service response executor object labels sid
        hLabels hSid
  unfold containerInspectOperation
  simp only [hBody, hId, isNil, assertString]
  cases hC : getResourceControlByResourceID containerID
      executor.operationContext.resourceControls with
  | none =>
    simp only [Bool.false_eq_true, if_false]
    exact hStage responseObject rfl
  | some c =>
    simp only [Bool.false_eq_true, if_false]
    by_cases hAllowed : (executor.operationContext.isAdmin ||
        canUserAccessResource executor.operationContext.userID
          executor.operationContext.userTeamIDs c) = true
    · simp only [hAllowed, if_true]
      rw [hStage (decorateObject responseObject c)
        (extractContainerLabels_decorateObject responseObject c)]
      cases serviceID.bind (fun sid => getResourceControlByResourceID sid
          executor.operationContext.resourceControls) with
      | none => rfl
      | some s => simp only [decorateObject_decorateObject]
    · simp only [hAllowed, if_false, rewriteAccessDeniedResponse, Bool.false_eq_true]

/-- C18: for a container inspect response that is an object carrying the container `Id`,
with `serviceID` the service identifier found in `Config.Labels` under
`com.docker.swarm.service.id` (if any): a non-administrator receives the denial response
exactly when a record matches the container id and may not be accessed, or a record matches
the service id and may not be accessed; otherwise, and always for an administrator, the
object is emitted with status 200, decorated with the record of the service when one
matches, else with the record of the container when one matches, else as it was. -/
theorem containerInspectOperation_spec (request : Request) (response : Response)
    (executor : operationExecutor) (responseObject : Object) (containerID : String)
    (serviceID : Option String)
    (hBody : getResponseAsJSONOBject response = Except.ok responseObject)
    (hId : index responseObject containerIdentifier = Value.string containerID)
    (hService : match serviceID with
      | some sid =>
        ∃ labels, extractContainerLabelsFromContainerInspectObject responseObject =
            some labels ∧
          index labels containerLabelForServiceIdentifier = Value.string sid
      | none =>
        extractContainerLabelsFromContainerInspectObject responseObject = none ∨
          ∃ labels, extractContainerLabelsFromContainerInspectObject responseObject =
              some labels ∧
            index labels containerLabelForServiceIdentifier = Value.null) :
    (executor.operationContext.isAdmin = false →
      (containerInspectOperation request response executor = Except.ok accessDeniedResponse ↔
        ((∃ resourceControl,
            getResourceControlByResourceID containerID
              executor.operationContext.resourceControls = some resourceControl ∧
            canUserAccessResource executor.operationContext.userID
              executor.operationContext.userTeamIDs resourceControl = false) ∨
          (∃ resourceControl,
            serviceID.bind (fun sid => getResourceControlByResourceID sid
              executor.operationContext.resourceControls) = some resourceControl ∧
            canUserAccessResource executor.operationContext.userID
              executor.operationContext.userTeamIDs resourceControl = false)))) ∧
    ((executor.operationContext.isAdmin = true ∨
        ((∀ resourceControl,
            getResourceControlByResourceID containerID
              executor.operationContext.resourceControls = some resourceControl →
            canUserAccessResource executor.operationContext.userID
              executor.operationContext.userTeamIDs resourceControl = true) ∧
          (∀ resourceControl,
            serviceID.bind (fun sid => getResourceControlByResourceID sid
              executor.operationContext.resourceControls) = some resourceControl →
            canUserAccessResource executor.operationContext.userID
              executor.operationContext.userTeamIDs resourceControl = true))) →
      containerInspectOperation request response executor =
        Except.ok
          { StatusCode := 200,
            Body := some (Value.object
              (match serviceID.bind (fun sid => getResourceControlByResourceID sid
                  executor.operationContext.resourceControls),
                getResourceControlByResourceID containerID
                  executor.operationContext.resourceControls with
              | some s, _ => decorateObject responseObject s
              | none, some c => decorateObject responseObject c
              | none, none => responseObject)) }) := by
  rw [containerInspectOperation_eval request response executor responseObject containerID
    serviceID hBody hId hService]
  constructor
  · intro hAdmin
    cases hC : getResourceControlByResourceID containerID
        executor.operationContext.resourceControls with
    | none =>
      cases hS : serviceID.bind (fun sid => getResourceControlByResourceID sid
          executor.operationContext.resourceControls) with
      | none =>
        refine ⟨fun h => absurd h (ok_ne_accessDeniedResponse _), ?_⟩
        rintro (⟨rc, h1, _⟩ | ⟨rc, h1, _⟩) <;> exact Option.noConfusion h1
      | some s =>
        cases hAccess : canUserAccessResource executor.operationContext.userID
            executor.operationContext.userTeamIDs s with
        | true =>
          simp only [hAdmin, hAccess, Bool.false_or, if_true]
          refine ⟨fun h => absurd h (ok_ne_accessDeniedResponse _), ?_⟩
          rintro (⟨rc, h1, h2⟩ | ⟨rc, h1, h2⟩)
          · exact Option.noConfusion h1
          · cases h1
            rw [hAccess] at h2
            exact Bool.noConfusion h2
        | false =>
          simp only [hAdmin, hAccess, Bool.false_or, Bool.false_eq_true, if_false, true_iff]
          exact Or.inr ⟨s, rfl, hAccess⟩
    | some c =>
      cases hAccessC : canUserAccessResource executor.operationContext.userID
          executor.operationContext.userTeamIDs c with
      | false =>
        simp only [hAdmin, hAccessC, Bool.false_or, Bool.false_eq_true, if_false, true_iff]
        exact Or.inl ⟨c, rfl, hAccessC⟩
      | true =>
        cases hS : serviceID.bind (fun sid => getResourceControlByResourceID sid
            executor.operationContext.resourceControls) with
        | none =>
          simp only [hAdmin, hAccessC, Bool.false_or, if_true]
          refine ⟨fun h => absurd h (ok_ne_accessDeniedResponse _), ?_⟩
          rintro (⟨rc, h1, h2⟩ | ⟨rc, h1, h2⟩)
          · cases h1
            rw [hAccessC] at h2
            exact Bool.noConfusion h2
          · exact Option.noConfusion h1
        | some s =>
          cases hAccess : canUserAccessResource executor.operationContext.userID
              executor.operationContext.userTeamIDs s with
          | true =>
            simp only [hAdmin, hAccessC, hAccess, Bool.false_or, if_true]
            refine ⟨fun h => absurd h (ok_ne_accessDeniedResponse _), ?_⟩
            rintro (⟨rc, h1, h2⟩ | ⟨rc, h1, h2⟩)
            · cases h1
              rw [hAccessC] at h2
              exact Bool.noConfusion h2
            · cases h1
              rw [hAccess] at h2
              exact Bool.noConfusion h2
          | false =>
            simp only [hAdmin, hAccessC, hAccess, Bool.false_or, if_true, Bool.false_eq_true,
              if_false, true_iff]
            exact Or.inr ⟨s, rfl, hAccess⟩
  · intro hAllowed
    have hAll : ∀ resourceControl,
        (getResourceControlByResourceID containerID
            executor.operationContext.resourceControls = some resourceControl ∨
          serviceID.bind (fun sid => getResourceControlByResourceID sid
            executor.operationContext.resourceControls) = some resourceControl) →
        (executor.operationContext.isAdmin ||
          canUserAccessResource executor.operationContext.userID
            executor.operationContext.userTeamIDs resourceControl) = true := by
      intro resourceControl hrc
      rcases hAllowed with hAdmin | ⟨hC, hS⟩
      · simp [hAdmin]
      · rcases hrc with h | h
        · simp [hC resourceControl h]
        · simp [hS resourceControl h]
    cases hC : getResourceControlByResourceID containerID
        executor.operationContext.resourceControls with
    | none =>
      cases hS : serviceID.bind (fun sid => getResourceControlByResourceID sid
          executor.operationContext.resourceControls) with
      | none => rfl
      | some s =>
        have := hAll s (Or.inr hS)
        simp only [this, if_true]
    | some c =>
      have hc := hAll c (Or.inl hC)
      cases hS : serviceID.bind (fun sid => getResourceControlByResourceID sid
          executor.operationContext.resourceControls) with
      | none => simp only [hc, if_true]
      | some s =>
        have := hAll s (Or.inr hS)
        simp only [hc, this, if_true]

theorem containerInspectOperation_spec_witness :
    containerInspectOperation (sampleUserRequest "GET" "/containers/abc/json")
        { StatusCode := 200, Body := some (Value.object sampleSwarmContainer) }
        (sampleExecutor [rcContainerAbc, rcServiceSvc 2]) =
      Except.ok accessDeniedResponse ∧
    containerInspectOperation (sampleUserRequest "GET" "/containers/abc/json")
        { StatusCode := 200, Body := some (Value.object sampleSwarmContainer) }
        (sampleExecutor [rcContainerAbc, rcServiceSvc 1]) =
      Except.ok { StatusCode := 200,
                  Body := some (Value.object
                    (decorateObject sampleSwarmContainer (rcServiceSvc 1))) } :=
  ⟨((containerInspectOperation_spec (sampleUserRequest "GET" "/containers/abc/json")
      { StatusCode := 200, Body := some (Value.object sampleSwarmContainer) }
      (sampleExecutor [rcContainerAbc, rcServiceSvc 2]) sampleSwarmContainer "abc"
      (some "svc") rfl rfl ⟨_, rfl, rfl⟩).1 rfl).2
      (Or.inr ⟨rcServiceSvc 2, rfl, rfl⟩),
    (containerInspectOperation_spec (sampleUserRequest "GET" "/containers/abc/json")
      { StatusCode := 200, Body := some (Value.object sampleSwarmContainer) }
      (sampleExecutor [rcContainerAbc, rcServiceSvc 1]) sampleSwarmContainer "abc"
      (some "svc") rfl rfl ⟨_, rfl, rfl⟩).2
      (Or.inr ⟨fun rc h => by cases h; rfl, fun rc h => by cases h; rfl⟩)⟩

end proxy

namespace proxy

open dockm security

/-! ## The decoration loop -/

theorem decorateLoop_ok_iff (body : Value → Except Failure Value) (input : List Value)
    (decorated output : List Value) :
    decorateLoop body input decorated = Except.ok output ↔
      ∃ added, List.Forall₂ (fun element object => body element = Except.ok object)
          input added ∧
        output = decorated ++ added := by
  induction input generalizing decorated with
  | nil =>
    constructor
    · intro h
      simp only [decorateLoop, Except.ok.injEq] at h
      exact ⟨[], List.Forall₂.nil, by simp [h]⟩
    · rintro ⟨added, hAll, hOut⟩
      cases hAll
      simp [decorateLoop, hOut]
  | cons element rest ih =>
    cases hBody : body element with
    | error failure =>
      constructor
      · intro h
        simp [decorateLoop, hBody] at h
      · rintro ⟨added, hAll, _⟩
        cases hAll with
        | cons hHead _ =>
          rw [hBody] at hHead
          exact Except.noConfusion hHead
    | ok object =>
      have hStep : decorateLoop body (element :: rest) decorated =
          decorateLoop body rest (decorated ++ [object]) := by
        simp [decorateLoop, hBody]
      rw [hStep, ih]
      constructor
      · rintro ⟨added, hAll, hOut⟩
        refine ⟨object :: added, List.Forall₂.cons hBody hAll, ?_⟩
        simp [hOut]
      · rintro ⟨added, hAll, hOut⟩
        cases hAll with
        | cons hHead hTail =>
          rw [hBody] at hHead
          cases hHead
          exact ⟨_, hTail, by simp [hOut]⟩

theorem decorateLoop_error (body : Value → Except Failure Value) (failure : Failure)
    (input : List Value) (decorated : List Value)
    (hEach : ∀ element ∈ input, (∃ object, body element = Except.ok object) ∨
      body element = Except.error failure)
    (hSome : ∃ element ∈ input, body element = Except.error failure) :
    decorateLoop body input decorated = Except.error failure := by
  induction input generalizing decorated with
  | nil =>
    obtain ⟨element, hmem, _⟩ := hSome
    cases hmem
  | cons element rest ih =>
    rcases hEach element (List.mem_cons_self _ _) with ⟨object, hOk⟩ | hErr
    · have hStep : decorateLoop body (element :: rest) decorated =
          decorateLoop body rest (decorated ++ [object]) := by
        simp [decorateLoop, hOk]
      rw [hStep]
      apply ih
      · intro e he
        exact hEach e (List.mem_cons_of_mem _ he)
      · obtain ⟨bad, hmem, hBad⟩ := hSome
        rcases List.mem_cons.1 hmem with h | h
        · subst h
          rw [hOk] at hBad
          exact Except.noConfusion hBad
        · exact ⟨bad, h, hBad⟩
    · simp [decorateLoop, hErr]

theorem decorateLoop_cases (body : Value → Except Failure Value) (input : List Value)
    (decorated : List Value) :
    (∃ output, decorateLoop body input decorated = Except.ok output) ∨
      ∃ element ∈ input, ∃ failure, body element = Except.error failure ∧
        decorateLoop body input decorated = Except.error failure := by
  induction input generalizing decorated with
  | nil => exact Or.inl ⟨decorated, rfl⟩
  | cons element rest ih =>
    cases hBody : body element with
    | error failure =>
      right
      exact ⟨element, List.mem_cons_self _ _, failure, hBody, by simp [decorateLoop, hBody]⟩
    | ok object =>
      have hStep : decorateLoop body (element :: rest) decorated =
          decorateLoop body rest (decorated ++ [object]) := by
        simp [decorateLoop, hBody]
      rw [hStep]
      rcases ih (decorated ++ [object]) with h | ⟨bad, hmem, failure, hBad, hRun⟩
      · exact Or.inl h
      · exact Or.inr ⟨bad, List.mem_cons_of_mem _ hmem, failure, hBad, hRun⟩

end proxy

namespace proxy

open dockm security

/-! ## The bodies of the decoration loops -/

theorem decorateVolume_eq_decorateService (resourceControls : List ResourceControl)
    (volume : Value) :
    decorateVolume resourceControls volume =
      decorateService volumeIdentifier ErrDockerVolumeIdentifierNotFound resourceControls
        volume := rfl

theorem decorateService_ok (identifier : String) (notFound : Error)
    (resourceControls : List ResourceControl) (service object : Value)
    (h : decorateService identifier notFound resourceControls service = Except.ok object) :
    ∃ fields serviceID, service = Value.object fields ∧
      index fields identifier = Value.string serviceID ∧
      object = Value.object
        (decoratedWith (getResourceControlByResourceID serviceID resourceControls) fields) := by
  cases service with
  | object fields =>
    unfold decorateService at h
    simp only [assertObject] at h
    cases hId : index fields identifier with
    | string serviceID =>
      refine ⟨fields, serviceID, rfl, hId, ?_⟩
      rw [hId] at h
      simp only [isNil, assertString, Bool.false_eq_true, if_false] at h
      cases hRecord : getResourceControlByResourceID serviceID resourceControls with
      | none =>
        rw [hRecord] at h
        simp only [Except.ok.injEq] at h
        simp [decoratedWith, ← h]
      | some resourceControl =>
        rw [hRecord] at h
        simp only [Except.ok.injEq] at h
        simp [decoratedWith, ← h]
    | null => rw [hId] at h; simp [isNil] at h
    | bool b => rw [hId] at h; simp [isNil, assertString] at h
    | number literal => rw [hId] at h; simp [isNil, assertString] at h
    | array elements => rw [hId] at h; simp [isNil, assertString] at h
    | object inner => rw [hId] at h; simp [isNil, assertString] at h
    | resourceControl rc => rw [hId] at h; simp [isNil, assertString] at h
  | null => simp [decorateService, assertObject] at h
  | bool b => simp [decorateService, assertObject] at h
  | number literal => simp [decorateService, assertObject] at h
  | string str => simp [decorateService, assertObject] at h
  | array elements => simp [decorateService, assertObject] at h
  | resourceControl rc => simp [decorateService, assertObject] at h

theorem decorateService_lacks (identifier : String) (notFound : Error)
    (resourceControls : List ResourceControl) (service : Value)
    (h : lacksIdentifier identifier service = true) :
    decorateService identifier notFound resourceControls service =
      Except.error (Failure.error notFound) := by
  cases service with
  | object fields =>
    simp only [lacksIdentifier] at h
    simp [decorateService, assertObject, h]
  | null => simp [lacksIdentifier] at h
  | bool b => simp [lacksIdentifier] at h
  | number literal => simp [lacksIdentifier] at h
  | string str => simp [lacksIdentifier] at h
  | array elements => simp [lacksIdentifier] at h
  | resourceControl rc => simp [lacksIdentifier] at h

theorem decorateService_typed (identifier : String) (notFound : Error)
    (resourceControls : List ResourceControl) (service : Value)
    (h : identifierTyped identifier service = true) :
    (∃ object, decorateService identifier notFound resourceControls service =
        Except.ok object) ∨
      (lacksIdentifier identifier service = true ∧
        decorateService identifier notFound resourceControls service =
          Except.error (Failure.error notFound)) := by
  cases service with
  | object fields =>
    simp only [identifierTyped] at h
    cases hId : index fields identifier with
    | string serviceID =>
      left
      cases hRecord : getResourceControlByResourceID serviceID resourceControls with
      | none =>
        exact ⟨Value.object fields,
          by simp [decorateService, assertObject, hId, isNil, assertString, hRecord]⟩
      | some rc =>
        exact ⟨Value.object (decorateObject fields rc),
          by simp [decorateService, assertObject, hId, isNil, assertString, hRecord]⟩
    | null =>
      right
      have hl : lacksIdentifier identifier (Value.object fields) = true := by
        simp [lacksIdentifier, hId, isNil]
      exact ⟨hl, decorateService_lacks identifier notFound resourceControls _ hl⟩
    | bool b => rw [hId] at h; simp at h
    | number literal => rw [hId] at h; simp at h
    | array elements => rw [hId] at h; simp at h
    | object inner => rw [hId] at h; simp at h
    | resourceControl rc => rw [hId] at h; simp at h
  | null => simp [identifierTyped] at h
  | bool b => simp [identifierTyped] at h
  | number literal => simp [identifierTyped] at h
  | string str => simp [identifierTyped] at h
  | array elements => simp [identifierTyped] at h
  | resourceControl rc => simp [identifierTyped] at h

end proxy

namespace proxy

open dockm security

theorem extractListLabels_decorateObject (object : Object) (resourceControl : ResourceControl) :
    extractContainerLabelsFromContainerListObject (decorateObject object resourceControl) =
      extractContainerLabelsFromContainerListObject object := by
  have h : index (decorateObject object resourceControl) "Labels" = index object "Labels" :=
    index_mapSet_ne "DockM" "Labels" _ object (by decide)
  simp [extractContainerLabelsFromContainerListObject, extractJSONField, h]

theorem listServiceID_decorateObject (object : Object) (resourceControl : ResourceControl) :
    listServiceID (decorateObject object resourceControl) = listServiceID object := by
  simp [listServiceID, extractListLabels_decorateObject]

theorem serviceLabelTyped_decorateObject (object : Object)
    (resourceControl : ResourceControl) :
    serviceLabelTyped (decorateObject object resourceControl) = serviceLabelTyped object := by
  simp [serviceLabelTyped, extractListLabels_decorateObject]

theorem decorateContainerServiceStage_eq (resourceControls : List ResourceControl)
    (containerObject : Object) :
    decorateContainerServiceStage resourceControls containerObject =
      if serviceLabelTyped containerObject then
        Except.ok (Value.object
          (decoratedWith
            ((listServiceID containerObject).bind
              (fun serviceID => getResourceControlByResourceID serviceID resourceControls))
            containerObject))
      else Except.error Failure.panic := by
  unfold decorateContainerServiceStage serviceLabelTyped listServiceID
  cases hLabels : extractContainerLabelsFromContainerListObject containerObject with
  | none => simp [decoratedWith]
  | some containerLabels =>
    cases hId : index containerLabels containerLabelForServiceIdentifier with
    | null => simp [hId, isNil, decoratedWith]
    | string serviceID =>
      cases hRecord : getResourceControlByResourceID serviceID resourceControls with
      | none => simp [hId, isNil, assertString, hRecord, decoratedWith]
      | some rc => simp [hId, isNil, assertString, hRecord, decoratedWith]
    | bool b => simp [hId, isNil, assertString]
    | number literal => simp [hId, isNil, assertString]
    | array elements => simp [hId, isNil, assertString]
    | object inner => simp [hId, isNil, assertString]
    | resourceControl rc => simp [hId, isNil, assertString]

/-- The object `decorateContainerList` leaves for a container: decorated with the record of
its service when there is one, else with the record of its `Id` when there is one. -/
theorem decorateContainer_string (resourceControls : List ResourceControl) (fields : Object)
    (containerID : String) (hId : index fields containerIdentifier = Value.string containerID) :
    decorateContainer resourceControls (Value.object fields) =
      if serviceLabelTyped fields then
        Except.ok (Value.object
          (match (listServiceID fields).bind
              (fun serviceID => getResourceControlByResourceID serviceID resourceControls) with
          | some serviceRecord => decorateObject fields serviceRecord
          | none =>
            decoratedWith (getResourceControlByResourceID containerID resourceControls)
              fields))
      else Except.error Failure.panic := by
  unfold decorateContainer
  simp only [assertObject, hId, isNil, assertString, Bool.false_eq_true, if_false]
  cases hRecord : getResourceControlByResourceID containerID resourceControls with
  | none =>
    simp only [decorateContainerServiceStage_eq]
    cases hS : (listServiceID fields).bind
        (fun serviceID => getResourceControlByResourceID serviceID resourceControls) with
    | none => simp [decoratedWith]
    | some s => simp [decoratedWith]
  | some c =>
    simp only [decorateContainerServiceStage_eq, serviceLabelTyped_decorateObject,
      listServiceID_decorateObject]
    cases hS : (listServiceID fields).bind
        (fun serviceID => getResourceControlByResourceID serviceID resourceControls) with
    | none => simp [decoratedWith]
    | some s => simp [decoratedWith, decorateObject_decorateObject]

theorem decorateContainer_ok (resourceControls : List ResourceControl)
    (container object : Value)
    (h : decorateContainer resourceControls container = Except.ok object) :
    ∃ fields containerID, container = Value.object fields ∧
      index fields containerIdentifier = Value.string containerID ∧
      object = Value.object
        (match (listServiceID fields).bind
            (fun serviceID => getResourceControlByResourceID serviceID resourceControls) with
        | some serviceRecord => decorateObject fields serviceRecord
        | none =>
          decoratedWith (getResourceControlByResourceID containerID resourceControls)
            fields) := by
  cases container with
  | object fields =>
    cases hId : index fields containerIdentifier with
    | string containerID =>
      rw [decorateContainer_string resourceControls fields containerID hId] at h
      cases hTyped : serviceLabelTyped fields with
      | true =>
        rw [hTyped] at h
        simp only [if_true, Except.ok.injEq] at h
        exact ⟨fields, containerID, rfl, hId, h.symm⟩
      | false =>
        rw [hTyped] at h
        simp at h
    | null => simp [decorateContainer, assertObject, hId, isNil] at h
    | bool b => simp [decorateContainer, assertObject, hId, isNil, assertString] at h
    | number literal => simp [decorateContainer, assertObject, hId, isNil, assertString] at h
    | array elements => simp [decorateContainer, assertObject, hId, isNil, assertString] at h
    | object inner => simp [decorateContainer, assertObject, hId, isNil, assertString] at h
    | resourceControl rc =>
      simp [decorateContainer, assertObject, hId, isNil, assertString] at h
  | null => simp [decorateContainer, assertObject] at h
  | bool b => simp [decorateContainer, assertObject] at h
  | number literal => simp [decorateContainer, assertObject] at h
  | string str => simp [decorateContainer, assertObject] at h
  | array elements => simp [decorateContainer, assertObject] at h
  | resourceControl rc => simp [decorateContainer, assertObject] at h

theorem decorateContainer_lacks (resourceControls : List ResourceControl) (container : Value)
    (h : lacksIdentifier containerIdentifier container = true) :
    decorateContainer resourceControls container =
      Except.error (Failure.error ErrDockerContainerIdentifierNotFound) := by
  cases container with
  | object fields =>
    simp only [lacksIdentifier] at h
    simp [decorateContainer, assertObject, h]
  | null => simp [lacksIdentifier] at h
  | bool b => simp [lacksIdentifier] at h
  | number literal => simp [lacksIdentifier] at h
  | string str => simp [lacksIdentifier] at h
  | array elements => simp [lacksIdentifier] at h
  | resourceControl rc => simp [lacksIdentifier] at h

theorem decorateContainer_typed (resourceControls : List ResourceControl) (container : Value)
    (h : containerTyped container = true) :
    (∃ object, decorateContainer resourceControls container = Except.ok object) ∨
      (lacksIdentifier containerIdentifier container = true ∧
        decorateContainer resourceControls container =
          Except.error (Failure.error ErrDockerContainerIdentifierNotFound)) := by
  cases container with
  | object fields =>
    simp only [containerTyped] at h
    cases hId : index fields containerIdentifier with
    | string containerID =>
      left
      rw [hId] at h
      simp only at h
      rw [decorateContainer_string resourceControls fields containerID hId, h]
      exact ⟨_, rfl⟩
    | null =>
      right
      have hl : lacksIdentifier containerIdentifier (Value.object fields) = true := by
        simp [lacksIdentifier, hId, isNil]
      exact ⟨hl, decorateContainer_lacks resourceControls _ hl⟩
    | bool b => rw [hId] at h; simp at h
    | number literal => rw [hId] at h; simp at h
    | array elements => rw [hId] at h; simp at h
    | object inner => rw [hId] at h; simp at h
    | resourceControl rc => rw [hId] at h; simp at h
  | null => simp [containerTyped] at h
  | bool b => simp [containerTyped] at h
  | number literal => simp [containerTyped] at h
  | string str => simp [containerTyped] at h
  | array elements => simp [containerTyped] at h
  | resourceControl rc => simp [containerTyped] at h

end proxy

namespace proxy

open dockm security

/-! ## List decoration -/

/-- C21: whenever `decorateVolumeList`, `decorateServiceList` or `decorateContainerList`
succeeds, the output has the length of the input and its elements answer the input elements
position by position: each is the input object as it was when no record matches, or the
input object decorated with the matching record (for a container the record of its service,
else the record of its `Id`), a decoration that changes no key other than `DockM`. -/
theorem list_decoration_preserves_order (resourceControls : List ResourceControl)
    (serviceIdentifier : String) (notFound : Error) (input output : List Value) :
    (decorateVolumeList input resourceControls = Except.ok output →
      output.length = input.length ∧
      List.Forall₂ (fun element object =>
        ∃ fields id, element = Value.object fields ∧
          index fields volumeIdentifier = Value.string id ∧
          ((getResourceControlByResourceID id resourceControls = none ∧ object = element) ∨
            ∃ rc, getResourceControlByResourceID id resourceControls = some rc ∧
              object = Value.object (decorateObject fields rc) ∧
              ∀ key, key ≠ "DockM" → (decorateObject fields rc).lookup key = fields.lookup key))
        input output) ∧
    (decorateServiceList serviceIdentifier notFound input resourceControls =
        Except.ok output →
      output.length = input.length ∧
      List.Forall₂ (fun element object =>
        ∃ fields id, element = Value.object fields ∧
          index fields serviceIdentifier = Value.string id ∧
          ((getResourceControlByResourceID id resourceControls = none ∧ object = element) ∨
            ∃ rc, getResourceControlByResourceID id resourceControls = some rc ∧
              object = Value.object (decorateObject fields rc) ∧
              ∀ key, key ≠ "DockM" → (decorateObject fields rc).lookup key = fields.lookup key))
        input output) ∧
    (decorateContainerList input resourceControls = Except.ok output →
      output.length = input.length ∧
      List.Forall₂ (fun element object =>
        ∃ fields id, element = Value.object fields ∧
          index fields containerIdentifier = Value.string id ∧
          ((getResourceControlByResourceID id resourceControls = none ∧
              (listServiceID fields).bind
                (fun serviceID => getResourceControlByResourceID serviceID resourceControls) =
                none ∧
              object = element) ∨
            ∃ rc,
              ((listServiceID fields).bind
                  (fun serviceID =>
                    getResourceControlByResourceID serviceID resourceControls) = some rc ∨
                ((listServiceID fields).bind
                    (fun serviceID =>
                      getResourceControlByResourceID serviceID resourceControls) = none ∧
                  getResourceControlByResourceID id resourceControls = some rc)) ∧
              object = Value.object (decorateObject fields rc) ∧
              ∀ key, key ≠ "DockM" → (decorateObject fields rc).lookup key = fields.lookup key))
        input output) := by
  have hService : ∀ (identifier : String) (err : Error),
      decorateLoop (decorateService identifier err resourceControls) input [] =
        Except.ok output →
      output.length = input.length ∧
      List.Forall₂ (fun element object =>
        ∃ fields id, element = Value.object fields ∧
          index fields identifier = Value.string id ∧
          ((getResourceControlByResourceID id resourceControls = none ∧ object = element) ∨
            ∃ rc, getResourceControlByResourceID id resourceControls = some rc ∧
              object = Value.object (decorateObject fields rc) ∧
              ∀ key, key ≠ "DockM" → (decorateObject fields rc).lookup key = fields.lookup key))
        input output := by
    intro identifier err h
    obtain ⟨added, hAll, hOut⟩ := (decorateLoop_ok_iff _ input [] output).1 h
    simp only [List.nil_append] at hOut
    subst hOut
    refine ⟨hAll.length_eq.symm, hAll.imp ?_⟩
    intro element object hBody
    obtain ⟨fields, id, hElement, hId, hObject⟩ :=
      decorateService_ok identifier err resourceControls element object hBody
    refine ⟨fields, id, hElement, hId, ?_⟩
    cases hRecord : getResourceControlByResourceID id resourceControls with
    | none =>
      left
      rw [hRecord] at hObject
      exact ⟨rfl, by rw [hObject, hElement]; rfl⟩
    | some rc =>
      right
      rw [hRecord] at hObject
      exact ⟨rc, rfl, hObject, fun key hne => lookup_mapSet_ne "DockM" key _ fields hne⟩
  refine ⟨?_, ?_, ?_⟩
  · intro h
    exact hService volumeIdentifier ErrDockerVolumeIdentifierNotFound h
  · intro h
    exact hService serviceIdentifier notFound h
  · intro h
    obtain ⟨added, hAll, hOut⟩ := (decorateLoop_ok_iff _ input [] output).1 h
    simp only [List.nil_append] at hOut
    subst hOut
    refine ⟨hAll.length_eq.symm, hAll.imp ?_⟩
    intro element object hBody
    obtain ⟨fields, id, hElement, hId, hObject⟩ :=
      decorateContainer_ok resourceControls element object hBody
    refine ⟨fields, id, hElement, hId, ?_⟩
    cases hS : (listServiceID fields).bind
        (fun serviceID => getResourceControlByResourceID serviceID resourceControls) with
    | some s =>
      right
      rw [hS] at hObject
      exact ⟨s, Or.inl rfl, hObject, fun key hne => lookup_mapSet_ne "DockM" key _ fields hne⟩
    | none =>
      rw [hS] at hObject
      cases hRecord : getResourceControlByResourceID id resourceControls with
      | none =>
        left
        rw [hRecord] at hObject
        exact ⟨rfl, rfl, by rw [hObject, hElement]; rfl⟩
      | some rc =>
        right
        rw [hRecord] at hObject
        exact ⟨rc, Or.inr ⟨rfl, rfl⟩, hObject,
          fun key hne => lookup_mapSet_ne "DockM" key _ fields hne⟩

theorem list_decoration_preserves_order_witness :
    [Value.object (decorateObject [("Name", Value.string "abc")] rcContainerAbc),
        Value.object [("Name", Value.string "free")]].length = sampleVolumes.length ∧
    [Value.object (decorateObject [("Id", Value.string "abc")] rcContainerAbc),
        Value.object
          (decorateObject
            [("Id", Value.string "task"),
              ("Labels", Value.object
                [("com.docker.swarm.service.id", Value.string "svc")])]
            (rcServiceSvc 2)),
        Value.object [("Id", Value.string "free")]].length = sampleContainers.length :=
  ⟨((list_decoration_preserves_order sampleSnapshot "ID" "not found" sampleVolumes
      [Value.object (decorateObject [("Name", Value.string "abc")] rcContainerAbc),
        Value.object [("Name", Value.string "free")]]).1 rfl).1,
    ((list_decoration_preserves_order sampleSnapshot "ID" "not found" sampleContainers
      [Value.object (decorateObject [("Id", Value.string "abc")] rcContainerAbc),
        Value.object
          (decorateObject
            [("Id", Value.string "task"),
              ("Labels", Value.object
                [("com.docker.swarm.service.id", Value.string "svc")])]
            (rcServiceSvc 2)),
        Value.object [("Id", Value.string "free")]]).2.2 rfl).1⟩

end proxy

namespace proxy

open dockm security

/-! ## Lists with an element that lacks its identifier or is ill typed -/

theorem decorateLoop_stops (body : Value → Except Failure Value) (failure : Failure)
    (before : List Value) (stopping : Value) (after : List Value) (decorated : List Value)
    (hBefore : ∀ element ∈ before, (∃ object, body element = Except.ok object) ∨
      body element = Except.error failure)
    (hStop : body stopping = Except.error failure) :
    decorateLoop body (before ++ stopping :: after) decorated = Except.error failure := by
  induction before generalizing decorated with
  | nil => simp [decorateLoop, hStop]
  | cons element rest ih =>
    rcases hBefore element (List.mem_cons_self _ _) with ⟨object, hOk⟩ | hErr
    · have hStep : decorateLoop body ((element :: rest) ++ stopping :: after) decorated =
          decorateLoop body (rest ++ stopping :: after) (decorated ++ [object]) := by
        simp [decorateLoop, hOk]
      rw [hStep]
      exact ih (decorated ++ [object]) (fun e he => hBefore e (List.mem_cons_of_mem _ he))
    · simp [decorateLoop, hErr]

theorem decorateService_ill_typed (identifier : String) (notFound : Error)
    (resourceControls : List ResourceControl) (service : Value)
    (h : identifierTyped identifier service = false) :
    decorateService identifier notFound resourceControls service =
      Except.error Failure.panic := by
  cases service with
  | object fields =>
    simp only [identifierTyped] at h
    cases hId : index fields identifier with
    | null => rw [hId] at h; simp at h
    | string serviceID => rw [hId] at h; simp at h
    | bool b => simp [decorateService, assertObject, hId, isNil, assertString]
    | number literal => simp [decorateService, assertObject, hId, isNil, assertString]
    | array elements => simp [decorateService, assertObject, hId, isNil, assertString]
    | object inner => simp [decorateService, assertObject, hId, isNil, assertString]
    | resourceControl rc => simp [decorateService, assertObject, hId, isNil, assertString]
  | null => simp [decorateService, assertObject]
  | bool b => simp [decorateService, assertObject]
  | number literal => simp [decorateService, assertObject]
  | string str => simp [decorateService, assertObject]
  | array elements => simp [decorateService, assertObject]
  | resourceControl rc => simp [decorateService, assertObject]

theorem decorateContainer_ill_typed (resourceControls : List ResourceControl)
    (container : Value) (h : containerTyped container = false) :
    decorateContainer resourceControls container = Except.error Failure.panic := by
  cases container with
  | object fields =>
    simp only [containerTyped] at h
    cases hId : index fields containerIdentifier with
    | null => rw [hId] at h; simp at h
    | string containerID =>
      rw [hId] at h
      simp only at h
      rw [decorateContainer_string resourceControls fields containerID hId, h]
      simp
    | bool b => simp [decorateContainer, assertObject, hId, isNil, assertString]
    | number literal => simp [decorateContainer, assertObject, hId, isNil, assertString]
    | array elements => simp [decorateContainer, assertObject, hId, isNil, assertString]
    | object inner => simp [decorateContainer, assertObject, hId, isNil, assertString]
    | resourceControl rc => simp [decorateContainer, assertObject, hId, isNil, assertString]
  | null => simp [decorateContainer, assertObject]
  | bool b => simp [decorateContainer, assertObject]
  | number literal => simp [decorateContainer, assertObject]
  | string str => simp [decorateContainer, assertObject]
  | array elements => simp [decorateContainer, assertObject]
  | resourceControl rc => simp [decorateContainer, assertObject]

theorem decorateService_well_formed (identifier : String) (notFound : Error)
    (resourceControls : List ResourceControl) (service : Value)
    (hTyped : identifierTyped identifier service = true)
    (hCarries : lacksIdentifier identifier service = false) :
    ∃ object, decorateService identifier notFound resourceControls service =
      Except.ok object := by
  rcases decorateService_typed identifier notFound resourceControls service hTyped with
    h | ⟨hLacks, _⟩
  · exact h
  · rw [hCarries] at hLacks
    exact Bool.noConfusion hLacks

theorem decorateContainer_well_formed (resourceControls : List ResourceControl)
    (container : Value) (hTyped : containerTyped container = true)
    (hCarries : lacksIdentifier containerIdentifier container = false) :
    ∃ object, decorateContainer resourceControls container = Except.ok object := by
  rcases decorateContainer_typed resourceControls container hTyped with h | ⟨hLacks, _⟩
  · exact h
  · rw [hCarries] at hLacks
    exact Bool.noConfusion hLacks

/-- C23, as stated, fails: in each of these lists the second element is an object that lacks
the identifier of the family, yet the function ends by a failed type assertion on the first
element, which is no object or has an identifier that is no string, and not by the
identifier-not-found error. -/
theorem list_decoration_ill_typed_before_lacking :
    lacksIdentifier volumeIdentifier (Value.object []) = true ∧
    decorateVolumeList [Value.number "5", Value.object []] sampleSnapshot =
      Except.error Failure.panic ∧
    decorateVolumeList [Value.object [("Name", Value.number "5")], Value.object []]
        sampleSnapshot =
      Except.error Failure.panic ∧
    lacksIdentifier containerIdentifier (Value.object []) = true ∧
    decorateContainerList [Value.number "5", Value.object []] sampleSnapshot =
      Except.error Failure.panic ∧
    lacksIdentifier "ID" (Value.object []) = true ∧
    decorateServiceList "ID" "not found" [Value.number "5", Value.object []]
        sampleSnapshot =
      Except.error Failure.panic :=
  ⟨rfl, rfl, rfl, rfl, rfl, rfl, rfl⟩

/-- C23, amended: for every input list in which some element lacks the identifier of the
family and every element before it is an object with an identifier that is absent, null or
a string (for containers, where the identifier is a string, also with a service label that
is absent, null or a string), `decorateVolumeList`, `decorateServiceList` and
`decorateContainerList` return the
identifier-not-found error of the family and no list, however many well-formed elements come
before that element and whatever comes after it. -/
theorem list_decoration_all_or_nothing (resourceControls : List ResourceControl)
    (serviceIdentifier : String) (notFound : Error) (before : List Value)
    (lacking : Value) (after : List Value) :
    ((∀ element ∈ before, identifierTyped volumeIdentifier element = true) →
      lacksIdentifier volumeIdentifier lacking = true →
      decorateVolumeList (before ++ lacking :: after) resourceControls =
        Except.error (Failure.error ErrDockerVolumeIdentifierNotFound)) ∧
    ((∀ element ∈ before, identifierTyped serviceIdentifier element = true) →
      lacksIdentifier serviceIdentifier lacking = true →
      decorateServiceList serviceIdentifier notFound (before ++ lacking :: after)
          resourceControls =
        Except.error (Failure.error notFound)) ∧
    ((∀ element ∈ before, containerTyped element = true) →
      lacksIdentifier containerIdentifier lacking = true →
      decorateContainerList (before ++ lacking :: after) resourceControls =
        Except.error (Failure.error ErrDockerContainerIdentifierNotFound)) := by
  have hService : ∀ (identifier : String) (err : Error),
      (∀ element ∈ before, identifierTyped identifier element = true) →
      lacksIdentifier identifier lacking = true →
      decorateLoop (decorateService identifier err resourceControls)
          (before ++ lacking :: after) [] =
        Except.error (Failure.error err) := by
    intro identifier err hTyped hLacks
    apply decorateLoop_stops
    · intro element hmem
      rcases decorateService_typed identifier err resourceControls element
          (hTyped element hmem) with h | ⟨_, h⟩
      · exact Or.inl h
      · exact Or.inr h
    · exact decorateService_lacks identifier err resourceControls lacking hLacks
  refine ⟨hService volumeIdentifier ErrDockerVolumeIdentifierNotFound,
    hService serviceIdentifier notFound, ?_⟩
  intro hTyped hLacks
  apply decorateLoop_stops
  · intro element hmem
    rcases decorateContainer_typed resourceControls element (hTyped element hmem) with
      h | ⟨_, h⟩
    · exact Or.inl h
    · exact Or.inr h
  · exact decorateContainer_lacks resourceControls lacking hLacks

theorem list_decoration_all_or_nothing_witness :
    decorateVolumeList
        (sampleVolumes ++ Value.object [("Driver", Value.string "local")] ::
          [Value.number "5"])
        sampleSnapshot =
      Except.error (Failure.error ErrDockerVolumeIdentifierNotFound) ∧
    decorateContainerList
        (sampleContainers ++ Value.object [("Image", Value.string "nginx")] ::
          [Value.number "5"])
        sampleSnapshot =
      Except.error (Failure.error ErrDockerContainerIdentifierNotFound) :=
  ⟨(list_decoration_all_or_nothing sampleSnapshot "ID" "not found" sampleVolumes
      (Value.object [("Driver", Value.string "local")]) [Value.number "5"]).1
      (by decide) rfl,
    (list_decoration_all_or_nothing sampleSnapshot "ID" "not found" sampleContainers
      (Value.object [("Image", Value.string "nginx")]) [Value.number "5"]).2.2
      (by decide) rfl⟩

end proxy

namespace proxy

open dockm security

/-- C27, as stated, fails: on a list holding an element that is no object, or an object
whose identifier is no string, the three list functions end by a failed type assertion,
neither by a decorated list nor by an error. -/
theorem list_decoration_type_assertion_fails :
    decorateVolumeList [Value.number "5"] sampleSnapshot = Except.error Failure.panic ∧
    decorateVolumeList [Value.object [("Name", Value.number "5")]] sampleSnapshot =
      Except.error Failure.panic ∧
    decorateContainerList [Value.string "abc"] sampleSnapshot = Except.error Failure.panic ∧
    decorateContainerList [Value.object [("Id", Value.bool true)]] sampleSnapshot =
      Except.error Failure.panic ∧
    decorateServiceList "ID" "not found" [Value.array []] sampleSnapshot =
      Except.error Failure.panic :=
  ⟨rfl, rfl, rfl, rfl, rfl⟩

/-- C27, amended: on every input list whose elements are objects with an identifier that is
absent, null or a string (for containers, where the identifier is a string, also with a
service label that is absent, null or a string), the three list functions return either a
decorated list or the identifier-not-found error of the family, and do not end by a failed
type assertion. On every input list in which an element that is not of that kind comes
after elements that are all of that kind and carry their identifier, the three list
functions end by a failed type assertion, whatever comes after that element. -/
theorem list_decoration_total_on_typed (resourceControls : List ResourceControl)
    (serviceIdentifier : String) (notFound : Error) (input : List Value)
    (before : List Value) (illTyped : Value) (after : List Value) :
    ((∀ element ∈ input, identifierTyped volumeIdentifier element = true) →
      (∃ output, decorateVolumeList input resourceControls = Except.ok output) ∨
        decorateVolumeList input resourceControls =
          Except.error (Failure.error ErrDockerVolumeIdentifierNotFound)) ∧
    ((∀ element ∈ input, identifierTyped serviceIdentifier element = true) →
      (∃ output, decorateServiceList serviceIdentifier notFound input resourceControls =
          Except.ok output) ∨
        decorateServiceList serviceIdentifier notFound input resourceControls =
          Except.error (Failure.error notFound)) ∧
    ((∀ element ∈ input, containerTyped element = true) →
      (∃ output, decorateContainerList input resourceControls = Except.ok output) ∨
        decorateContainerList input resourceControls =
          Except.error (Failure.error ErrDockerContainerIdentifierNotFound)) ∧
    ((∀ element ∈ before, identifierTyped volumeIdentifier element = true ∧
        lacksIdentifier volumeIdentifier element = false) →
      identifierTyped volumeIdentifier illTyped = false →
      decorateVolumeList (before ++ illTyped :: after) resourceControls =
        Except.error Failure.panic) ∧
    ((∀ element ∈ before, identifierTyped serviceIdentifier element = true ∧
        lacksIdentifier serviceIdentifier element = false) →
      identifierTyped serviceIdentifier illTyped = false →
      decorateServiceList serviceIdentifier notFound (before ++ illTyped :: after)
          resourceControls =
        Except.error Failure.panic) ∧
    ((∀ element ∈ before, containerTyped element = true ∧
        lacksIdentifier containerIdentifier element = false) →
      containerTyped illTyped = false →
      decorateContainerList (before ++ illTyped :: after) resourceControls =
        Except.error Failure.panic) := by
  have hService : ∀ (identifier : String) (err : Error),
      (∀ element ∈ input, identifierTyped identifier element = true) →
      (∃ output, decorateLoop (decorateService identifier err resourceControls) input [] =
          Except.ok output) ∨
        decorateLoop (decorateService identifier err resourceControls) input [] =
          Except.error (Failure.error err) := by
    intro identifier err hTyped
    rcases decorateLoop_cases (decorateService identifier err resourceControls) input [] with
      h | ⟨element, hmem, failure, hBody, hRun⟩
    · exact Or.inl h
    · right
      rcases decorateService_typed identifier err resourceControls element
          (hTyped element hmem) with ⟨object, hOk⟩ | ⟨_, hErr⟩
      · rw [hOk] at hBody
        exact Except.noConfusion hBody
      · rw [hErr] at hBody
        cases hBody
        exact hRun
  have hServicePanic : ∀ (identifier : String) (err : Error),
      (∀ element ∈ before, identifierTyped identifier element = true ∧
        lacksIdentifier identifier element = false) →
      identifierTyped identifier illTyped = false →
      decorateLoop (decorateService identifier err resourceControls)
          (before ++ illTyped :: after) [] =
        Except.error Failure.panic := by
    intro identifier err hBefore hIll
    apply decorateLoop_stops
    · intro element hmem
      exact Or.inl (decorateService_well_formed identifier err resourceControls element
        (hBefore element hmem).1 (hBefore element hmem).2)
    · exact decorateService_ill_typed identifier err resourceControls illTyped hIll
  refine ⟨hService volumeIdentifier ErrDockerVolumeIdentifierNotFound,
    hService serviceIdentifier notFound, ?_,
    hServicePanic volumeIdentifier ErrDockerVolumeIdentifierNotFound,
    hServicePanic serviceIdentifier notFound, ?_⟩
  · intro hTyped
    rcases decorateLoop_cases (decorateContainer resourceControls) input [] with
      h | ⟨element, hmem, failure, hBody, hRun⟩
    · exact Or.inl h
    · right
      rcases decorateContainer_typed resourceControls element (hTyped element hmem) with
        ⟨object, hOk⟩ | ⟨_, hErr⟩
      · rw [hOk] at hBody
        exact Except.noConfusion hBody
      · rw [hErr] at hBody
        cases hBody
        exact hRun
  · intro hBefore hIll
    apply decorateLoop_stops
    · intro element hmem
      exact Or.inl (decorateContainer_well_formed resourceControls element
        (hBefore element hmem).1 (hBefore element hmem).2)
    · exact decorateContainer_ill_typed resourceControls illTyped hIll

theorem list_decoration_total_on_typed_witness :
    ((∃ output, decorateVolumeList sampleVolumes sampleSnapshot = Except.ok output) ∨
      decorateVolumeList sampleVolumes sampleSnapshot =
        Except.error (Failure.error ErrDockerVolumeIdentifierNotFound)) ∧
    ((∃ output, decorateContainerList sampleContainers sampleSnapshot = Except.ok output) ∨
      decorateContainerList sampleContainers sampleSnapshot =
        Except.error (Failure.error ErrDockerContainerIdentifierNotFound)) ∧
    decorateVolumeList (sampleVolumes ++ Value.number "5" :: [Value.object []])
        sampleSnapshot =
      Except.error Failure.panic ∧
    decorateContainerList
        (sampleContainers ++ Value.object [("Id", Value.bool true)] :: [Value.object []])
        sampleSnapshot =
      Except.error Failure.panic :=
  ⟨(list_decoration_total_on_typed sampleSnapshot "ID" "not found" sampleVolumes
      [] Value.null []).1 (by decide),
    (list_decoration_total_on_typed sampleSnapshot "ID" "not found" sampleContainers
      [] Value.null []).2.2.1 (by decide),
    (list_decoration_total_on_typed sampleSnapshot "ID" "not found" []
      sampleVolumes (Value.number "5") [Value.object []]).2.2.2.1 (by decide) rfl,
    (list_decoration_total_on_typed sampleSnapshot "ID" "not found" []
      sampleContainers (Value.object [("Id", Value.bool true)])
      [Value.object []]).2.2.2.2.2 (by decide) rfl⟩

end proxy

namespace proxy

open dockm security

/-! ## List operations for a principal that is not an administrator -/

theorem keptFor_eq_true (userID : UserID) (userTeamIDs : List TeamID)
    (record : Option ResourceControl) :
    keptFor userID userTeamIDs record = true ↔
      (record = none ∨
        ∃ rc, record = some rc ∧ canUserAccessResource userID userTeamIDs rc = true) := by
  cases record with
  | none => simp [keptFor]
  | some rc => simp [keptFor]

theorem filterVolumeList_ok (volumeData output : List Value)
    (resourceControls : List ResourceControl) (userID : UserID) (userTeamIDs : List TeamID)
    (h : filterVolumeList volumeData resourceControls userID userTeamIDs = Except.ok output) :
    output = volumeData.filter
      (fun volume => keptFor userID userTeamIDs (volumeRecord resourceControls volume)) := by
  unfold filterVolumeList at h
  by_cases hAll : volumeData.all (carriesIdentifier volumeIdentifier) = true
  · rw [if_pos hAll] at h
    simp only [Except.ok.injEq] at h
    exact h.symm
  · rw [if_neg hAll] at h
    exact Except.noConfusion h

theorem filterContainerList_ok (containerData output : List Value)
    (resourceControls : List ResourceControl) (userID : UserID) (userTeamIDs : List TeamID)
    (h : filterContainerList containerData resourceControls userID userTeamIDs =
      Except.ok output) :
    output = containerData.filter
      (fun container =>
        keptFor userID userTeamIDs (containerRecord resourceControls container)) := by
  unfold filterContainerList at h
  by_cases hAll : containerData.all (carriesIdentifier containerIdentifier) = true
  · rw [if_pos hAll] at h
    simp only [Except.ok.injEq] at h
    exact h.symm
  · rw [if_neg hAll] at h
    exact Except.noConfusion h

end proxy

namespace proxy

open dockm security

/-- C22: for a principal that is not an administrator, the list emitted by
`containerListOperation` and by `volumeListOperation` is an order-preserving sub-list of
the upstream list, hence not longer, whose elements are upstream elements as they were;
every emitted element has no matching record or has one the principal may access, and every
upstream element whose record the principal may not access is absent. -/
theorem non_administrator_list_is_filtered (request : Request) (response : Response)
    (executor : operationExecutor) (rewritten : Response)
    (hAdmin : executor.operationContext.isAdmin = false) :
    (∀ upstream, getResponseAsJSONArray response = Except.ok upstream →
      containerListOperation request response executor = Except.ok rewritten →
      ∃ emitted, rewritten.Body = some (Value.array emitted) ∧
        emitted.Sublist upstream ∧ emitted.length ≤ upstream.length ∧
        (∀ element ∈ emitted,
          containerRecord executor.operationContext.resourceControls element = none ∨
            ∃ rc, containerRecord executor.operationContext.resourceControls element =
                some rc ∧
              canUserAccessResource executor.operationContext.userID
                executor.operationContext.userTeamIDs rc = true) ∧
        (∀ element ∈ upstream, ∀ rc,
          containerRecord executor.operationContext.resourceControls element = some rc →
          canUserAccessResource executor.operationContext.userID
            executor.operationContext.userTeamIDs rc = false →
          element ∉ emitted)) ∧
    (∀ responseObject upstream,
      getResponseAsJSONOBject response = Except.ok responseObject →
      index responseObject "Volumes" = Value.array upstream →
      volumeListOperation request response executor = Except.ok rewritten →
      ∃ emitted,
        rewritten.Body =
          some (Value.object (mapSet "Volumes" (Value.array emitted) responseObject)) ∧
        emitted.Sublist upstream ∧ emitted.length ≤ upstream.length ∧
        (∀ element ∈ emitted,
          volumeRecord executor.operationContext.resourceControls element = none ∨
            ∃ rc, volumeRecord executor.operationContext.resourceControls element =
                some rc ∧
              canUserAccessResource executor.operationContext.userID
                executor.operationContext.userTeamIDs rc = true) ∧
        (∀ element ∈ upstream, ∀ rc,
          volumeRecord executor.operationContext.resourceControls element = some rc →
          canUserAccessResource executor.operationContext.userID
            executor.operationContext.userTeamIDs rc = false →
          element ∉ emitted)) := by
  have hAbsent : ∀ (record : Value → Option ResourceControl) (emitted : List Value),
      (∀ element ∈ emitted,
        record element = none ∨
          ∃ rc, record element = some rc ∧
            canUserAccessResource executor.operationContext.userID
              executor.operationContext.userTeamIDs rc = true) →
      ∀ element : Value, ∀ rc, record element = some rc →
        canUserAccessResource executor.operationContext.userID
          executor.operationContext.userTeamIDs rc = false →
        element ∉ emitted := by
    intro record emitted hKept element rc hRecord hAccess hmem
    rcases hKept element hmem with hNone | ⟨rc2, hSome, hOk⟩
    · rw [hNone] at hRecord
      exact Option.noConfusion hRecord
    · rw [hSome] at hRecord
      cases hRecord
      rw [hOk] at hAccess
      exact Bool.noConfusion hAccess
  constructor
  · intro upstream hArray hRun
    unfold containerListOperation at hRun
    simp only [hArray, containerOwnershipStep, hAdmin, Bool.false_eq_true, if_false] at hRun
    cases hFilter : filterContainerList upstream executor.operationContext.resourceControls
        executor.operationContext.userID executor.operationContext.userTeamIDs with
    | error failure =>
      rw [hFilter] at hRun
      exact Except.noConfusion hRun
    | ok owned =>
      rw [hFilter] at hRun
      have hOwned := filterContainerList_ok upstream owned _ _ _ hFilter
      have hSub : owned.Sublist upstream := by
        rw [hOwned]
        exact List.filter_sublist _
      have hKept : ∀ element ∈ owned,
          containerRecord executor.operationContext.resourceControls element = none ∨
            ∃ rc, containerRecord executor.operationContext.resourceControls element =
                some rc ∧
              canUserAccessResource executor.operationContext.userID
                executor.operationContext.userTeamIDs rc = true := by
        intro element hmem
        rw [hOwned] at hmem
        exact (keptFor_eq_true _ _ _).1 (List.mem_filter.1 hmem).2
      cases hList : executor.labelBlackList with
      | none =>
        rw [hList] at hRun
        simp only [rewriteResponse, Except.ok.injEq] at hRun
        refine ⟨owned, by rw [← hRun], hSub, hSub.length_le, hKept, ?_⟩
        intro element _ rc hRecord hAccess
        exact hAbsent _ owned hKept element rc hRecord hAccess
      | some labelBlackList =>
        rw [hList] at hRun
        simp only [filterContainersWithBlackListedLabels, rewriteResponse,
          Except.ok.injEq] at hRun
        have hSub2 : (owned.filter
            (fun container => !hasBlackListedLabel labelBlackList container)).Sublist
            upstream := (List.filter_sublist _).trans hSub
        have hKept2 : ∀ element ∈ owned.filter
            (fun container => !hasBlackListedLabel labelBlackList container),
            containerRecord executor.operationContext.resourceControls element = none ∨
              ∃ rc, containerRecord executor.operationContext.resourceControls element =
                  some rc ∧
                canUserAccessResource executor.operationContext.userID
                  executor.operationContext.userTeamIDs rc = true := by
          intro element hmem
          exact hKept element (List.mem_filter.1 hmem).1
        refine ⟨_, by rw [← hRun], hSub2, hSub2.length_le, hKept2, ?_⟩
        intro element _ rc hRecord hAccess
        exact hAbsent _ _ hKept2 element rc hRecord hAccess
  · intro responseObject upstream hObject hVolumes hRun
    unfold volumeListOperation at hRun
    simp only [hObject, hVolumes, isNil, assertArray, volumeOwnershipStep, hAdmin,
      Bool.false_eq_true, if_false, Bool.not_false, if_true] at hRun
    cases hFilter : filterVolumeList upstream executor.operationContext.resourceControls
        executor.operationContext.userID executor.operationContext.userTeamIDs with
    | error failure =>
      rw [hFilter] at hRun
      exact Except.noConfusion hRun
    | ok owned =>
      rw [hFilter] at hRun
      have hOwned := filterVolumeList_ok upstream owned _ _ _ hFilter
      have hSub : owned.Sublist upstream := by
        rw [hOwned]
        exact List.filter_sublist _
      have hKept : ∀ element ∈ owned,
          volumeRecord executor.operationContext.resourceControls element = none ∨
            ∃ rc, volumeRecord executor.operationContext.resourceControls element =
                some rc ∧
              canUserAccessResource executor.operationContext.userID
                executor.operationContext.userTeamIDs rc = true := by
        intro element hmem
        rw [hOwned] at hmem
        exact (keptFor_eq_true _ _ _).1 (List.mem_filter.1 hmem).2
      simp only [rewriteResponse, Except.ok.injEq] at hRun
      refine ⟨owned, by rw [← hRun], hSub, hSub.length_le, hKept, ?_⟩
      intro element _ rc hRecord hAccess
      exact hAbsent _ owned hKept element rc hRecord hAccess

theorem non_administrator_list_is_filtered_witness :
    ∃ emitted,
      some (Value.array
          [Value.object [("Id", Value.string "abc")],
            Value.object [("Id", Value.string "free")]]) = some (Value.array emitted) ∧
        emitted.Sublist sampleContainers ∧ emitted.length ≤ sampleContainers.length ∧
        (∀ element ∈ emitted,
          containerRecord sampleSnapshot element = none ∨
            ∃ rc, containerRecord sampleSnapshot element = some rc ∧
              canUserAccessResource 1 [] rc = true) ∧
        (∀ element ∈ sampleContainers, ∀ rc,
          containerRecord sampleSnapshot element = some rc →
          canUserAccessResource 1 [] rc = false →
          element ∉ emitted) :=
  (non_administrator_list_is_filtered (sampleUserRequest "GET" "/containers/json")
    { StatusCode := 200, Body := some (Value.array sampleContainers) }
    (sampleExecutor sampleSnapshot)
    { StatusCode := 200,
      Body := some (Value.array
        [Value.object [("Id", Value.string "abc")],
          Value.object [("Id", Value.string "free")]]) }
    rfl).1 sampleContainers rfl rfl

/-! ## Label black list -/

/-- C28: in `containerListOperation` the black-list filter is applied to the result of the
ownership step, for an administrator and for any other principal alike, exactly when the
black list of the executor is not nil, and with a nil black list the result of the
ownership step is emitted as it is. The router hands `/containers/json` to the discipline
that puts the black list of the settings in the executor, and `/volumes` and `/services`
to the discipline whose executor has a nil black list; `volumeListOperation` does not read
the black list. -/
theorem label_black_list_only_where_configured (p : proxyTransport)
    (ops : rewriteOperations) (request : Request) (response : Response)
    (executor : operationExecutor) (responseArray owned : List Value)
    (hArray : getResponseAsJSONArray response = Except.ok responseArray)
    (hOwned : containerOwnershipStep responseArray executor = Except.ok owned) :
    (executor.labelBlackList = none →
      containerListOperation request response executor =
        Except.ok { StatusCode := 200, Body := some (Value.array owned) }) ∧
    (∀ labelBlackList filtered, executor.labelBlackList = some labelBlackList →
      filterContainersWithBlackListedLabels owned labelBlackList = Except.ok filtered →
      containerListOperation request response executor =
        Except.ok { StatusCode := 200, Body := some (Value.array filtered) }) ∧
    (request.Path = "/containers/json" →
      proxyDockerRequest p ops request =
        rewriteOperationWithLabelFiltering p request ops.containerListOperation) ∧
    (request.Path = "/volumes" →
      proxyDockerRequest p ops request =
        rewriteOperation p request ops.volumeListOperation) ∧
    (request.Path = "/services" →
      proxyDockerRequest p ops request =
        rewriteOperation p request ops.serviceListOperation) ∧
    (∀ calls operationContext settings operation,
      createOperationContext p request = (calls, Except.ok operationContext) →
      p.SettingsService.Settings = Except.ok settings →
      rewriteOperationWithLabelFiltering p request operation =
        after (calls ++ [Effect.settings])
          (executeRequestAndRewriteResponse p request operation
            { operationContext := operationContext,
              labelBlackList := settings.BlackListedLabels })) ∧
    (∀ calls operationContext operation,
      createOperationContext p request = (calls, Except.ok operationContext) →
      rewriteOperation p request operation =
        after calls
          (executeRequestAndRewriteResponse p request operation
            { operationContext := operationContext, labelBlackList := none })) ∧
    (∀ labelBlackList,
      volumeListOperation request response
          { operationContext := executor.operationContext,
            labelBlackList := labelBlackList } =
        volumeListOperation request response
          { operationContext := executor.operationContext, labelBlackList := none }) := by
  refine ⟨?_, ?_, ?_, ?_, ?_, ?_, ?_, ?_⟩
  · intro hNone
    simp [containerListOperation, hArray, hOwned, hNone, rewriteResponse, StatusOK]
  · intro labelBlackList filtered hSome hFiltered
    simp [containerListOperation, hArray, hOwned, hSome, hFiltered, rewriteResponse,
      StatusOK]
  · intro hPath
    have h1 : HasPrefix "/containers/json" "/containers" = true := by decide
    simp [proxyDockerRequest, proxyContainerRequest, hPath, h1]
  · intro hPath
    have h1 : HasPrefix "/volumes" "/containers" = false := by decide
    have h2 : HasPrefix "/volumes" "/services" = false := by decide
    have h3 : HasPrefix "/volumes" "/volumes" = true := by decide
    simp [proxyDockerRequest, proxyVolumeRequest, hPath, h1, h2, h3]
  · intro hPath
    have h1 : HasPrefix "/services" "/containers" = false := by decide
    have h2 : HasPrefix "/services" "/services" = true := by decide
    simp [proxyDockerRequest, proxyServiceRequest, hPath, h1, h2]
  · intro calls operationContext settings operation hContext hSettings
    simp [rewriteOperationWithLabelFiltering, hContext, hSettings]
  · intro calls operationContext operation hContext
    simp [rewriteOperation, hContext]
  · intro labelBlackList
    rfl

theorem label_black_list_only_where_configured_witness :
    containerListOperation (sampleAdminRequest "GET" "/containers/json")
        { StatusCode := 200, Body := some (Value.array sampleContainers) }
        { operationContext :=
            { isAdmin := true, userID := 9, userTeamIDs := [],
              resourceControls := sampleSnapshot },
          labelBlackList :=
            some [{ Name := "com.docker.swarm.service.id", Value := "svc" }] } =
      Except.ok
        { StatusCode := 200,
          Body := some (Value.array
            [Value.object (decorateObject [("Id", Value.string "abc")] rcContainerAbc),
              Value.object [("Id", Value.string "free")]]) } ∧
    containerListOperation (sampleUserRequest "GET" "/containers/json")
        { StatusCode := 200, Body := some (Value.array sampleContainers) }
        (sampleExecutor sampleSnapshot) =
      Except.ok
        { StatusCode := 200,
          Body := some (Value.array
            [Value.object [("Id", Value.string "abc")],
              Value.object [("Id", Value.string "free")]]) } :=
  ⟨(label_black_list_only_where_configured
      (sampleTransport sampleResourceControls sampleMemberships) sampleOperations
      (sampleAdminRequest "GET" "/containers/json")
      { StatusCode := 200, Body := some (Value.array sampleContainers) }
      { operationContext :=
          { isAdmin := true, userID := 9, userTeamIDs := [],
            resourceControls := sampleSnapshot },
        labelBlackList :=
          some [{ Name := "com.docker.swarm.service.id", Value := "svc" }] }
      sampleContainers
      [Value.object (decorateObject [("Id", Value.string "abc")] rcContainerAbc),
        Value.object
          (decorateObject
            [("Id", Value.string "task"),
              ("Labels", Value.object
                [("com.docker.swarm.service.id", Value.string "svc")])]
            (rcServiceSvc 2)),
        Value.object [("Id", Value.string "free")]]
      rfl rfl).2.1 _ _ rfl rfl,
    (label_black_list_only_where_configured
      (sampleTransport sampleResourceControls sampleMemberships) sampleOperations
      (sampleUserRequest "GET" "/containers/json")
      { StatusCode := 200, Body := some (Value.array sampleContainers) }
      (sampleExecutor sampleSnapshot) sampleContainers
      [Value.object [("Id", Value.string "abc")],
        Value.object [("Id", Value.string "free")]]
      rfl rfl).1 rfl⟩

/-! ## Upstream responses with a status that is no success -/

/-- C25, as stated, fails: the upstream answers the inspection of an unknown container by
404 and a message; the inspect operation is applied to that response all the same, finds no
`Id` in it and returns the identifier-not-found error, so the caller gets an error and not
the status and body of the upstream. -/
theorem rewrite_applies_to_not_found_response :
    sampleNotFoundResponse.StatusCode = 404 ∧
    proxyDockerRequest sampleNotFoundTransport sampleOperations
        (sampleUserRequest "GET" "/containers/xyz/json") =
      ([Effect.retrieveTokenData, Effect.resourceControls, Effect.teamMembershipsByUserID 1,
        Effect.executeDockerRequest (sampleUserRequest "GET" "/containers/xyz/json"),
        Effect.operation],
        Reply.failure (some sampleNotFoundResponse) ErrDockerContainerIdentifierNotFound) :=
  ⟨rfl, rfl⟩

/-- C25, amended: in the rewrite discipline every response the upstream call returns
without error is post-processed, whatever its status: the operation is called on it and its
outcome decides the reply. Only when the upstream call itself ends by an error is the
operation not called, and the result of the upstream call is then returned as it is. -/
theorem rewrite_applies_to_every_response (p : proxyTransport) (request : Request)
    (operation : restrictedOperationRequest) (executor : operationExecutor) :
    (∀ response, p.dockerTransport request = Reply.response response →
      (executeRequestAndRewriteResponse p request operation executor).1 =
          [Effect.executeDockerRequest request, Effect.operation] ∧
        (∀ rewritten, operation request response executor = Except.ok rewritten →
          (executeRequestAndRewriteResponse p request operation executor).2 =
            Reply.response rewritten) ∧
        (∀ err, operation request response executor = Except.error (Failure.error err) →
          (executeRequestAndRewriteResponse p request operation executor).2 =
            Reply.failure (some response) err)) ∧
    (∀ response err, p.dockerTransport request = Reply.failure response err →
      executeRequestAndRewriteResponse p request operation executor =
        ([Effect.executeDockerRequest request], Reply.failure response err)) := by
  constructor
  · intro response hReply
    refine ⟨?_, ?_, ?_⟩
    · rcases executeRequestAndRewriteResponse_calls p request operation executor with
        ⟨_, hNo⟩ | ⟨h, _⟩
      · exact absurd hReply (hNo response)
      · exact h
    · intro rewritten hOp
      simp [executeRequestAndRewriteResponse, executeDockerRequest, hReply, hOp]
    · intro err hOp
      simp [executeRequestAndRewriteResponse, executeDockerRequest, hReply, hOp]
  · intro response err hReply
    simp [executeRequestAndRewriteResponse, executeDockerRequest, hReply]

theorem rewrite_applies_to_every_response_witness :
    (executeRequestAndRewriteResponse sampleNotFoundTransport
        (sampleUserRequest "GET" "/containers/xyz/json") containerInspectOperation
        (sampleExecutor sampleSnapshot)).2 =
      Reply.failure (some sampleNotFoundResponse) ErrDockerContainerIdentifierNotFound :=
  ((rewrite_applies_to_every_response sampleNotFoundTransport
      (sampleUserRequest "GET" "/containers/xyz/json") containerInspectOperation
      (sampleExecutor sampleSnapshot)).1 sampleNotFoundResponse rfl).2.2
    ErrDockerContainerIdentifierNotFound rfl

end proxy

namespace proxy

open dockm security

/-! ## The proxy registry -/

theorem ProxyMap.get_set_self (key : String) (value : ProxyHandler) (proxies : ProxyMap) :
    (proxies.Set key value).Get key = some value := by
  induction proxies with
  | nil => simp [ProxyMap.Set, ProxyMap.Get]
  | cons entry rest ih =>
    obtain ⟨k, v⟩ := entry
    by_cases h : k = key
    · simp [ProxyMap.Set, ProxyMap.Get, h]
    · simp [ProxyMap.Set, ProxyMap.Get, h, ih]

theorem ProxyMap.get_set_ne (key other : String) (value : ProxyHandler) (proxies : ProxyMap)
    (hne : other ≠ key) :
    (proxies.Set key value).Get other = proxies.Get other := by
  induction proxies with
  | nil => simp [ProxyMap.Set, ProxyMap.Get, hne.symm]
  | cons entry rest ih =>
    obtain ⟨k, v⟩ := entry
    by_cases h : k = key
    · subst h
      simp [ProxyMap.Set, ProxyMap.Get, hne.symm]
    · by_cases h2 : k = other
      · subst h2
        simp [ProxyMap.Set, ProxyMap.Get, hne]
      · simp [ProxyMap.Set, ProxyMap.Get, h, h2, ih]

theorem ProxyMap.set_set (key : String) (first second : ProxyHandler) (proxies : ProxyMap) :
    (proxies.Set key first).Set key second = proxies.Set key second := by
  induction proxies with
  | nil => simp [ProxyMap.Set]
  | cons entry rest ih =>
    obtain ⟨k, v⟩ := entry
    by_cases h : k = key
    · simp [ProxyMap.Set, h]
    · simp [ProxyMap.Set, h, ih]

theorem ProxyMap.get_remove_self (key : String) (proxies : ProxyMap) :
    (proxies.Remove key).Get key = none := by
  induction proxies with
  | nil => simp [ProxyMap.Remove, ProxyMap.Get]
  | cons entry rest ih =>
    obtain ⟨k, v⟩ := entry
    by_cases h : k = key
    · simp [ProxyMap.Remove, h, ih]
    · simp [ProxyMap.Remove, ProxyMap.Get, h, ih]

theorem ProxyMap.get_remove_ne (key other : String) (proxies : ProxyMap) (hne : other ≠ key) :
    (proxies.Remove key).Get other = proxies.Get other := by
  induction proxies with
  | nil => simp [ProxyMap.Remove, ProxyMap.Get]
  | cons entry rest ih =>
    obtain ⟨k, v⟩ := entry
    by_cases h : k = key
    · subst h
      simp [ProxyMap.Remove, ProxyMap.Get, hne.symm, ih]
    · by_cases h2 : k = other
      · subst h2
        simp [ProxyMap.Remove, ProxyMap.Get, hne]
      · simp [ProxyMap.Remove, ProxyMap.Get, h, h2, ih]

theorem ProxyMap.get_of_absent (key : String) (proxies : ProxyMap)
    (h : ∀ entry ∈ proxies, entry.1 ≠ key) : proxies.Get key = none := by
  induction proxies with
  | nil => simp [ProxyMap.Get]
  | cons entry rest ih =>
    obtain ⟨k, v⟩ := entry
    have hk : k ≠ key := h (k, v) (List.mem_cons_self _ _)
    simp only [ProxyMap.Get, hk, if_false]
    exact ih (fun e he => h e (List.mem_cons_of_mem _ he))

/-- A successful registration sets the key of the endpoint to the handler it returns, and
the handler does not depend on the manager. -/
theorem CreateAndRegisterProxy_ok (env : Environment) (manager result : Manager)
    (endpoint : Endpoint) (proxy : ProxyHandler)
    (h : CreateAndRegisterProxy env manager endpoint = (result, Except.ok proxy)) :
    ∀ other : Manager, CreateAndRegisterProxy env other endpoint =
      ({ proxies := other.proxies.Set (stringOfInt endpoint.ID) proxy }, Except.ok proxy) := by
  intro other
  unfold CreateAndRegisterProxy at h ⊢
  cases hParse : env.Parse endpoint.URL with
  | error err => rw [hParse] at h; simp at h
  | ok endpointURL =>
    rw [hParse] at h
    simp only at h ⊢
    by_cases hScheme : endpointURL.Scheme = "tcp"
    · rw [if_pos hScheme] at h ⊢
      cases hTLS : endpoint.TLS with
      | true =>
        rw [hTLS] at h
        simp only [if_true] at h ⊢
        cases hNew : newHTTPSProxy env endpointURL endpoint with
        | error err => rw [hNew] at h; simp at h
        | ok built =>
          rw [hNew] at h
          simp only [Prod.mk.injEq, Except.ok.injEq] at h
          simp [h.2]
      | false =>
        rw [hTLS] at h
        simp only [Bool.false_eq_true, if_false, Prod.mk.injEq, Except.ok.injEq] at h ⊢
        simp [h.2]
    · rw [if_neg hScheme] at h ⊢
      simp only [Prod.mk.injEq, Except.ok.injEq] at h ⊢
      simp [h.2]

end proxy

namespace proxy

open dockm security

/-- C24: after a successful `CreateAndRegisterProxy` of an endpoint, `GetProxy` on the key
of its id returns the handler that call returned; after a second successful call for the
same id, `GetProxy` returns the second handler and the registry answers every key as if the
first call had never been made; `GetProxy` returns `nil` on a new manager, on a key under
which nothing is registered, and after `DeleteProxy` of the key. -/
theorem registry_last_write_wins (env : Environment) (manager : Manager)
    (first second : Endpoint) (key : String) :
    (∀ registered proxy,
      CreateAndRegisterProxy env manager first = (registered, Except.ok proxy) →
      GetProxy registered (stringOfInt first.ID) = some proxy) ∧
    (∀ registered proxy replaced proxy2,
      CreateAndRegisterProxy env manager first = (registered, Except.ok proxy) →
      second.ID = first.ID →
      CreateAndRegisterProxy env registered second = (replaced, Except.ok proxy2) →
      GetProxy replaced (stringOfInt first.ID) = some proxy2 ∧
        ∀ other, GetProxy replaced other =
          GetProxy (CreateAndRegisterProxy env manager second).1 other) ∧
    GetProxy NewManager key = none ∧
    ((∀ entry ∈ manager.proxies, entry.1 ≠ key) → GetProxy manager key = none) ∧
    GetProxy (DeleteProxy manager key) key = none := by
  refine ⟨?_, ?_, rfl, ?_, ?_⟩
  · intro registered proxy h
    have hEq := CreateAndRegisterProxy_ok env manager registered first proxy h manager
    rw [h] at hEq
    simp only [Prod.mk.injEq] at hEq
    rw [hEq.1]
    exact ProxyMap.get_set_self _ _ _
  · intro registered proxy replaced proxy2 h hID h2
    have hFirst := CreateAndRegisterProxy_ok env manager registered first proxy h manager
    rw [h] at hFirst
    simp only [Prod.mk.injEq] at hFirst
    have hSecond := CreateAndRegisterProxy_ok env registered replaced second proxy2 h2
    have hOn := hSecond registered
    rw [h2] at hOn
    simp only [Prod.mk.injEq] at hOn
    have hDirect := hSecond manager
    constructor
    · rw [hOn.1, ← hID]
      exact ProxyMap.get_set_self _ _ _
    · intro other
      rw [hDirect, hOn.1, hFirst.1]
      simp only [GetProxy, hID]
      rw [ProxyMap.set_set]
  · intro hAbsent
    exact ProxyMap.get_of_absent key manager.proxies hAbsent
  · exact ProxyMap.get_remove_self key manager.proxies

theorem registry_last_write_wins_witness :
    GetProxy
        (CreateAndRegisterProxy sampleEnvironment
          (CreateAndRegisterProxy sampleEnvironment NewManager
            (sampleEndpoint 1 "tcp://10.0.0.1:2375" false)).1
          (sampleEndpoint 1 "tcp://10.0.0.1:2375" true)).1
        (stringOfInt 1) =
      some (ProxyHandler.reverseProxy
        { Scheme := "https", Host := "10.0.0.1:2375", Path := "" }
        (some { CACert := "ca.pem", Cert := "cert.pem", Key := "key.pem" })) :=
  ((registry_last_write_wins sampleEnvironment NewManager
      (sampleEndpoint 1 "tcp://10.0.0.1:2375" false)
      (sampleEndpoint 1 "tcp://10.0.0.1:2375" true) "1").2.1
    _ _ _ _ rfl rfl rfl).1

/-- C29, the code at the failing input: the endpoint ids 55296 and 55297 are no valid code
points, so both are converted to the key holding U+FFFD; registering the proxy of endpoint
55297 replaces what `GetProxy` returns for endpoint 55296, and deleting the proxy of
endpoint 55297 removes it. -/
theorem registry_keys_collide :
    stringOfInt 55296 = stringOfInt 55297 ∧
    GetProxy
        (CreateAndRegisterProxy sampleEnvironment NewManager
          (sampleEndpoint 55296 "unix:///var/run/a.sock" false)).1
        (stringOfInt 55296) =
      some (ProxyHandler.socketProxy "/var/run/a.sock") ∧
    GetProxy
        (CreateAndRegisterProxy sampleEnvironment
          (CreateAndRegisterProxy sampleEnvironment NewManager
            (sampleEndpoint 55296 "unix:///var/run/a.sock" false)).1
          (sampleEndpoint 55297 "unix:///var/run/b.sock" false)).1
        (stringOfInt 55296) =
      some (ProxyHandler.socketProxy "/var/run/b.sock") ∧
    GetProxy
        (DeleteProxy
          (CreateAndRegisterProxy sampleEnvironment NewManager
            (sampleEndpoint 55296 "unix:///var/run/a.sock" false)).1
          (stringOfInt 55297))
        (stringOfInt 55296) = none := by
  refine ⟨by decide, by decide, by decide, by decide⟩

end proxy

namespace handler

open dockm security proxy

/-! ## Endpoint access control -/

theorem authorizedUserLoop_eq_true (userID : UserID) (authorized : List UserID) :
    authorizedUserLoop userID authorized = true ↔ userID ∈ authorized := by
  induction authorized with
  | nil => simp [authorizedUserLoop]
  | cons a rest ih =>
    by_cases h : a = userID
    · simp [authorizedUserLoop, h]
    · have h2 : ¬ userID = a := fun hk => h hk.symm
      simp [authorizedUserLoop, h, h2, ih]

theorem authorizedMembershipLoop_eq_true (teamID : TeamID)
    (memberships : List TeamMembership) :
    authorizedMembershipLoop teamID memberships = true ↔
      ∃ membership ∈ memberships, membership.TeamID = teamID := by
  induction memberships with
  | nil => simp [authorizedMembershipLoop]
  | cons m rest ih =>
    by_cases h : m.TeamID = teamID
    · simp [authorizedMembershipLoop, h]
    · simp [authorizedMembershipLoop, h, ih]

theorem authorizedTeamLoop_eq_true (memberships : List TeamMembership)
    (authorized : List TeamID) :
    authorizedTeamLoop memberships authorized = true ↔
      ∃ membership ∈ memberships, membership.TeamID ∈ authorized := by
  induction authorized with
  | nil => simp [authorizedTeamLoop]
  | cons t rest ih =>
    cases hInner : authorizedMembershipLoop t memberships with
    | true =>
      obtain ⟨m, hm, hT⟩ := (authorizedMembershipLoop_eq_true t memberships).1 hInner
      have hgoal : authorizedTeamLoop memberships (t :: rest) = true := by
        simp [authorizedTeamLoop, hInner]
      exact ⟨fun _ => ⟨m, hm, by simp [hT]⟩, fun _ => hgoal⟩
    | false =>
      have hNo : ¬ ∃ membership ∈ memberships, membership.TeamID = t := by
        intro hex
        have := (authorizedMembershipLoop_eq_true t memberships).2 hex
        rw [hInner] at this
        exact Bool.noConfusion this
      have hStep : authorizedTeamLoop memberships (t :: rest) =
          authorizedTeamLoop memberships rest := by
        simp [authorizedTeamLoop, hInner]
      rw [hStep, ih]
      constructor
      · rintro ⟨m, hm, hT⟩
        exact ⟨m, hm, List.mem_cons_of_mem _ hT⟩
      · rintro ⟨m, hm, hT⟩
        rcases List.mem_cons.1 hT with h | h
        · exact absurd ⟨m, hm, h⟩ hNo
        · exact ⟨m, hm, h⟩

theorem checkEndpointAccessControl_eq_true (handler : DockerHandler) (endpoint : Endpoint)
    (userID : UserID) :
    checkEndpointAccessControl handler endpoint userID = true ↔
      (userID ∈ endpoint.AuthorizedUsers ∨
        ∃ membership ∈ membershipsIgnoringError handler.TeamMembershipService userID,
          membership.TeamID ∈ endpoint.AuthorizedTeams) := by
  unfold checkEndpointAccessControl
  rw [← authorizedUserLoop_eq_true, ← authorizedTeamLoop_eq_true]
  cases hU : authorizedUserLoop userID endpoint.AuthorizedUsers with
  | true => simp
  | false =>
    cases hT : authorizedTeamLoop
        (membershipsIgnoringError handler.TeamMembershipService userID)
        endpoint.AuthorizedTeams with
    | true => simp [hT]
    | false => simp [hT]

/-- C30: `checkEndpointAccessControl` returns true exactly when the user id is among the
authorized users of the endpoint or one of the memberships found for the user names an
authorized team, a failed lookup leaving no membership; `proxyRequestsToDockerAPI` hands
the request to a proxy only when the token role is Administrator or that check holds, and
answers 403 with the endpoint access-denied error, leaving the proxies alone, when the role
is not Administrator and the check fails. -/
theorem endpoint_access_control (env : Environment) (handler : DockerHandler)
    (manager : Manager) (id : String) (r : Request) :
    (∀ endpoint userID,
      checkEndpointAccessControl handler endpoint userID = true ↔
        (userID ∈ endpoint.AuthorizedUsers ∨
          ∃ membership ∈ membershipsIgnoringError handler.TeamMembershipService userID,
            membership.TeamID ∈ endpoint.AuthorizedTeams)) ∧
    (∀ userID err,
      handler.TeamMembershipService.TeamMembershipsByUserID userID = Except.error err →
      membershipsIgnoringError handler.TeamMembershipService userID = []) ∧
    (∀ userID memberships,
      handler.TeamMembershipService.TeamMembershipsByUserID userID =
        Except.ok memberships →
      membershipsIgnoringError handler.TeamMembershipService userID = memberships) ∧
    (∀ stripped proxy handed,
      (proxyRequestsToDockerAPI env handler manager id r).2 =
        Served.proxied stripped proxy handed →
      ∃ endpointID endpoint tokenData,
        Atoi id = Except.ok endpointID ∧
        handler.EndpointService.Endpoint endpointID = Except.ok endpoint ∧
        r.tokenData = some tokenData ∧
        (tokenData.Role = AdministratorRole ∨
          checkEndpointAccessControl handler endpoint tokenData.ID = true)) ∧
    (∀ endpointID endpoint tokenData,
      Atoi id = Except.ok endpointID →
      handler.EndpointService.Endpoint endpointID = Except.ok endpoint →
      r.tokenData = some tokenData →
      tokenData.Role ≠ AdministratorRole →
      checkEndpointAccessControl handler endpoint tokenData.ID = false →
      proxyRequestsToDockerAPI env handler manager id r =
        (manager, Served.errorResponse ErrEndpointAccessDenied 403)) := by
  refine ⟨checkEndpointAccessControl_eq_true handler, ?_, ?_, ?_, ?_⟩
  · intro userID err h
    simp [membershipsIgnoringError, h]
  · intro userID memberships h
    simp [membershipsIgnoringError, h]
  · intro stripped proxy handed h
    unfold proxyRequestsToDockerAPI at h
    cases hAtoi : Atoi id with
    | error err => rw [hAtoi] at h; simp at h
    | ok endpointID =>
      rw [hAtoi] at h
      simp only at h
      cases hEndpoint : handler.EndpointService.Endpoint endpointID with
      | error err => rw [hEndpoint] at h; simp at h
      | ok endpoint =>
        rw [hEndpoint] at h
        simp only at h
        cases hToken : r.tokenData with
        | none => simp [RetrieveTokenData, hToken] at h
        | some tokenData =>
          refine ⟨endpointID, endpoint, tokenData, rfl, hEndpoint, rfl, ?_⟩
          simp only [RetrieveTokenData, hToken] at h
          by_cases hRole : tokenData.Role = AdministratorRole
          · exact Or.inl hRole
          · right
            cases hCheck : checkEndpointAccessControl handler endpoint tokenData.ID with
            | true => rfl
            | false =>
              rw [hCheck] at h
              simp [hRole] at h
  · intro endpointID endpoint tokenData hAtoi hEndpoint hToken hRole hCheck
    simp [proxyRequestsToDockerAPI, hAtoi, hEndpoint, RetrieveTokenData, hToken, hRole,
      hCheck, StatusForbidden]

theorem endpoint_access_control_witness :
    proxyRequestsToDockerAPI sampleEnvironment (sampleDockerHandler sampleMemberships)
        NewManager "1" (sampleUserRequest "GET" "/1/docker/containers/json") =
      (NewManager, Served.errorResponse ErrEndpointAccessDenied 403) :=
  (endpoint_access_control sampleEnvironment (sampleDockerHandler sampleMemberships)
    NewManager "1" (sampleUserRequest "GET" "/1/docker/containers/json")).2.2.2.2
    1 (sampleEndpoint 1 "unix:///var/run/docker.sock" false)
    { ID := 1, Username := "alice", Role := StandardUserRole } rfl rfl rfl (by decide) rfl

end handler

namespace bolt

open dockm security

/-! ## Migration -/

/-- C26, the code at the failing input: from version 0, with every call succeeding,
`Migrate` makes the admin-user step and then stores the DB version; the resource-control
step and the endpoint step are not made. From version 1 both are made, in that order,
before the DB version is stored. -/
theorem migrate_from_version_0_skips_version_2_steps :
    Migrate (sampleMigrator 0) =
      ([Step.updateAdminUserToDBVersion1, Step.StoreDBVersion], none) ∧
    Migrate (sampleMigrator 1) =
      ([Step.updateResourceControlsToDBVersion2, Step.updateEndpointsToDBVersion2,
        Step.StoreDBVersion], none) :=
  ⟨rfl, rfl⟩

end bolt
